import Mathlib

/-!
# StarShift — a shallow embedding of `src/starshift/star_shift.py`

This file embeds the data model and the field-processing pipeline of the
StarShift runtime-validation library (file `star_shift.py`, the final version
of the library under `src/`), and proves/refutes the frozen claims about it.

Embedding conventions:
* Python runtime values are modelled by the inductive `Val`.  The embedded
  value universe covers the types the library's registry handles and the
  claims exercise: `None`, `bool`, `int`, `str`, lists, tuples, sets, dicts,
  `ShiftModel` instances and the `Missing` sentinel, plus floats carried as
  inert decimal literals (claims use floats only as values that mismatch
  other types; float arithmetic, IEEE behaviour and cross-type numeric
  comparison are outside the claims and not modelled).  Bytes and function
  objects are outside the universe (no claim depends on them).
* Python type expressions (the objects that appear in annotations and in the
  `_shift_types` registry) are modelled by `TypeExpr` over the registry keys
  `TypeKey`.
* Exceptions are modelled with `Except Err`; `Err` mirrors the source's
  error hierarchy plus `pyTypeError` for raw Python `TypeError`s (which are
  *not* subclasses of `ShiftError` and hence are never caught by the
  pipeline's `except ShiftError` handlers) and `outOfFuel`, which models
  non-termination of the mutually recursive handler dispatch (the Python
  original would hit Python's recursion limit); every theorem supplies
  enough fuel for the computation it talks about, so `outOfFuel` never
  occurs in any proved statement.
* The process-wide forward-reference cache `_resolved_forward_refs` is
  threaded explicitly as `FRState`, which also carries two instrumentation
  counters (`resolveCalls`, `envLookups`) counting invocations of
  `resolve_forward_ref` and of the surrounding-scope (module/builtins)
  lookup inside it; the counters do not influence any behaviour.
* In-place mutation of a field value's *elements* (the `field_info.val[i] = …`
  assignments of the repr/serialize handlers, which mutate the very object
  stored in the instance attribute because `get_val_fields` aliases it) is
  modelled by having the repr/serialize functions return the updated value
  alongside their result; the drivers store the updated value back into the
  attribute map, which is exactly the state an aliasing mutation leaves
  behind.
-/

namespace StarShift

/-- Embedded Python runtime values (see the conventions above).
`.missing` is the `Missing` sentinel class used by the source as the
"no value" marker; `.model c attrs` is an instance of the `ShiftModel`
subclass named `c` whose `__dict__` is `attrs`. -/
inductive Val where
  | none
  | bool (b : Bool)
  | int (n : Int)
  | float (lit : String)
  | str (s : String)
  | list (elems : List Val)
  | tuple (elems : List Val)
  | set (elems : List Val)
  | dict (entries : List (Val × Val))
  | model (cls : String) (attrs : List (String × Val))
  | missing

/-- The keys of the `_shift_types` registry (the dict `_shift_builtin_types`
installed by `reset_starshift_globals`), plus `otherK` for any hashable
object that is not a registry key (e.g. an unregistered class). -/
inductive TypeKey where
  | missingK
  | intK
  | boolK
  | floatK
  | strK
  | bytesK
  | bytearrayK
  | noneK
  | anyK
  | listK
  | setK
  | frozensetK
  | tupleK
  | callableK
  | dictK
  | unionK
  | optionalK
  | literalK
  | shiftModelK
  | forwardRefK
  | shiftFieldK
  | otherK (name : String)
  deriving Repr, DecidableEq

/-- Python type expressions as they occur in field annotations.
* `key k` — a plain class or typing special form (e.g. `int`, `Any`,
  `ShiftField`, unparameterized `list`).
* `generic origin args` — a parameterized alias such as `list[int]`,
  `Union[int, str]` (note `Optional[X]` evaluates to `Union[X, None]` at
  runtime, so it appears as `generic unionK [X, key noneK]`), or
  `Literal[…]` whose args are values (`value v`).
* `fref name` — a `typing.ForwardRef` instance.
* `modelClass name` — a user-defined `ShiftModel` subclass.
* `value v` — a non-type object appearing in type position (the registry's
  raw-object fallback inspects `type(v)`). -/
inductive TypeExpr where
  | key (k : TypeKey)
  | generic (origin : TypeKey) (args : List TypeExpr)
  | fref (name : String)
  | modelClass (name : String)
  | value (v : Val)

/-- Identifiers for the thirteen handler bundles built at the bottom of the
source file (`missing_shift_type`, `base_shift_type`, …).  Each stands for
the `ShiftType` dataclass holding that category's five functions. -/
inductive HandlerId where
  | missingH
  | baseH
  | noneH
  | anyH
  | oneOfValH
  | oneOfH
  | allOfSingleH
  | allOfManyH
  | allOfPairH
  | callableH
  | forwardRefH
  | shiftH
  | shiftFieldH
  deriving Repr, DecidableEq

/-- The registry contents after `reset_starshift_globals()`: the literal
key/handler table `_shift_builtin_types`. -/
def shiftTypes : TypeKey → Option HandlerId
  | .missingK => some .missingH
  | .intK => some .baseH
  | .boolK => some .baseH
  | .floatK => some .baseH
  | .strK => some .baseH
  | .bytesK => some .baseH
  | .bytearrayK => some .baseH
  | .noneK => some .noneH
  | .anyK => some .anyH
  | .listK => some .allOfSingleH
  | .setK => some .allOfSingleH
  | .frozensetK => some .allOfSingleH
  | .tupleK => some .allOfManyH
  | .callableK => some .callableH
  | .dictK => some .allOfPairH
  | .unionK => some .oneOfH
  | .optionalK => some .oneOfH
  | .literalK => some .oneOfValH
  | .shiftModelK => some .shiftH
  | .forwardRefK => some .forwardRefH
  | .shiftFieldK => some .shiftFieldH
  | .otherK _ => Option.none

/-- `typing.get_origin`: the generic origin of a parameterized alias, `None`
for everything else (for a plain class or a `ForwardRef` there is no
origin). -/
def getOrigin : TypeExpr → Option TypeKey
  | .generic o _ => some o
  | _ => Option.none

/-- `typing.get_args`: the argument tuple of a parameterized alias, empty for
everything else. -/
def getArgs : TypeExpr → List TypeExpr
  | .generic _ args => args
  | _ => []

/-- `type(v)` of an embedded value, as a registry key (used by the registry's
raw-object fallback `typ = type(typ)`).  The class of a `ShiftModel`
instance is the (unregistered) subclass itself, and a `Missing` *instance*
never occurs, so both map to `otherK`. -/
def runtimeKey : Val → TypeKey
  | .none => .noneK
  | .bool _ => .boolK
  | .int _ => .intK
  | .float _ => .floatK
  | .str _ => .strK
  | .list _ => .listK
  | .tuple _ => .tupleK
  | .set _ => .setK
  | .dict _ => .dictK
  | .model c _ => .otherK c
  | .missing => .otherK "Missing"

mutual

/-- The `TypeError` CPython raises when the registry's step-1 membership
test `typ in _shift_types` hashes an unhashable type expression: `hash(v)`
fails outright for a `list`, `set` or `dict`, and `tuple.__hash__` hashes
the elements left to right, so a tuple fails with the message of its first
unhashable element.  `unhashName v` is the class name that `TypeError`
names (`unhashable type: '…'`), `Option.none` when the hash succeeds.  (A
`ShiftModel` instance carries an explicit `__hash__` (source line 2616)
that runs the full `serialize()` pipeline; the pure lookup cannot run
phases, so the embedding leaves that hash out of `unhashName` and no
theorem quantifies over model instances in type position — `Val.hashOk`
below excludes them too.) -/
def Val.unhashName : Val → Option String
  | .list _ => some "list"
  | .set _ => some "set"
  | .dict _ => some "dict"
  | .tuple xs => unhashNameL xs
  | _ => Option.none

/-- The first unhashable element's class name in a tuple's elementwise
hash, `Option.none` when every element hashes. -/
def unhashNameL : List Val → Option String
  | [] => Option.none
  | x :: rest =>
    match Val.unhashName x with
    | some n => some n
    | Option.none => unhashNameL rest

end

mutual

/-- Values whose hash in the registry-membership test is total and phase
free: the scalar classes, `Missing`, and tuples of such values.  (Lists,
sets and dicts raise `TypeError`; a `ShiftModel` instance's hash runs
`serialize()`, so it is excluded here as well.) -/
def Val.hashOk : Val → Bool
  | .none => true
  | .bool _ => true
  | .int _ => true
  | .float _ => true
  | .str _ => true
  | .missing => true
  | .tuple xs => hashOkL xs
  | _ => false

/-- Elementwise `Val.hashOk` over a tuple's elements. -/
def hashOkL : List Val → Bool
  | [] => true
  | x :: rest => Val.hashOk x && hashOkL rest

end

/-- The hash failure of the step-1 membership test, lifted to type
expressions: only a raw value in type position can be unhashable — plain
classes, parameterized aliases, `ForwardRef` instances and `ShiftModel`
subclasses all hash.  (The source's `hasattr(typ, "__hash__")` guard at
line 518 never fires: every CPython object carries the attribute, for an
unhashable class bound to `None`, so it does not prevent the
`TypeError`.) -/
def hashErrName : TypeExpr → Option String
  | .value v => v.unhashName
  | _ => Option.none

/-- The comparison part of step 1 of the registry lookup (`typ in
_shift_types`, once `hash(typ)` has succeeded): only a plain class /
special form can equal a key of the builtin registry — a parameterized
alias, a `ForwardRef` instance, a user `ShiftModel` subclass and a
hashable raw value never are.  The hash failure on an unhashable raw
expression is modelled in `get_shift_type` via `hashErrName`. -/
def lookupExact : TypeExpr → Option HandlerId
  | .key k => shiftTypes k
  | _ => Option.none

/-- Step 2: generic-origin match. -/
def lookupOrigin (t : TypeExpr) : Option HandlerId :=
  match getOrigin t with
  | some o => shiftTypes o
  | Option.none => Option.none

/-- Step 3: `isinstance(typ, ForwardRef)` — unconditional access
`_shift_types[ForwardRef]`, present after reset. -/
def lookupForwardRef : TypeExpr → Option HandlerId
  | .fref _ => some .forwardRefH
  | _ => Option.none

/-- Step 4: `issubclass(typ, ShiftModel)` inside `try`.  True exactly for a
user `ShiftModel` subclass (`ShiftModel` itself is caught by step 1); for a
non-class the call raises `TypeError`, which the `except` swallows. -/
def lookupModelSub : TypeExpr → Option HandlerId
  | .modelClass _ => some .shiftH
  | _ => Option.none

/-- Step 5: `typ = type(typ); typ in _shift_types` — the raw-object fallback.
For a value, `type(v)`; for a plain class or alias, its metaclass
(`type`, `types.GenericAlias`, …) which is never a registry key; a
string in type position however has `type("…") = str`, which *is* a key. -/
def lookupRuntime : TypeExpr → Option HandlerId
  | .value v => shiftTypes (runtimeKey v)
  | _ => Option.none

/-- The error hierarchy (source lines 52–111): `ShiftTypeMismatchError`,
`UnknownShiftTypeError`, `ShiftFieldError` (field name + message),
`ShiftModelError` (model name, process, field-error list), plus
`pyTypeError` for raw Python `TypeError`s (not `ShiftError` subclasses)
and `outOfFuel` for exhausted recursion fuel (see the header). -/
inductive Err where
  | typeMismatch (msg : String)
  | unknownType (msg : String)
  | fieldError (field : String) (msg : String)
  | modelError (model : String) (process : String) (fieldErrors : List Err)
  | pyTypeError (msg : String)
  | outOfFuel

/-- `get_shift_type` (source lines 516–547): the type-registry lookup.
The step-1 membership test `typ in _shift_types` evaluates `hash(typ)`
first; for an unhashable type expression that raises `TypeError`
(`hashErrName`), which no caller catches — so the lookup is fallible, and
the cascade below it runs only when the hash succeeds. -/
def get_shift_type (t : TypeExpr) : Except Err (Option HandlerId) :=
  match hashErrName t with
  | some n => Except.error (Err.pyTypeError ("unhashable type: '" ++ n ++ "'"))
  | Option.none =>
    Except.ok (match lookupExact t with
    | some h => some h
    | Option.none =>
    match lookupOrigin t with
    | some h => some h
    | Option.none =>
    match lookupForwardRef t with
    | some h => some h
    | Option.none =>
    match lookupModelSub t with
    | some h => some h
    | Option.none =>
    lookupRuntime t)

/-- Modelled from the spec's words (§4.1 `lookup` algorithm): six checks in
order, first match wins — (1) exact key, (2) generic origin, (3)
forward-reference sentinel, (4) nested-record structural check, (5) runtime
type of the checked object, (6) else no handler.  This definition is written
from the spec's enumeration, to be compared with `get_shift_type` (written
from the source). -/
def lookupSpec (t : TypeExpr) : Option HandlerId :=
  match lookupExact t with
  | some h => some h
  | Option.none =>
  match lookupOrigin t with
  | some h => some h
  | Option.none =>
  match lookupForwardRef t with
  | some h => some h
  | Option.none =>
  match lookupModelSub t with
  | some h => some h
  | Option.none =>
  match lookupRuntime t with
  | some h => some h
  | Option.none => Option.none

/-- `val is Missing`. -/
def Val.isMissing : Val → Bool
  | .missing => true
  | _ => false

/-- `val is None`. -/
def Val.isNone : Val → Bool
  | .none => true
  | _ => false

/-- `any(x == e for e in xs)` given the comparison against `x`. -/
def memBy (p : Val → Bool) : List Val → Bool
  | [] => false
  | y :: ys => p y || memBy p ys

/-- Dict-entry search given the key and value comparisons. -/
def entryMemBy (p q : Val → Bool) : List (Val × Val) → Bool
  | [] => false
  | (k', v') :: rest => (p k' && q v') || entryMemBy p q rest

mutual

/-- Python `==` on the embedded values: numeric cross-equality between
`bool` and `int` (`True == 1`), element-wise equality on sequences, and —
as in CPython — length-plus-one-directional-containment on sets and
dicts (`set_richcompare`/`dict_equal` check `len(a) == len(b)` and that
every element/entry of `a` occurs in `b`, which suffices for real sets
and dicts, whose elements/keys are distinct).  Two `ShiftModel` instances
compare by their serialized dicts in the source (`ShiftModel.__eq__`);
for values reached *inside containers* the claims never compare models,
and structural equality of class name and attributes is used as the
stand-in. -/
def pyValEq : Val → Val → Bool
  | .none, .none => true
  | .bool a, .bool b => a == b
  | .bool a, .int b => (if a then (1 : Int) else 0) == b
  | .int a, .bool b => a == (if b then (1 : Int) else 0)
  | .int a, .int b => a == b
  | .float a, .float b => a == b
  | .str a, .str b => a == b
  | .list a, .list b => pyValEqList a b
  | .tuple a, .tuple b => pyValEqList a b
  | .set a, .set b => a.length == b.length && pyValSubset a b
  | .dict a, .dict b => a.length == b.length && pyEntriesSubset a b
  | .model c a, .model c' a' => c == c' && pyAttrsEq a a'
  | .missing, .missing => true
  | _, _ => false
termination_by structural a => a

def pyValEqList : List Val → List Val → Bool
  | [], [] => true
  | x :: xs, y :: ys => pyValEq x y && pyValEqList xs ys
  | _, _ => false
termination_by structural a => a

def pyValSubset : List Val → List Val → Bool
  | [], _ => true
  | x :: xs, ys => memBy (pyValEq x) ys && pyValSubset xs ys
termination_by structural a => a

def pyEntriesSubset : List (Val × Val) → List (Val × Val) → Bool
  | [], _ => true
  | (k, v) :: xs, ys => entryMemBy (pyValEq k) (pyValEq v) ys && pyEntriesSubset xs ys
termination_by structural a => a

def pyAttrsEq : List (String × Val) → List (String × Val) → Bool
  | [], [] => true
  | (k, v) :: xs, (k', v') :: ys => k == k' && pyValEq v v' && pyAttrsEq xs ys
  | _, _ => false
termination_by structural a => a

end

/-- `x in xs` (Python membership by `==`). -/
def pyValMem (x : Val) (ys : List Val) : Bool :=
  memBy (pyValEq x) ys


mutual

/-- Python `repr` of the embedded values.  String reprs use single quotes
(the embedded string universe has no quotes/escapes to escape); the repr of
a `ShiftModel` instance runs the library's own repr pipeline in the source
and is only ever reached through that pipeline, so the plain-value case
uses a placeholder; `repr(Missing)` is the class repr. -/
def pyRepr : Val → String
  | .none => "None"
  | .bool b => if b then "True" else "False"
  | .int n => toString n
  | .float lit => lit
  | .str s => "'" ++ s ++ "'"
  | .list xs => "[" ++ pyReprJoin xs ++ "]"
  | .tuple [] => "()"
  | .tuple [x] => "(" ++ pyRepr x ++ ",)"
  | .tuple xs => "(" ++ pyReprJoin xs ++ ")"
  | .set [] => "set()"
  | .set xs => "\x7b" ++ pyReprJoin xs ++ "\x7d"
  | .dict xs => "\x7b" ++ pyReprEntries xs ++ "\x7d"
  | .model c _ => "<" ++ c ++ " instance>"
  | .missing => "<class 'Missing'>"

def pyReprJoin : List Val → String
  | [] => ""
  | [x] => pyRepr x
  | x :: xs => pyRepr x ++ ", " ++ pyReprJoin xs

def pyReprEntries : List (Val × Val) → String
  | [] => ""
  | [(k, v)] => pyRepr k ++ ": " ++ pyRepr v
  | (k, v) :: xs => pyRepr k ++ ": " ++ pyRepr v ++ ", " ++ pyReprEntries xs

end

/-- Python `str` of the embedded values (`str` falls back to `repr` for
containers). -/
def pyStr : Val → String
  | .str s => s
  | v => pyRepr v

/-- `type(val).__name__` (note `field_info.val` holding the `Missing`
*class* has `type(Missing).__name__ == "type"`). -/
def valTypeName : Val → String
  | .none => "NoneType"
  | .bool _ => "bool"
  | .int _ => "int"
  | .float _ => "float"
  | .str _ => "str"
  | .list _ => "list"
  | .tuple _ => "tuple"
  | .set _ => "set"
  | .dict _ => "dict"
  | .model c _ => c
  | .missing => "type"

/-- `__name__` of a registry-key class (typing special forms have no real
`__name__`; those renderings are cosmetic placeholders never reached by the
claims' messages). -/
def keyName : TypeKey → String
  | .missingK => "Missing"
  | .intK => "int"
  | .boolK => "bool"
  | .floatK => "float"
  | .strK => "str"
  | .bytesK => "bytes"
  | .bytearrayK => "bytearray"
  | .noneK => "NoneType"
  | .anyK => "Any"
  | .listK => "list"
  | .setK => "set"
  | .frozensetK => "frozenset"
  | .tupleK => "tuple"
  | .callableK => "Callable"
  | .dictK => "dict"
  | .unionK => "Union"
  | .optionalK => "Optional"
  | .literalK => "Literal"
  | .shiftModelK => "ShiftModel"
  | .forwardRefK => "ForwardRef"
  | .shiftFieldK => "ShiftField"
  | .otherK n => n

/-- `typ.__name__` for the embedded type expressions (PEP 585 parameterized
aliases expose their origin's `__name__`; `ForwardRef` instances and raw
values have no `__name__` — cosmetic placeholders). -/
def typeName : TypeExpr → String
  | .key k => keyName k
  | .generic o _ => keyName o
  | .fref n => n
  | .modelClass n => n
  | .value _ => "<value>"

mutual

/-- Python `repr` of a type expression (used in `f"…{typ}…"` and
`f"…{args}…"` message interpolations). -/
def typeRepr : TypeExpr → String
  | .key .anyK => "typing.Any"
  | .key .unionK => "typing.Union"
  | .key .optionalK => "typing.Optional"
  | .key .literalK => "typing.Literal"
  | .key .callableK => "collections.abc.Callable"
  | .key k => "<class '" ++ keyName k ++ "'>"
  | .generic o args => keyName o ++ "[" ++ typeReprJoin args ++ "]"
  | .fref n => "ForwardRef('" ++ n ++ "')"
  | .modelClass n => "<class '" ++ n ++ "'>"
  | .value v => pyRepr v

def typeReprJoin : List TypeExpr → String
  | [] => ""
  | [a] => typeRepr a
  | a :: rest => typeRepr a ++ ", " ++ typeReprJoin rest

end

/-- Python's rendering of the `get_args` tuple in `f"…{args}…"`. -/
def argsRepr (args : List TypeExpr) : String :=
  match args with
  | [a] => "(" ++ typeRepr a ++ ",)"
  | _ => "(" ++ typeReprJoin args ++ ")"

/-- Is this error a `ShiftError` subclass (caught by the pipeline's
`except ShiftError` handlers)?  Raw `TypeError`s and fuel exhaustion are
not. -/
def Err.isShiftError : Err → Bool
  | .typeMismatch _ => true
  | .unknownType _ => true
  | .fieldError _ _ => true
  | .modelError _ _ _ => true
  | .pyTypeError _ => false
  | .outOfFuel => false

/-- `_str_depth` (source line 52). -/
def strDepth (depth : Nat) : String :=
  String.join (List.replicate depth "   ")

/-- The header line of `ShiftModelError.__repr__` (source 72–81): the
child-error block begins with an extra newline only at depth 0. -/
def modelErrHeader (model process : String) (n : Nat) (depth : Nat) (lines : String) : String :=
  model ++ ": encountered " ++ toString n ++ " errors during " ++ process ++ ":\n"
    ++ (if depth = 0 then "\n" else "") ++ lines

mutual

/-- `str(e)` of an embedded error: each `ShiftError` subclass passes its
`__repr__` to `Exception.__init__`, so `str(e)` is that rendering. -/
def errStr : Err → String
  | .typeMismatch m => m
  | .unknownType m => m
  | .fieldError f m => f ++ ": " ++ m
  | .modelError model process fes => modelErrHeader model process fes.length 0 (modelErrLines fes 0)
  | .pyTypeError m => m
  | .outOfFuel => "<recursion limit reached>"
termination_by structural e => e

/-- The per-child lines of `ShiftModelError.__repr__` (source 74–80). -/
def modelErrLines (fes : List Err) (depth : Nat) : String :=
  match fes with
  | [] => ""
  | e :: rest =>
    strDepth (depth + 1)
      ++ (match e with
          | .modelError m p fes' => modelErrHeader m p fes'.length (depth + 1) (modelErrLines fes' (depth + 1))
          | e' => errStr e')
      ++ "\n" ++ modelErrLines rest depth
termination_by structural fes

end

/-- `ShiftModelError.__repr__` at a given depth. -/
def modelErrRepr (model process : String) (fes : List Err) (depth : Nat) : String :=
  modelErrHeader model process fes.length depth (modelErrLines fes depth)


/-- `ShiftConfig` (source lines 124–141): exactly the six flags the final
source declares — note there is no `allow_defaults`, `allow_any`,
`allow_non_annotated` or `verbosity` field in this version. -/
structure ShiftConfig where
  do_processing : Bool := true
  fail_fast : Bool := false
  try_coerce_types : Bool := false
  allow_private_field_setting : Bool := false
  include_default_fields_in_serialization : Bool := false
  include_private_fields_in_serialization : Bool := false
  deriving Repr, DecidableEq

/-- `DEFAULT_SHIFT_CONFIG`. -/
def DEFAULT_SHIFT_CONFIG : ShiftConfig := {}

/-- `ShiftConfig.serialize` (source lines 172–186): a dict of the
non-default flags. -/
def ShiftConfig.serializeCfg (c : ShiftConfig) : Val :=
  .dict
    ((if !c.do_processing then [((.str "do_processing" : Val), (.bool c.do_processing : Val))] else [])
      ++ (if c.fail_fast then [((.str "fail_fast" : Val), (.bool c.fail_fast : Val))] else [])
      ++ (if c.try_coerce_types then [((.str "try_coerce_types" : Val), (.bool c.try_coerce_types : Val))] else [])
      ++ (if c.allow_private_field_setting then [((.str "allow_private_field_setting" : Val), (.bool c.allow_private_field_setting : Val))] else [])
      ++ (if c.include_default_fields_in_serialization then [((.str "include_default_fields_in_serialization" : Val), (.bool c.include_default_fields_in_serialization : Val))] else [])
      ++ (if c.include_private_fields_in_serialization then [((.str "include_private_fields_in_serialization" : Val), (.bool c.include_private_fields_in_serialization : Val))] else []))

/-- `ShiftConfig.__eq__` compares serialized dicts; two configs serialize
equal iff their flags are equal, so the embedded comparison is structural
equality. -/
def cfgEq (a b : ShiftConfig) : Bool :=
  a == b

/-- `ShiftField` (source lines 266–347).  Hook attributes hold user
functions; the engine's `shift_function_wrapper` dispatches on their arity
(simple form receives just the value); the embedding models hooks in the
simple form `Val → _`, and `default_factory` by the value the factory
returns. -/
structure ShiftField where
  type : TypeExpr := .key .missingK
  default : Val := .missing
  default_factory : Option Val := Option.none
  default_skips : Bool := false
  transformer : Option (Val → Val) := Option.none
  ge : Option Val := Option.none
  eq : Option Val := Option.none
  le : Option Val := Option.none
  gt : Option Val := Option.none
  ne : Option Val := Option.none
  lt : Option Val := Option.none
  min_len : Option Int := Option.none
  max_len : Option Int := Option.none
  pattern : Option String := Option.none
  check : Option (Val → Bool) := Option.none
  validator : Option (Val → Bool) := Option.none
  validator_skips : Bool := false
  setter : Option (Val → Val) := Option.none
  repr_func : Option (Val → String) := Option.none
  repr_as : Option String := Option.none
  repr_exclude : Bool := false
  serializer : Option (Val → Val) := Option.none
  serialize_as : Option String := Option.none
  serializer_exclude : Bool := false
  defer : Bool := false
  defer_transform : Bool := false
  defer_validation : Bool := false
  defer_set : Bool := false
  defer_repr : Bool := false
  defer_serialize : Bool := false

/-- `ShiftField.get_default` (source lines 359–365). -/
def ShiftField.get_default (sf : ShiftField) : Val :=
  if !sf.default.isMissing then sf.default
  else match sf.default_factory with
    | some v => v
    | Option.none => .missing

/-- The `default` slot of a field: a plain value (possibly the `Missing`
sentinel) or a `ShiftField` instance. -/
inductive Dflt where
  | v (x : Val)
  | sf (f : ShiftField)

/-- `field.val == field.default` for a `Dflt` slot: comparing any plain
value with a `ShiftField` dataclass instance is `False` in Python (the
dataclass `__eq__` returns `NotImplemented` across classes). -/
def pyValDfltEq (x : Val) (d : Dflt) : Bool :=
  match d with
  | .v w => pyValEq x w
  | .sf _ => false

/-- `ShiftFieldInfo` (source lines 246–264). -/
structure FieldInfo where
  name : String
  typ : TypeExpr := .key .missingK
  val : Val := .missing
  default : Dflt := .v .missing

/-- The process-wide forward-reference cache `_resolved_forward_refs`
(string-keyed), with two instrumentation counters: `resolveCalls` counts
invocations of `resolve_forward_ref`, `envLookups` counts how many times
the surrounding-scope (module/builtins) lookup inside it is consulted.
The counters do not influence behaviour. -/
structure FRState where
  cache : List (String × TypeExpr) := []
  resolveCalls : Nat := 0
  envLookups : Nat := 0

/-- Ordered association-list lookup (Python dict lookup by string key;
insertion order preserved). -/
def alookup {α : Type} : List (String × α) → String → Option α
  | [], _ => Option.none
  | (k', v) :: rest, k => if k' = k then some v else alookup rest k

/-- Association-list store (`d[k] = v`): overwrite in place or append. -/
def aset {α : Type} : List (String × α) → String → α → List (String × α)
  | [], k, v => [(k, v)]
  | (k', v') :: rest, k, v => if k' = k then (k, v) :: rest else (k', v') :: aset rest k v

/-- `name in d` for string-keyed dicts. -/
def ahas {α : Type} (xs : List (String × α)) (k : String) : Bool :=
  (alookup xs k).isSome

/-- `s.startswith(pre)` (character-list implementation, so that concrete
computations reduce definitionally). -/
def pyStartsWith (s pre : String) : Bool :=
  pre.data.isPrefixOf s.data

/-- `s.endswith(suf)`. -/
def pyEndsWith (s suf : String) : Bool :=
  suf.data.reverse.isPrefixOf s.data.reverse

/-- Instance attribute dictionaries (`instance.__dict__`). -/
abbrev Attrs := List (String × Val)

/-- Python's ordering comparisons (`<`, `<=`, `>`, `>=`) on the embedded
values: numeric order on int/bool (cross-comparable), lexicographic on
strings.  Other combinations raise `TypeError` (`Option.none`).  Python
lists/tuples are order-comparable element-wise, but inline constraints on
container values are outside the claims; the embedding reports the
`TypeError` branch for them. -/
def pyCompare : Val → Val → Option Ordering
  | .int a, .int b => some (compare a b)
  | .int a, .bool b => some (compare a (if b then (1 : Int) else 0))
  | .bool a, .int b => some (compare (if a then (1 : Int) else 0) b)
  | .bool a, .bool b => some (compare (if a then (1 : Int) else 0) (if b then (1 : Int) else 0))
  | .str a, .str b => some (compare a b)
  | _, _ => Option.none

/-- `len(val)`: `TypeError` (`Option.none`) for unsized values. -/
def pyLen : Val → Option Int
  | .str s => some s.length
  | .list xs => some xs.length
  | .tuple xs => some xs.length
  | .set xs => some xs.length
  | .dict kvs => some kvs.length
  | _ => Option.none

/-- `re.match(pattern, s)` restricted to the embedded pattern universe:
metacharacter-free literal patterns, for which `re.match` is exactly
"pattern is a prefix of s". -/
def reMatch (pat s : String) : Bool :=
  pat.data.isPrefixOf s.data

/-- `isinstance(v, typ)` for the class-like type expressions the base
handler and the nested-record checks receive (`bool` is a subclass of
`int` in Python).  The registry only routes plain classes here, so the
non-class cases are unreachable and return `false`.  No subclass
hierarchy between user model classes is modelled. -/
def isinstance (v : Val) (t : TypeExpr) : Bool :=
  match t, v with
  | .key .intK, .int _ => true
  | .key .intK, .bool _ => true
  | .key .boolK, .bool _ => true
  | .key .floatK, .float _ => true
  | .key .strK, .str _ => true
  | .key .noneK, .none => true
  | .key .listK, .list _ => true
  | .key .tupleK, .tuple _ => true
  | .key .setK, .set _ => true
  | .key .dictK, .dict _ => true
  | .modelClass c, .model c' _ => c == c'
  | .key .shiftModelK, .model _ _ => true
  | _, _ => false

/-- `isinstance(val, Iterable)`. -/
def isIterable : Val → Bool
  | .str _ => true
  | .list _ => true
  | .tuple _ => true
  | .set _ => true
  | .dict _ => true
  | _ => false

/-- Iteration over an embedded value: lists/tuples/sets yield their
elements, dicts their keys, strings their characters (as 1-char strings). -/
def iterElems : Val → List Val
  | .list xs => xs
  | .tuple xs => xs
  | .set xs => xs
  | .dict kvs => kvs.map Prod.fst
  | .str s => s.data.map (fun c => .str (String.mk [c]))
  | _ => []

/-- `_can_index` (source 675–682): try `val[0]` (read) then
`val[0] = val[0]` (write); any exception means "not indexable".  Reads
succeed on nonempty sequences and on dicts containing key `0`; writes only
on lists and dicts — so the test passes exactly for nonempty lists and
dicts with an integer key `0`. -/
def canIndex : Val → Bool
  | .list (_ :: _) => true
  | .dict kvs => kvs.any (fun kv => pyValEq kv.fst (.int 0))
  | _ => false

/-- `d[k] = v` on a dict: overwrite in iteration order (CPython keeps the
original key object) or append. -/
def dictSetEntry : List (Val × Val) → Val → Val → List (Val × Val)
  | [], k, x => [(k, x)]
  | (k', v') :: rest, k, x =>
    if pyValEq k' k then (k', x) :: rest else (k', v') :: dictSetEntry rest k x

/-- `val[i] = x`: in-place index assignment.  Lists are updated in place;
tuples/sets/strings raise `TypeError`; on a dict `val[i] = x`
inserts/overwrites the integer key `i`. -/
def valSetIdx : Val → Nat → Val → Except Err Val
  | .list xs, i, x => .ok (.list (xs.set i x))
  | .tuple _, _, _ => .error (.pyTypeError "'tuple' object does not support item assignment")
  | .set _, _, _ => .error (.pyTypeError "'set' object does not support item assignment")
  | .str _, _, _ => .error (.pyTypeError "'str' object does not support item assignment")
  | .dict kvs, i, x => .ok (.dict (dictSetEntry kvs (.int i) x))
  | v, _, _ => .error (.pyTypeError ("'" ++ valTypeName v ++ "' object does not support item assignment"))

/-- `get_origin(typ)(converted_list)` — converting the working list back to
the container's origin type (source lines 792–793, 827–828, 1360–1361,
1395–1396).  Only the sequence/set origins that reach this line are
constructible from a list. -/
def originConstruct : Option TypeKey → List Val → Except Err Val
  | some .listK, xs => .ok (.list xs)
  | some .setK, xs => .ok (.set xs)
  | some .frozensetK, xs => .ok (.set xs)
  | some .tupleK, xs => .ok (.tuple xs)
  | _, _ => .error (.pyTypeError "origin is not constructible from a list")

/-- `result.update(res)` with a raw (non-wrapped) `res`: succeeds only when
the value is a mapping (an iterable of key/value pairs would also work in
Python, but does not occur in the embedded fragment). -/
def updateEntries : Val → Except Err (List (Val × Val))
  | .dict kvs => .ok kvs
  | v => .error (.pyTypeError ("'" ++ valTypeName v ++ "' object is not iterable"))

/-- `SomeClass(**d)` keyword expansion: all keys must be strings. -/
def dictKwargs : List (Val × Val) → Option (List (String × Val))
  | [] => some []
  | (.str k, v) :: rest => (dictKwargs rest).map (fun r => (k, v) :: r)
  | _ => Option.none

/-- `Literal` membership `field_info.val in args`: Python `in` compares the
value with each arg by `==` (an arg that is a type object compares unequal
to any embedded value). -/
def literalMem (v : Val) (args : List TypeExpr) : Bool :=
  args.any (fun a => match a with
    | .value w => pyValEq v w
    | _ => false)

/-- `ShiftField.validate` (source 367–444): run every configured constraint
check in order (ge, eq, le, gt, ne, lt, min_len, max_len, pattern, check,
validator), appending each failing check's message; comparison
`TypeError`s produce the corresponding "could not be compared" message.
(`==`/`!=` and the embedded check/validator functions are total on the
embedded universe, so their exception branches are unreachable.) -/
def sfValidate (sf : ShiftField) (fi : FieldInfo) : List String :=
  let val := fi.val
  (match sf.ge with
   | some g => (match pyCompare val g with
      | some o => if o = .lt then ["Must be >= " ++ pyStr g] else []
      | Option.none => ["ge was set, but val could not be compared to ge"])
   | Option.none => [])
  ++ (match sf.eq with
   | some e => if !pyValEq val e then ["Must be == " ++ pyStr e] else []
   | Option.none => [])
  ++ (match sf.le with
   | some l => (match pyCompare val l with
      | some o => if o = .gt then ["Must be <= " ++ pyStr l] else []
      | Option.none => ["le was set, but val could not be compared to le"])
   | Option.none => [])
  ++ (match sf.gt with
   | some g => (match pyCompare val g with
      | some o => if o ≠ .gt then ["Must be > " ++ pyStr g] else []
      | Option.none => ["gt was set, but val could not be compared to gt"])
   | Option.none => [])
  ++ (match sf.ne with
   | some n => if pyValEq val n then ["Must be != " ++ pyStr n] else []
   | Option.none => [])
  ++ (match sf.lt with
   | some l => (match pyCompare val l with
      | some o => if o ≠ .lt then ["Must be < " ++ pyStr l] else []
      | Option.none => ["lt was set, but val could not be compared to lt"])
   | Option.none => [])
  ++ (match sf.min_len with
   | some m => (match pyLen val with
      | some n => if n ≤ m then ["len(val) must be > " ++ toString m] else []
      | Option.none => ["min_len was set, but len(val) could not be compared to min_len"])
   | Option.none => [])
  ++ (match sf.max_len with
   | some m => (match pyLen val with
      | some n => if n ≥ m then ["len(val) must be < " ++ toString m] else []
      | Option.none => ["max_len was set, but len(val) could not be compared to max_len"])
   | Option.none => [])
  ++ (match sf.pattern with
   | some p => if !reMatch p (pyStr val) then ["str(val) must match the pattern " ++ p] else []
   | Option.none => [])
  ++ (match sf.check with
   | some c => if !c val then ["val failed custom check"] else []
   | Option.none => [])
  ++ (match sf.validator with
   | some v => if !v val then ["val failed custom validator"] else []
   | Option.none => [])

/-- The per-class hook maps that `get_field_decorators` (source 2250–2325)
collects from the decorated methods.  The embedding receives them as plain
maps (hook functions in `shift_function_wrapper`'s simple form: the
wrapper inspects each hook's arity once and passes either just the value
or the field/info pair; the advanced form closes over the same data, so the
simple form is used as the model). -/
structure HookMaps where
  pre_transformer_skips : List String := []
  pre_transformers : List (String × (Val → Val)) := []
  transformers : List (String × (Val → Val)) := []
  pre_validator_skips : List String := []
  pre_validators : List (String × (Val → Bool)) := []
  validators : List (String × (Val → Bool)) := []
  setters : List (String × (Val → Val)) := []
  reprs : List (String × (Val → String)) := []
  serializers : List (String × (Val → Val)) := []

/-- One annotated, non-magic field declaration of a `ShiftModel` subclass:
name, annotation, class-level default (a value, `Missing`, or a
`ShiftField`). -/
structure FieldDecl where
  name : String
  typ : TypeExpr
  default : Dflt := .v .missing

/-- A `ShiftModel` subclass: its name, its annotated data fields in
declaration order, its effective `ShiftConfig`, and its decorator hook
maps.  (The source's second `get_fields` loop over non-annotated
`__dict__` attributes — methods, plain constants — is outside the
embedded class universe: embedded classes declare every data field with an
annotation.) -/
structure ClassDef where
  name : String
  decls : List FieldDecl
  cfg : ShiftConfig := {}
  hooks : HookMaps := {}

/-- The process-global environment: the `ShiftModel` subclasses in scope
(standing for the `_shift_info_registry` keys and the defining module's
classes) and the surrounding-scope name table for forward-reference
resolution (module globals, then builtins). -/
structure Ctx where
  classes : List ClassDef := []
  scope : List (String × TypeExpr) := []

/-- The per-run slice of `ShiftInfo` the handlers read: model name, config
and hook maps. -/
structure InfoE where
  modelName : String
  cfg : ShiftConfig
  hooks : HookMaps := {}

/-- The `ShiftInfo` built for a class (`get_shift_info`, config copied by
value). -/
def ClassDef.info (cls : ClassDef) : InfoE :=
  { modelName := cls.name, cfg := cls.cfg, hooks := cls.hooks }

/-- Class lookup in the global environment. -/
def findClass (ctx : Ctx) (n : String) : Option ClassDef :=
  ctx.classes.find? (fun c => c.name == n)

/-- `resolve_forward_ref` (source 2796–2835); the argument is already the
string name (`ForwardRef.__forward_arg__`).  Resolution order: the
process-wide cache; the current model's own name; the `__name__`s of the
classes in the model-info registry; the surrounding scope (the defining
module's namespace, then builtins — `Ctx.scope`, whose consultation is the
external lookup counted by `envLookups`); otherwise `ShiftFieldError`.
Each successful non-cache branch stores the mapping in the cache. -/
def resolveForwardRef (ctx : Ctx) (info : InfoE) (name : String) (st : FRState) :
    Except Err TypeExpr × FRState :=
  match alookup st.cache name with
  | some t => (.ok t, st)
  | Option.none =>
    if name = info.modelName then
      (.ok (.modelClass info.modelName),
        { st with cache := aset st.cache name (.modelClass info.modelName) })
    else
      match findClass ctx name with
      | some c =>
        (.ok (.modelClass c.name), { st with cache := aset st.cache name (.modelClass c.name) })
      | Option.none =>
        let st := { st with envLookups := st.envLookups + 1 }
        match alookup ctx.scope name with
        | some t => (.ok t, { st with cache := aset st.cache name t })
        | Option.none =>
          (.error (.fieldError info.modelName ("Could not resolve forward reference: " ++ name)), st)

/-- `register_forward_ref` (source 2659–2663). -/
def registerForwardRef (st : FRState) (name : String) (t : TypeExpr) : FRState :=
  { st with cache := aset st.cache name t }

/-- The cache check at the top of the four `shift_forward_ref_type_*`
handlers: `field_info.typ in _resolved_forward_refs`.  The cache is keyed
by *strings*, while `field_info.typ` is a `typing.ForwardRef` instance at
that point (only `isinstance(typ, ForwardRef)` routes to this handler),
and `ForwardRef.__eq__` against a string returns `NotImplemented`, so the
membership test never succeeds: control always proceeds to
`resolve_forward_ref`, whose own string-keyed cache check performs the
actual short-circuit. -/
def frefHandlerCacheHit (_cache : List (String × TypeExpr)) (_t : TypeExpr) : Bool :=
  false

/-- The name carried by a `ForwardRef` type expression. -/
def frefArg : TypeExpr → String
  | .fref n => n
  | t => typeName t

/-- `arg if isinstance(arg, type) else type(arg)` in the OneOf *setter*
(source 1307): real classes pass through; typing special forms,
parameterized aliases and `ForwardRef` instances are not `type` instances
and are replaced by their runtime class. -/
def setterArgTyp : TypeExpr → TypeExpr
  | .key .unionK => .key (.otherK "_SpecialForm")
  | .key .optionalK => .key (.otherK "_SpecialForm")
  | .key .literalK => .key (.otherK "_SpecialForm")
  | .key .anyK => .key (.otherK "_SpecialForm")
  | .key k => .key k
  | .generic _ _ => .key (.otherK "GenericAlias")
  | .fref _ => .key .forwardRefK
  | .modelClass n => .modelClass n
  | .value v => .key (runtimeKey v)

/-- One fuel level of the engine: the five phase dispatchers
(`shift_type_transformer` / `…_validator` / `…_setter` / `…_repr` /
`…_serializer`) plus the model-level entry points they are mutually
recursive with (construction, `serialize`, `__repr__`).  The repr and
serialize functions also return the post-state of `field_info.val` (the
aliased in-place element mutations — see the header), and the model-level
functions return the post-state of the attribute dict. -/
structure Engine where
  transformF : Ctx → InfoE → FieldInfo → FRState → Except Err Val × FRState
  validateF : Ctx → InfoE → FieldInfo → FRState → Except Err Bool × FRState
  setF : Ctx → InfoE → FieldInfo → FRState → Except Err Val × FRState
  reprF : Ctx → InfoE → FieldInfo → FRState → Except Err (Option String × Val) × FRState
  serializeF : Ctx → InfoE → FieldInfo → FRState → Except Err (Option Val × Val) × FRState
  constructF : Ctx → ClassDef → List (String × Val) → FRState → Except Err Attrs × FRState
  serializeModelF : Ctx → ClassDef → Attrs → FRState → Except Err (Val × Attrs) × FRState
  reprModelF : Ctx → ClassDef → Attrs → FRState → Except Err (String × Attrs) × FRState

/-- The fuel-exhausted engine: every entry reports `outOfFuel`
(non-termination; see the header). -/
def engineZero : Engine where
  transformF := fun _ _ _ st => (.error .outOfFuel, st)
  validateF := fun _ _ _ st => (.error .outOfFuel, st)
  setF := fun _ _ _ st => (.error .outOfFuel, st)
  reprF := fun _ _ _ st => (.error .outOfFuel, st)
  serializeF := fun _ _ _ st => (.error .outOfFuel, st)
  constructF := fun _ _ _ st => (.error .outOfFuel, st)
  serializeModelF := fun _ _ _ st => (.error .outOfFuel, st)
  reprModelF := fun _ _ _ st => (.error .outOfFuel, st)

/-! ## Validate handlers (source 957–1249) -/

/-- `shift_missing_type_validator` (960–968). -/
def shift_missing_type_validator (fi : FieldInfo) (st : FRState) : Except Err Bool × FRState :=
  if fi.val.isMissing then (.error (.typeMismatch "expected a value, got `MISSING`"), st)
  else (.ok true, st)

/-- `shift_base_type_validator` (970–977). -/
def shift_base_type_validator (fi : FieldInfo) (st : FRState) : Except Err Bool × FRState :=
  if !isinstance fi.val fi.typ then
    (.error (.typeMismatch ("expected type `" ++ typeName fi.typ ++ "`, got `" ++ valTypeName fi.val ++ "`")), st)
  else (.ok true, st)

/-- `shift_none_type_validator` (979–987). -/
def shift_none_type_validator (fi : FieldInfo) (st : FRState) : Except Err Bool × FRState :=
  if !fi.val.isNone && !fi.val.isMissing then
    (.error (.typeMismatch ("expected type `None` or Missing, got `" ++ valTypeName fi.val ++ "`")), st)
  else (.ok true, st)

/-- `shift_any_type_validator` (989–997). -/
def shift_any_type_validator (fi : FieldInfo) (st : FRState) : Except Err Bool × FRState :=
  if fi.val.isMissing then (.error (.typeMismatch "expected a value, got `MISSING`"), st)
  else (.ok true, st)

/-- The member loop of `shift_one_of_type_validator` (999–1016): try each
arg in declaration order; `return` inside the `try` exits with the nested
result (even a `False`); only `ShiftTypeMismatchError` is caught and moves
to the next arg; when every arg raised a mismatch, raise an error naming
the whole arg tuple. -/
def oneOfValidateGo (prev : Engine) (ctx : Ctx) (info : InfoE) (fi : FieldInfo) :
    List TypeExpr → FRState → Except Err Bool × FRState
  | [], st =>
    (.error (.typeMismatch ("expected one of types `" ++ argsRepr (getArgs fi.typ)
      ++ "`, got `" ++ valTypeName fi.val ++ "`")), st)
  | a :: rest, st =>
    let tmp : FieldInfo := { name := fi.name ++ "." ++ typeName a, typ := a, val := fi.val }
    match prev.validateF ctx info tmp st with
    | (.ok b, st') => (.ok b, st')
    | (.error (.typeMismatch _), st') => oneOfValidateGo prev ctx info fi rest st'
    | (.error e, st') => (.error e, st')

/-- `shift_one_of_type_validator` (999–1016). -/
def shift_one_of_type_validator (prev : Engine) (ctx : Ctx) (info : InfoE) (fi : FieldInfo)
    (st : FRState) : Except Err Bool × FRState :=
  match getArgs fi.typ with
  | [] => (.ok true, st)
  | args => oneOfValidateGo prev ctx info fi args st

/-- `shift_one_of_val_type_validator` (1018–1031): `Literal` membership. -/
def shift_one_of_val_type_validator (fi : FieldInfo) (st : FRState) : Except Err Bool × FRState :=
  match getArgs fi.typ with
  | [] => (.ok true, st)
  | args =>
    if !literalMem fi.val args then
      (.error (.typeMismatch ("expected one of values `" ++ argsRepr args ++ "`, got `" ++ pyStr fi.val ++ "`")), st)
    else (.ok true, st)

/-- The element loop of `shift_all_of_single_type_validator` (1050–1056):
an inner `False` result raises the index message, which the `except`
immediately rewraps (doubling it); an inner mismatch is wrapped with the
index message; other errors propagate. -/
def allOfSingleValidateGo (prev : Engine) (ctx : Ctx) (info : InfoE) (a : TypeExpr) (base : String) :
    List Val → Nat → FRState → Except Err Bool × FRState
  | [], _, st => (.ok true, st)
  | v :: rest, i, st =>
    let msgA := "expected all values to be of type `" ++ typeName a ++ "`, but got `"
      ++ valTypeName v ++ "` at index " ++ toString i
    let tmp : FieldInfo := { name := base ++ "." ++ typeName a ++ "[i]", typ := a, val := v }
    match prev.validateF ctx info tmp st with
    | (.ok true, st') => allOfSingleValidateGo prev ctx info a base rest (i + 1) st'
    | (.ok false, st') => (.error (.typeMismatch (msgA ++ ": " ++ msgA)), st')
    | (.error (.typeMismatch em), st') => (.error (.typeMismatch (msgA ++ ": " ++ em)), st')
    | (.error e, st') => (.error e, st')

/-- `shift_all_of_single_type_validator` (1033–1057). -/
def shift_all_of_single_type_validator (prev : Engine) (ctx : Ctx) (info : InfoE) (fi : FieldInfo)
    (st : FRState) : Except Err Bool × FRState :=
  match getArgs fi.typ with
  | [] => (.ok true, st)
  | [a] =>
    if !isIterable fi.val then
      (.error (.typeMismatch ("expected value to be list-like, got `" ++ pyStr fi.val ++ "`")), st)
    else allOfSingleValidateGo prev ctx info a fi.name (iterElems fi.val) 0 st
  | args => (.error (.typeMismatch ("expected one type arg, got `" ++ argsRepr args ++ "`")), st)

/-- The position loop of `shift_all_of_many_type_validator` (1077–1083). -/
def allOfManyValidateGo (prev : Engine) (ctx : Ctx) (info : InfoE) (base : String) :
    List (Val × TypeExpr) → Nat → FRState → Except Err Bool × FRState
  | [], _, st => (.ok true, st)
  | (v, a) :: rest, i, st =>
    let m := "expected value at index " ++ toString i ++ " to be of type `" ++ typeName a
      ++ "`, but got `" ++ valTypeName v ++ "`"
    let tmp : FieldInfo := { name := base ++ "." ++ typeName a, typ := a, val := v }
    match prev.validateF ctx info tmp st with
    | (.ok true, st') => allOfManyValidateGo prev ctx info base rest (i + 1) st'
    | (.ok false, st') => (.error (.typeMismatch (m ++ ": " ++ m)), st')
    | (.error (.typeMismatch em), st') => (.error (.typeMismatch (m ++ ": " ++ em)), st')
    | (.error e, st') => (.error e, st')

/-- `shift_all_of_many_type_validator` (1059–1084). -/
def shift_all_of_many_type_validator (prev : Engine) (ctx : Ctx) (info : InfoE) (fi : FieldInfo)
    (st : FRState) : Except Err Bool × FRState :=
  match getArgs fi.typ with
  | [] => (.ok true, st)
  | args =>
    if !isIterable fi.val then
      (.error (.typeMismatch ("expected value to be list-like, got `" ++ pyStr fi.val ++ "`")), st)
    else if (iterElems fi.val).length ≠ args.length then
      (.error (.typeMismatch ("expected " ++ toString args.length ++ " values, got "
        ++ toString (iterElems fi.val).length)), st)
    else allOfManyValidateGo prev ctx info base' ((iterElems fi.val).zip args) 0 st
where
  base' := fi.name

/-- The entry loop of `shift_all_of_pair_type_validator` (1100–1117): each
key is validated against `args[0]`, each value against `args[1]` when
present. -/
def allOfPairValidateGo (prev : Engine) (ctx : Ctx) (info : InfoE) (base : String) (a0 : TypeExpr)
    (a1? : Option TypeExpr) : List (Val × Val) → Nat → FRState → Except Err Bool × FRState
  | [], _, st => (.ok true, st)
  | (k, v) :: rest, i, st =>
    let km := "expected key at index " ++ toString i ++ " to be of type `" ++ typeName a0
      ++ "`, but got `" ++ valTypeName k ++ "`"
    let ktmp : FieldInfo := { name := base ++ "." ++ valTypeName k, typ := a0, val := k }
    match prev.validateF ctx info ktmp st with
    | (.ok true, st1) =>
      (match a1? with
       | some a1 =>
         let vm := "expected val at index " ++ toString i ++ " to be of type `" ++ typeName a1
           ++ "`, but got `" ++ valTypeName v ++ "`"
         let vtmp : FieldInfo := { name := base ++ "." ++ valTypeName v, typ := a1, val := v }
         match prev.validateF ctx info vtmp st1 with
         | (.ok true, st2) => allOfPairValidateGo prev ctx info base a0 a1? rest (i + 1) st2
         | (.ok false, st2) => (.error (.typeMismatch (vm ++ ": " ++ vm)), st2)
         | (.error (.typeMismatch em), st2) => (.error (.typeMismatch (vm ++ ": " ++ em)), st2)
         | (.error e, st2) => (.error e, st2)
       | Option.none => allOfPairValidateGo prev ctx info base a0 a1? rest (i + 1) st1)
    | (.ok false, st1) => (.error (.typeMismatch (km ++ ": " ++ km)), st1)
    | (.error (.typeMismatch em), st1) => (.error (.typeMismatch (km ++ ": " ++ em)), st1)
    | (.error e, st1) => (.error e, st1)

/-- `shift_all_of_pair_type_validator` (1086–1117). -/
def shift_all_of_pair_type_validator (prev : Engine) (ctx : Ctx) (info : InfoE) (fi : FieldInfo)
    (st : FRState) : Except Err Bool × FRState :=
  match getArgs fi.typ with
  | [] => (.ok true, st)
  | a0 :: restArgs =>
    match fi.val with
    | .dict kvs => allOfPairValidateGo prev ctx info fi.name a0 restArgs.head? kvs 0 st
    | v => (.error (.typeMismatch ("expected value to be dict-like, got `" ++ pyStr v ++ "`")), st)

/-- `shift_callable_type_validator` (1119–1181).  No embedded value is a
Python callable, so with a declared signature the `callable(val)` guard
always fails; the signature-inspection tail (which uses `inspect`) is
unreachable on the embedded universe. -/
def shift_callable_type_validator (fi : FieldInfo) (st : FRState) : Except Err Bool × FRState :=
  match getArgs fi.typ with
  | [] => (.ok true, st)
  | _ => (.error (.typeMismatch ("expected callable, got `" ++ valTypeName fi.val ++ "`")), st)

/-- `shift_forward_ref_type_validator` (1183–1201): handler-level cache
check (dead — see `frefHandlerCacheHit`), then `resolve_forward_ref` +
`register_forward_ref` + re-dispatch, with every exception from that
`try` block (including ones raised by validating the resolved type)
rewrapped as a "could not resolve forward reference" mismatch.  Fuel
exhaustion models non-termination, not a Python exception, and
propagates. -/
def shift_forward_ref_type_validator (prev : Engine) (ctx : Ctx) (info : InfoE) (fi : FieldInfo)
    (st : FRState) : Except Err Bool × FRState :=
  let name := frefArg fi.typ
  if frefHandlerCacheHit st.cache fi.typ then
    match alookup st.cache name with
    | some t => prev.validateF ctx info { fi with typ := t } st
    | Option.none => (.error .outOfFuel, st)
  else
    let st := { st with resolveCalls := st.resolveCalls + 1 }
    match resolveForwardRef ctx info name st with
    | (.error e, st') =>
      (.error (.typeMismatch ("could not resolve forward reference `" ++ typeRepr fi.typ
        ++ "`: " ++ errStr e)), st')
    | (.ok resolved, st') =>
      let st'' := registerForwardRef st' name resolved
      match prev.validateF ctx info { fi with typ := resolved } st'' with
      | (.ok b, st3) => (.ok b, st3)
      | (.error .outOfFuel, st3) => (.error .outOfFuel, st3)
      | (.error e, st3) =>
        (.error (.typeMismatch ("could not resolve forward reference `" ++ typeRepr resolved
          ++ "`: " ++ errStr e)), st3)

/-- `shift_shift_type_validator` (1203–1216): accept a `ShiftModel`
instance, accept a dict (construction deferred to the set phase), reject
otherwise.  (`issubclass(val, ShiftModel)` raises on a non-class value and
the `except` swallows it; class objects as field values are outside the
embedded universe.) -/
def shift_shift_type_validator (fi : FieldInfo) (st : FRState) : Except Err Bool × FRState :=
  match fi.val with
  | .model _ _ => (.ok true, st)
  | .dict _ => (.ok true, st)
  | v => (.error (.typeMismatch ("expected ShiftModel subclass or dict, got `" ++ valTypeName v ++ "`")), st)

/-- `shift_shift_field_type_validator` (1218–1238): require a `ShiftField`
default; return `True` when deferred or when `default_skips` is set;
otherwise run `ShiftField.validate` and raise one aggregated mismatch
joining every failing constraint's message.  Note this handler performs
*no* declared-type validation — `ShiftField.validate` checks constraints
only (the declared type is checked by the transform-phase handler). -/
def shift_shift_field_type_validator (fi : FieldInfo) (st : FRState) : Except Err Bool × FRState :=
  match fi.default with
  | .sf sf =>
    if sf.defer || sf.defer_validation then (.ok true, st)
    else if sf.default_skips then (.ok true, st)
    else
      match sfValidate sf fi with
      | [] => (.ok true, st)
      | errs => (.error (.typeMismatch ("failed ShiftField validation: " ++ String.intercalate ", " errs)), st)
  | .v w => (.error (.typeMismatch ("expected ShiftField default, got `" ++ valTypeName w ++ "`")), st)

/-! ## Transform handlers (source 684–955) -/

/-- `shift_missing_type_transformer` (687–695). -/
def shift_missing_type_transformer (fi : FieldInfo) (st : FRState) : Except Err Val × FRState :=
  if fi.val.isMissing then (.error (.typeMismatch "expected a value, got `MISSING`"), st)
  else (.ok fi.val, st)

/-- `shift_base_type_transformer` (697–705). -/
def shift_base_type_transformer (fi : FieldInfo) (st : FRState) : Except Err Val × FRState :=
  if !isinstance fi.val fi.typ then
    (.error (.typeMismatch ("expected type `" ++ typeName fi.typ ++ "`, got `" ++ valTypeName fi.val ++ "`")), st)
  else (.ok fi.val, st)

/-- `shift_none_type_transformer` (707–715): always yields `None`. -/
def shift_none_type_transformer (fi : FieldInfo) (st : FRState) : Except Err Val × FRState :=
  if !fi.val.isNone && !fi.val.isMissing then
    (.error (.typeMismatch ("expected type `None` or Missing, got `" ++ valTypeName fi.val ++ "`")), st)
  else (.ok .none, st)

/-- `shift_any_type_transformer` (717–725). -/
def shift_any_type_transformer (fi : FieldInfo) (st : FRState) : Except Err Val × FRState :=
  if fi.val.isMissing then (.error (.typeMismatch "expected a value, got `MISSING`"), st)
  else (.ok fi.val, st)

/-- The member loop of `shift_one_of_type_transformer` (737–744). -/
def oneOfTransformGo (prev : Engine) (ctx : Ctx) (info : InfoE) (fi : FieldInfo) :
    List TypeExpr → FRState → Except Err Val × FRState
  | [], st =>
    (.error (.typeMismatch ("expected one of types `" ++ argsRepr (getArgs fi.typ)
      ++ "`, got `" ++ valTypeName fi.val ++ "`")), st)
  | a :: rest, st =>
    let tmp : FieldInfo := { name := fi.name ++ "." ++ typeName a, typ := a, val := fi.val }
    match prev.transformF ctx info tmp st with
    | (.ok x, st') => (.ok x, st')
    | (.error (.typeMismatch _), st') => oneOfTransformGo prev ctx info fi rest st'
    | (.error e, st') => (.error e, st')

/-- `shift_one_of_type_transformer` (727–744). -/
def shift_one_of_type_transformer (prev : Engine) (ctx : Ctx) (info : InfoE) (fi : FieldInfo)
    (st : FRState) : Except Err Val × FRState :=
  match getArgs fi.typ with
  | [] => (.ok fi.val, st)
  | args => oneOfTransformGo prev ctx info fi args st

/-- `shift_one_of_val_type_transformer` (746–759). -/
def shift_one_of_val_type_transformer (fi : FieldInfo) (st : FRState) : Except Err Val × FRState :=
  match getArgs fi.typ with
  | [] => (.ok fi.val, st)
  | args =>
    if !literalMem fi.val args then
      (.error (.typeMismatch ("expected one of values `" ++ argsRepr args ++ "`, got `" ++ pyStr fi.val ++ "`")), st)
    else (.ok fi.val, st)

/-- The element loop of `shift_all_of_single_type_transformer` (784–789):
each element is transformed (temporary field named with the *actual*
index) and written back into the working value at its index. -/
def allOfSingleTransformGo (prev : Engine) (ctx : Ctx) (info : InfoE) (a : TypeExpr) (base : String) :
    List Val → Nat → Val → FRState → Except Err Val × FRState
  | [], _, cur, st => (.ok cur, st)
  | v :: rest, i, cur, st =>
    let tmp : FieldInfo := { name := base ++ "." ++ typeName a ++ "[" ++ toString i ++ "]", typ := a, val := v }
    match prev.transformF ctx info tmp st with
    | (.ok x, st') =>
      (match valSetIdx cur i x with
       | .ok cur' => allOfSingleTransformGo prev ctx info a base rest (i + 1) cur' st'
       | .error pe => (.error pe, st'))
    | (.error (.typeMismatch _), st') =>
      (.error (.typeMismatch ("expected all values to be of type `" ++ typeName a
        ++ "`, but got `" ++ valTypeName v ++ "` at index " ++ toString i)), st')
    | (.error e, st') => (.error e, st')

/-- `shift_all_of_single_type_transformer` (761–794): when the value fails
`_can_index` it is first converted to a list and, after the element loop,
converted back to the declared origin type. -/
def shift_all_of_single_type_transformer (prev : Engine) (ctx : Ctx) (info : InfoE) (fi : FieldInfo)
    (st : FRState) : Except Err Val × FRState :=
  match getArgs fi.typ with
  | [] => (.ok fi.val, st)
  | [a] =>
    if !isIterable fi.val then
      (.error (.typeMismatch ("expected value to be list-like, got `" ++ pyStr fi.val ++ "`")), st)
    else
      let indexable := canIndex fi.val
      let cur := if indexable then fi.val else .list (iterElems fi.val)
      (match allOfSingleTransformGo prev ctx info a fi.name (iterElems fi.val) 0 cur st with
       | (.ok cur', st') =>
         if indexable then (.ok cur', st')
         else
           (match originConstruct (getOrigin fi.typ) (iterElems cur') with
            | .ok out => (.ok out, st')
            | .error e => (.error e, st'))
       | (.error e, st') => (.error e, st'))
  | args => (.error (.typeMismatch ("expected one type arg, got `" ++ argsRepr args ++ "`")), st)

/-- The position loop of `shift_all_of_many_type_transformer` (819–824). -/
def allOfManyTransformGo (prev : Engine) (ctx : Ctx) (info : InfoE) (base : String) :
    List (Val × TypeExpr) → Nat → Val → FRState → Except Err Val × FRState
  | [], _, cur, st => (.ok cur, st)
  | (v, a) :: rest, i, cur, st =>
    let tmp : FieldInfo := { name := base ++ "." ++ typeName a, typ := a, val := v }
    match prev.transformF ctx info tmp st with
    | (.ok x, st') =>
      (match valSetIdx cur i x with
       | .ok cur' => allOfManyTransformGo prev ctx info base rest (i + 1) cur' st'
       | .error pe => (.error pe, st'))
    | (.error (.typeMismatch em), st') =>
      (.error (.typeMismatch ("expected value at index " ++ toString i ++ " to be of type `"
        ++ typeName a ++ "`, but got `" ++ valTypeName v ++ "`: " ++ em)), st')
    | (.error e, st') => (.error e, st')

/-- `shift_all_of_many_type_transformer` (796–829). -/
def shift_all_of_many_type_transformer (prev : Engine) (ctx : Ctx) (info : InfoE) (fi : FieldInfo)
    (st : FRState) : Except Err Val × FRState :=
  match getArgs fi.typ with
  | [] => (.ok fi.val, st)
  | args =>
    if !isIterable fi.val then
      (.error (.typeMismatch ("expected value to be list-like, got `" ++ pyStr fi.val ++ "`")), st)
    else if (iterElems fi.val).length ≠ args.length then
      (.error (.typeMismatch ("expected " ++ toString args.length ++ " values, got "
        ++ toString (iterElems fi.val).length)), st)
    else
      let indexable := canIndex fi.val
      let cur := if indexable then fi.val else .list (iterElems fi.val)
      (match allOfManyTransformGo prev ctx info fi.name ((iterElems fi.val).zip args) 0 cur st with
       | (.ok cur', st') =>
         if indexable then (.ok cur', st')
         else
           (match originConstruct (getOrigin fi.typ) (iterElems cur') with
            | .ok out => (.ok out, st')
            | .error e => (.error e, st'))
       | (.error e, st') => (.error e, st'))

/-- The entry loop of `shift_all_of_pair_type_transformer` (846–861),
building the fresh result dict `new_val`. -/
def allOfPairTransformGo (prev : Engine) (ctx : Ctx) (info : InfoE) (base : String) (a0 : TypeExpr)
    (a1? : Option TypeExpr) : List (Val × Val) → Nat → List (Val × Val) → FRState →
    Except Err Val × FRState
  | [], _, acc, st => (.ok (.dict acc), st)
  | (k, v) :: rest, i, acc, st =>
    let ktmp : FieldInfo := { name := base ++ "." ++ valTypeName k, typ := a0, val := k }
    match prev.transformF ctx info ktmp st with
    | (.ok k', st1) =>
      (match a1? with
       | some a1 =>
         let vtmp : FieldInfo := { name := base ++ "." ++ valTypeName v, typ := a1, val := v }
         match prev.transformF ctx info vtmp st1 with
         | (.ok x, st2) => allOfPairTransformGo prev ctx info base a0 a1? rest (i + 1) (dictSetEntry acc k' x) st2
         | (.error (.typeMismatch em), st2) =>
           (.error (.typeMismatch ("expected val at index " ++ toString i ++ " to be of type `"
             ++ typeName a1 ++ "`, but got `" ++ valTypeName v ++ "`: " ++ em)), st2)
         | (.error e, st2) => (.error e, st2)
       | Option.none => allOfPairTransformGo prev ctx info base a0 a1? rest (i + 1) (dictSetEntry acc k' v) st1)
    | (.error (.typeMismatch em), st1) =>
      (.error (.typeMismatch ("expected key at index " ++ toString i ++ " to be of type `"
        ++ typeName a0 ++ "`, but got `" ++ valTypeName k ++ "`: " ++ em)), st1)
    | (.error e, st1) => (.error e, st1)

/-- `shift_all_of_pair_type_transformer` (831–863). -/
def shift_all_of_pair_type_transformer (prev : Engine) (ctx : Ctx) (info : InfoE) (fi : FieldInfo)
    (st : FRState) : Except Err Val × FRState :=
  match getArgs fi.typ with
  | [] => (.ok fi.val, st)
  | a0 :: restArgs =>
    match fi.val with
    | .dict kvs => allOfPairTransformGo prev ctx info fi.name a0 restArgs.head? kvs 0 [] st
    | v => (.error (.typeMismatch ("expected value to be dict-like, got `" ++ pyStr v ++ "`")), st)

/-- `shift_callable_type_transformer` (865–885): see the validator's note. -/
def shift_callable_type_transformer (fi : FieldInfo) (st : FRState) : Except Err Val × FRState :=
  match getArgs fi.typ with
  | [] => (.ok fi.val, st)
  | _ => (.error (.typeMismatch ("expected callable, got `" ++ valTypeName fi.val ++ "`")), st)

/-- `shift_forward_ref_type_transformer` (887–905); same structure as the
validator's handler. -/
def shift_forward_ref_type_transformer (prev : Engine) (ctx : Ctx) (info : InfoE) (fi : FieldInfo)
    (st : FRState) : Except Err Val × FRState :=
  let name := frefArg fi.typ
  if frefHandlerCacheHit st.cache fi.typ then
    match alookup st.cache name with
    | some t => prev.transformF ctx info { fi with typ := t } st
    | Option.none => (.error .outOfFuel, st)
  else
    let st := { st with resolveCalls := st.resolveCalls + 1 }
    match resolveForwardRef ctx info name st with
    | (.error e, st') =>
      (.error (.typeMismatch ("could not resolve forward reference `" ++ typeRepr fi.typ
        ++ "`: " ++ errStr e)), st')
    | (.ok resolved, st') =>
      let st'' := registerForwardRef st' name resolved
      match prev.transformF ctx info { fi with typ := resolved } st'' with
      | (.ok x, st3) => (.ok x, st3)
      | (.error .outOfFuel, st3) => (.error .outOfFuel, st3)
      | (.error e, st3) =>
        (.error (.typeMismatch ("could not resolve forward reference `" ++ typeRepr resolved
          ++ "`: " ++ errStr e)), st3)

/-- `shift_shift_type_transformer` (907–920): pass a `ShiftModel` instance
or a dict through unchanged. -/
def shift_shift_type_transformer (fi : FieldInfo) (st : FRState) : Except Err Val × FRState :=
  match fi.val with
  | .model c attrs => (.ok (.model c attrs), st)
  | .dict kvs => (.ok (.dict kvs), st)
  | v => (.error (.typeMismatch ("expected ShiftModel subclass or dict, got `" ++ valTypeName v ++ "`")), st)

/-- `shift_shift_field_type_transformer` (922–944): substitute the
`ShiftField` default when the value is `Missing` or `None` (honouring
`default_skips`), transform against the `ShiftField`'s declared type, then
apply the custom transformer hook when present. -/
def shift_shift_field_type_transformer (prev : Engine) (ctx : Ctx) (info : InfoE) (fi : FieldInfo)
    (st : FRState) : Except Err Val × FRState :=
  match fi.default with
  | .v w => (.error (.typeMismatch ("expected ShiftField default, got `" ++ valTypeName w ++ "`")), st)
  | .sf sf =>
    if sf.defer || sf.defer_transform then (.ok fi.val, st)
    else
      let substituted := fi.val.isMissing || fi.val.isNone
      let val0 := if substituted then sf.get_default else fi.val
      if substituted && sf.default_skips then (.ok val0, st)
      else
        let tmp : FieldInfo := { name := fi.name ++ "." ++ typeName sf.type, typ := sf.type, val := val0 }
        match prev.transformF ctx info tmp st with
        | (.ok x, st') =>
          (match sf.transformer with
           | some h => (.ok (h x), st')
           | Option.none => (.ok x, st'))
        | (.error e, st') => (.error e, st')

/-! ## Set handlers (source 1251–1521) -/

/-- `shift_missing_type_setter` (1254–1262). -/
def shift_missing_type_setter (fi : FieldInfo) (st : FRState) : Except Err Val × FRState :=
  if fi.val.isMissing then (.error (.typeMismatch "expected a value, got `MISSING`"), st)
  else (.ok fi.val, st)

/-- `shift_base_type_setter` (1264–1272). -/
def shift_base_type_setter (fi : FieldInfo) (st : FRState) : Except Err Val × FRState :=
  if !isinstance fi.val fi.typ then
    (.error (.typeMismatch ("expected type `" ++ typeName fi.typ ++ "`, got `" ++ valTypeName fi.val ++ "`")), st)
  else (.ok fi.val, st)

/-- `shift_none_type_setter` (1274–1282): always yields `None`. -/
def shift_none_type_setter (fi : FieldInfo) (st : FRState) : Except Err Val × FRState :=
  if !fi.val.isNone && !fi.val.isMissing then
    (.error (.typeMismatch ("expected type `None` or Missing, got `" ++ valTypeName fi.val ++ "`")), st)
  else (.ok .none, st)

/-- `shift_any_type_setter` (1284–1292). -/
def shift_any_type_setter (fi : FieldInfo) (st : FRState) : Except Err Val × FRState :=
  if fi.val.isMissing then (.error (.typeMismatch "expected a value, got `MISSING`"), st)
  else (.ok fi.val, st)

/-- The member loop of `shift_one_of_type_setter` (1304–1312); unlike the
other OneOf loops the temporary field's type is
`arg if isinstance(arg, type) else type(arg)` (see `setterArgTyp`). -/
def oneOfSetGo (prev : Engine) (ctx : Ctx) (info : InfoE) (fi : FieldInfo) :
    List TypeExpr → FRState → Except Err Val × FRState
  | [], st =>
    (.error (.typeMismatch ("expected one of types `" ++ argsRepr (getArgs fi.typ)
      ++ "`, got `" ++ valTypeName fi.val ++ "`")), st)
  | a :: rest, st =>
    let tmp : FieldInfo := { name := fi.name ++ "." ++ typeName a, typ := setterArgTyp a, val := fi.val }
    match prev.setF ctx info tmp st with
    | (.ok x, st') => (.ok x, st')
    | (.error (.typeMismatch _), st') => oneOfSetGo prev ctx info fi rest st'
    | (.error e, st') => (.error e, st')

/-- `shift_one_of_type_setter` (1294–1312). -/
def shift_one_of_type_setter (prev : Engine) (ctx : Ctx) (info : InfoE) (fi : FieldInfo)
    (st : FRState) : Except Err Val × FRState :=
  match getArgs fi.typ with
  | [] => (.ok fi.val, st)
  | args => oneOfSetGo prev ctx info fi args st

/-- `shift_one_of_val_type_setter` (1314–1327). -/
def shift_one_of_val_type_setter (fi : FieldInfo) (st : FRState) : Except Err Val × FRState :=
  match getArgs fi.typ with
  | [] => (.ok fi.val, st)
  | args =>
    if !literalMem fi.val args then
      (.error (.typeMismatch ("expected one of values `" ++ argsRepr args ++ "`, got `" ++ pyStr fi.val ++ "`")), st)
    else (.ok fi.val, st)

/-- The element loop of `shift_all_of_single_type_setter` (1352–1357); the
temporary field name carries a literal `[i]` (unlike the transformer's
interpolated index). -/
def allOfSingleSetGo (prev : Engine) (ctx : Ctx) (info : InfoE) (a : TypeExpr) (base : String) :
    List Val → Nat → Val → FRState → Except Err Val × FRState
  | [], _, cur, st => (.ok cur, st)
  | v :: rest, i, cur, st =>
    let tmp : FieldInfo := { name := base ++ "." ++ typeName a ++ "[i]", typ := a, val := v }
    match prev.setF ctx info tmp st with
    | (.ok x, st') =>
      (match valSetIdx cur i x with
       | .ok cur' => allOfSingleSetGo prev ctx info a base rest (i + 1) cur' st'
       | .error pe => (.error pe, st'))
    | (.error (.typeMismatch _), st') =>
      (.error (.typeMismatch ("expected all values to be of type `" ++ typeName a
        ++ "`, but got `" ++ valTypeName v ++ "` at index " ++ toString i)), st')
    | (.error e, st') => (.error e, st')

/-- `shift_all_of_single_type_setter` (1329–1362). -/
def shift_all_of_single_type_setter (prev : Engine) (ctx : Ctx) (info : InfoE) (fi : FieldInfo)
    (st : FRState) : Except Err Val × FRState :=
  match getArgs fi.typ with
  | [] => (.ok fi.val, st)
  | [a] =>
    if !isIterable fi.val then
      (.error (.typeMismatch ("expected value to be list-like, got `" ++ pyStr fi.val ++ "`")), st)
    else
      let indexable := canIndex fi.val
      let cur := if indexable then fi.val else .list (iterElems fi.val)
      (match allOfSingleSetGo prev ctx info a fi.name (iterElems fi.val) 0 cur st with
       | (.ok cur', st') =>
         if indexable then (.ok cur', st')
         else
           (match originConstruct (getOrigin fi.typ) (iterElems cur') with
            | .ok out => (.ok out, st')
            | .error e => (.error e, st'))
       | (.error e, st') => (.error e, st'))
  | args => (.error (.typeMismatch ("expected one type arg, got `" ++ argsRepr args ++ "`")), st)

/-- The position loop of `shift_all_of_many_type_setter` (1387–1392). -/
def allOfManySetGo (prev : Engine) (ctx : Ctx) (info : InfoE) (base : String) :
    List (Val × TypeExpr) → Nat → Val → FRState → Except Err Val × FRState
  | [], _, cur, st => (.ok cur, st)
  | (v, a) :: rest, i, cur, st =>
    let tmp : FieldInfo := { name := base ++ "." ++ typeName a, typ := a, val := v }
    match prev.setF ctx info tmp st with
    | (.ok x, st') =>
      (match valSetIdx cur i x with
       | .ok cur' => allOfManySetGo prev ctx info base rest (i + 1) cur' st'
       | .error pe => (.error pe, st'))
    | (.error (.typeMismatch em), st') =>
      (.error (.typeMismatch ("expected value at index " ++ toString i ++ " to be of type `"
        ++ typeName a ++ "`, but got `" ++ valTypeName v ++ "`: " ++ em)), st')
    | (.error e, st') => (.error e, st')

/-- `shift_all_of_many_type_setter` (1364–1397). -/
def shift_all_of_many_type_setter (prev : Engine) (ctx : Ctx) (info : InfoE) (fi : FieldInfo)
    (st : FRState) : Except Err Val × FRState :=
  match getArgs fi.typ with
  | [] => (.ok fi.val, st)
  | args =>
    if !isIterable fi.val then
      (.error (.typeMismatch ("expected value to be list-like, got `" ++ pyStr fi.val ++ "`")), st)
    else if (iterElems fi.val).length ≠ args.length then
      (.error (.typeMismatch ("expected " ++ toString args.length ++ " values, got "
        ++ toString (iterElems fi.val).length)), st)
    else
      let indexable := canIndex fi.val
      let cur := if indexable then fi.val else .list (iterElems fi.val)
      (match allOfManySetGo prev ctx info fi.name ((iterElems fi.val).zip args) 0 cur st with
       | (.ok cur', st') =>
         if indexable then (.ok cur', st')
         else
           (match originConstruct (getOrigin fi.typ) (iterElems cur') with
            | .ok out => (.ok out, st')
            | .error e => (.error e, st'))
       | (.error e, st') => (.error e, st'))

/-- The entry loop of `shift_all_of_pair_type_setter` (1415–1429). -/
def allOfPairSetGo (prev : Engine) (ctx : Ctx) (info : InfoE) (base : String) (a0 : TypeExpr)
    (a1? : Option TypeExpr) : List (Val × Val) → Nat → List (Val × Val) → FRState →
    Except Err Val × FRState
  | [], _, acc, st => (.ok (.dict acc), st)
  | (k, v) :: rest, i, acc, st =>
    let ktmp : FieldInfo := { name := base ++ "." ++ valTypeName k, typ := a0, val := k }
    match prev.setF ctx info ktmp st with
    | (.ok k', st1) =>
      (match a1? with
       | some a1 =>
         let vtmp : FieldInfo := { name := base ++ "." ++ valTypeName v, typ := a1, val := v }
         match prev.setF ctx info vtmp st1 with
         | (.ok x, st2) => allOfPairSetGo prev ctx info base a0 a1? rest (i + 1) (dictSetEntry acc k' x) st2
         | (.error (.typeMismatch em), st2) =>
           (.error (.typeMismatch ("expected val at index " ++ toString i ++ " to be of type `"
             ++ typeName a1 ++ "`, but got `" ++ valTypeName v ++ "`: " ++ em)), st2)
         | (.error e, st2) => (.error e, st2)
       | Option.none => allOfPairSetGo prev ctx info base a0 a1? rest (i + 1) (dictSetEntry acc k' v) st1)
    | (.error (.typeMismatch em), st1) =>
      (.error (.typeMismatch ("expected key at index " ++ toString i ++ " to be of type `"
        ++ typeName a0 ++ "`, but got `" ++ valTypeName k ++ "`: " ++ em)), st1)
    | (.error e, st1) => (.error e, st1)

/-- `shift_all_of_pair_type_setter` (1399–1431). -/
def shift_all_of_pair_type_setter (prev : Engine) (ctx : Ctx) (info : InfoE) (fi : FieldInfo)
    (st : FRState) : Except Err Val × FRState :=
  match getArgs fi.typ with
  | [] => (.ok fi.val, st)
  | a0 :: restArgs =>
    match fi.val with
    | .dict kvs => allOfPairSetGo prev ctx info fi.name a0 restArgs.head? kvs 0 [] st
    | v => (.error (.typeMismatch ("expected value to be dict-like, got `" ++ pyStr v ++ "`")), st)

/-- `shift_callable_type_setter` (1433–1453): see the validator's note. -/
def shift_callable_type_setter (fi : FieldInfo) (st : FRState) : Except Err Val × FRState :=
  match getArgs fi.typ with
  | [] => (.ok fi.val, st)
  | _ => (.error (.typeMismatch ("expected callable, got `" ++ valTypeName fi.val ++ "`")), st)

/-- `shift_forward_ref_type_setter` (1455–1473). -/
def shift_forward_ref_type_setter (prev : Engine) (ctx : Ctx) (info : InfoE) (fi : FieldInfo)
    (st : FRState) : Except Err Val × FRState :=
  let name := frefArg fi.typ
  if frefHandlerCacheHit st.cache fi.typ then
    match alookup st.cache name with
    | some t => prev.setF ctx info { fi with typ := t } st
    | Option.none => (.error .outOfFuel, st)
  else
    let st := { st with resolveCalls := st.resolveCalls + 1 }
    match resolveForwardRef ctx info name st with
    | (.error e, st') =>
      (.error (.typeMismatch ("could not resolve forward reference `" ++ typeRepr fi.typ
        ++ "`: " ++ errStr e)), st')
    | (.ok resolved, st') =>
      let st'' := registerForwardRef st' name resolved
      match prev.setF ctx info { fi with typ := resolved } st'' with
      | (.ok x, st3) => (.ok x, st3)
      | (.error .outOfFuel, st3) => (.error .outOfFuel, st3)
      | (.error e, st3) =>
        (.error (.typeMismatch ("could not resolve forward reference `" ++ typeRepr resolved
          ++ "`: " ++ errStr e)), st3)

/-- `shift_shift_type_setter` (1475–1488): pass a `ShiftModel` instance
through; a dict with a class-typed field is expanded into that class's
constructor (this is where the deferred nested-record construction
happens), whose errors propagate as `ShiftError`s to the set phase. -/
def shift_shift_type_setter (prev : Engine) (ctx : Ctx) (_info : InfoE) (fi : FieldInfo)
    (st : FRState) : Except Err Val × FRState :=
  match fi.val with
  | .model c attrs => (.ok (.model c attrs), st)
  | .dict kvs =>
    (match fi.typ with
     | .modelClass c =>
       (match findClass ctx c with
        | some cls =>
          (match dictKwargs kvs with
           | some data =>
             (match prev.constructF ctx cls data st with
              | (.ok attrs, st') => (.ok (.model c attrs), st')
              | (.error e, st') => (.error e, st'))
           | Option.none => (.error (.pyTypeError "keywords must be strings"), st))
        | Option.none => (.error (.pyTypeError ("class `" ++ c ++ "` not in embedding context")), st))
     | .key .shiftModelK =>
       -- `ShiftModel(**val)`: constructing the (field-less) base class
       (match dictKwargs kvs with
        | some data =>
          (match prev.constructF ctx { name := "ShiftModel", decls := [] } data st with
           | (.ok attrs, st') => (.ok (.model "ShiftModel" attrs), st')
           | (.error e, st') => (.error e, st'))
        | Option.none => (.error (.pyTypeError "keywords must be strings"), st))
     | _ => (.error (.typeMismatch ("expected ShiftModel subclass or dict, got `" ++ valTypeName fi.val ++ "`")), st))
  | v => (.error (.typeMismatch ("expected ShiftModel subclass or dict, got `" ++ valTypeName v ++ "`")), st)

/-- `shift_shift_field_type_setter` (1490–1510). -/
def shift_shift_field_type_setter (prev : Engine) (ctx : Ctx) (info : InfoE) (fi : FieldInfo)
    (st : FRState) : Except Err Val × FRState :=
  match fi.default with
  | .v w => (.error (.typeMismatch ("expected ShiftField default, got `" ++ valTypeName w ++ "`")), st)
  | .sf sf =>
    if sf.defer || sf.defer_set then (.ok fi.val, st)
    else if sf.default_skips then (.ok fi.val, st)
    else
      let tmp : FieldInfo := { name := fi.name ++ "." ++ typeName sf.type, typ := sf.type, val := fi.val }
      match prev.setF ctx info tmp st with
      | (.ok x, st') =>
        (match sf.setter with
         | some h => (.ok (h x), st')
         | Option.none => (.ok x, st'))
      | (.error e, st') => (.error e, st')

/-! ## Repr handlers (source 1523–1768).  Each returns the repr string (or
`None`) together with the post-state of `field_info.val` (the aliased list
mutations). -/

/-- `shift_missing_type_repr` (1526–1534). -/
def shift_missing_type_repr (fi : FieldInfo) (st : FRState) : Except Err (Option String × Val) × FRState :=
  if fi.val.isMissing then (.error (.typeMismatch "expected a value, got `MISSING`"), st)
  else (.ok (some (pyRepr fi.val), fi.val), st)

/-- `shift_base_type_repr` (1536–1544). -/
def shift_base_type_repr (fi : FieldInfo) (st : FRState) : Except Err (Option String × Val) × FRState :=
  if !isinstance fi.val fi.typ then
    (.error (.typeMismatch ("expected type `" ++ typeName fi.typ ++ "`, got `" ++ valTypeName fi.val ++ "`")), st)
  else (.ok (some (pyRepr fi.val), fi.val), st)

/-- `shift_none_type_repr` (1546–1554). -/
def shift_none_type_repr (fi : FieldInfo) (st : FRState) : Except Err (Option String × Val) × FRState :=
  if !fi.val.isNone && !fi.val.isMissing then
    (.error (.typeMismatch ("expected type `None` or Missing, got `" ++ valTypeName fi.val ++ "`")), st)
  else (.ok (some (pyRepr fi.val), fi.val), st)

/-- `shift_any_type_repr` (1556–1564). -/
def shift_any_type_repr (fi : FieldInfo) (st : FRState) : Except Err (Option String × Val) × FRState :=
  if fi.val.isMissing then (.error (.typeMismatch "expected a value, got `MISSING`"), st)
  else (.ok (some (pyRepr fi.val), fi.val), st)

/-- The member loop of `shift_one_of_type_repr` (1576–1583). -/
def oneOfReprGo (prev : Engine) (ctx : Ctx) (info : InfoE) (fi : FieldInfo) :
    List TypeExpr → FRState → Except Err (Option String × Val) × FRState
  | [], st =>
    (.error (.typeMismatch ("expected one of types `" ++ argsRepr (getArgs fi.typ)
      ++ "`, got `" ++ valTypeName fi.val ++ "`")), st)
  | a :: rest, st =>
    let tmp : FieldInfo := { name := fi.name ++ "." ++ typeName a, typ := a, val := fi.val }
    match prev.reprF ctx info tmp st with
    | (.ok r, st') => (.ok r, st')
    | (.error (.typeMismatch _), st') => oneOfReprGo prev ctx info fi rest st'
    | (.error e, st') => (.error e, st')

/-- `shift_one_of_type_repr` (1566–1583). -/
def shift_one_of_type_repr (prev : Engine) (ctx : Ctx) (info : InfoE) (fi : FieldInfo)
    (st : FRState) : Except Err (Option String × Val) × FRState :=
  match getArgs fi.typ with
  | [] => (.ok (some (pyRepr fi.val), fi.val), st)
  | args => oneOfReprGo prev ctx info fi args st

/-- `shift_one_of_val_type_repr` (1585–1598). -/
def shift_one_of_val_type_repr (fi : FieldInfo) (st : FRState) : Except Err (Option String × Val) × FRState :=
  match getArgs fi.typ with
  | [] => (.ok (some (pyRepr fi.val), fi.val), st)
  | args =>
    if !literalMem fi.val args then
      (.error (.typeMismatch ("expected one of values `" ++ argsRepr args ++ "`, got `" ++ pyStr fi.val ++ "`")), st)
    else (.ok (some (pyRepr fi.val), fi.val), st)

/-- The element loop of `shift_all_of_single_type_repr` (1618–1623): each
element's repr *string* is written back into the working value at its
index (`field_info.val[i] = shift_type_repr(...)`) — for a list value
this mutates the instance's stored list in place.  A `None` repr result
stores Python `None`. -/
def allOfSingleReprGo (prev : Engine) (ctx : Ctx) (info : InfoE) (a : TypeExpr) (base : String) :
    List Val → Nat → Val → FRState → Except Err Val × FRState
  | [], _, cur, st => (.ok cur, st)
  | v :: rest, i, cur, st =>
    let tmp : FieldInfo := { name := base ++ "." ++ typeName a ++ "[i]", typ := a, val := v }
    match prev.reprF ctx info tmp st with
    | (.ok (s?, _), st') =>
      (match valSetIdx cur i (match s? with | some s => .str s | Option.none => .none) with
       | .ok cur' => allOfSingleReprGo prev ctx info a base rest (i + 1) cur' st'
       | .error pe => (.error pe, st'))
    | (.error (.typeMismatch _), st') =>
      (.error (.typeMismatch ("expected all values to be of type `" ++ typeName a
        ++ "`, but got `" ++ valTypeName v ++ "` at index " ++ toString i)), st')
    | (.error e, st') => (.error e, st')

/-- `shift_all_of_single_type_repr` (1600–1624): note there is *no*
`_can_index` conversion here (unlike transform/set), so the element
assignment hits the original container object directly. -/
def shift_all_of_single_type_repr (prev : Engine) (ctx : Ctx) (info : InfoE) (fi : FieldInfo)
    (st : FRState) : Except Err (Option String × Val) × FRState :=
  match getArgs fi.typ with
  | [] => (.ok (some (pyRepr fi.val), fi.val), st)
  | [a] =>
    if !isIterable fi.val then
      (.error (.typeMismatch ("expected value to be list-like, got `" ++ pyStr fi.val ++ "`")), st)
    else
      (match allOfSingleReprGo prev ctx info a fi.name (iterElems fi.val) 0 fi.val st with
       | (.ok cur', st') => (.ok (some (pyRepr cur'), cur'), st')
       | (.error e, st') => (.error e, st'))
  | args => (.error (.typeMismatch ("expected one type arg, got `" ++ argsRepr args ++ "`")), st)

/-- The position loop of `shift_all_of_many_type_repr` (1644–1649). -/
def allOfManyReprGo (prev : Engine) (ctx : Ctx) (info : InfoE) (base : String) :
    List (Val × TypeExpr) → Nat → Val → FRState → Except Err Val × FRState
  | [], _, cur, st => (.ok cur, st)
  | (v, a) :: rest, i, cur, st =>
    let tmp : FieldInfo := { name := base ++ "." ++ typeName a, typ := a, val := v }
    match prev.reprF ctx info tmp st with
    | (.ok (s?, _), st') =>
      (match valSetIdx cur i (match s? with | some s => .str s | Option.none => .none) with
       | .ok cur' => allOfManyReprGo prev ctx info base rest (i + 1) cur' st'
       | .error pe => (.error pe, st'))
    | (.error (.typeMismatch em), st') =>
      (.error (.typeMismatch ("expected value at index " ++ toString i ++ " to be of type `"
        ++ typeName a ++ "`, but got `" ++ valTypeName v ++ "`: " ++ em)), st')
    | (.error e, st') => (.error e, st')

/-- `shift_all_of_many_type_repr` (1626–1650): no `_can_index` conversion
either, so a tuple value raises `TypeError` at the first element
assignment. -/
def shift_all_of_many_type_repr (prev : Engine) (ctx : Ctx) (info : InfoE) (fi : FieldInfo)
    (st : FRState) : Except Err (Option String × Val) × FRState :=
  match getArgs fi.typ with
  | [] => (.ok (some (pyRepr fi.val), fi.val), st)
  | args =>
    if !isIterable fi.val then
      (.error (.typeMismatch ("expected value to be list-like, got `" ++ pyStr fi.val ++ "`")), st)
    else if (iterElems fi.val).length ≠ args.length then
      (.error (.typeMismatch ("expected " ++ toString args.length ++ " values, got "
        ++ toString (iterElems fi.val).length)), st)
    else
      (match allOfManyReprGo prev ctx info fi.name ((iterElems fi.val).zip args) 0 fi.val st with
       | (.ok cur', st') => (.ok (some (pyRepr cur'), cur'), st')
       | (.error e, st') => (.error e, st'))

/-- The entry loop of `shift_all_of_pair_type_repr` (1666–1683), building a
fresh `new_val` dict of repr strings (the original dict is not mutated). -/
def allOfPairReprGo (prev : Engine) (ctx : Ctx) (info : InfoE) (base : String) (a0 : TypeExpr)
    (a1? : Option TypeExpr) : List (Val × Val) → Nat → List (Val × Val) → FRState →
    Except Err (List (Val × Val)) × FRState
  | [], _, acc, st => (.ok acc, st)
  | (k, v) :: rest, i, acc, st =>
    let ktmp : FieldInfo := { name := base ++ "." ++ valTypeName k, typ := a0, val := k }
    match prev.reprF ctx info ktmp st with
    | (.ok (ks?, _), st1) =>
      let k' : Val := match ks? with | some s => .str s | Option.none => .none
      (match a1? with
       | some a1 =>
         let vtmp : FieldInfo := { name := base ++ "." ++ valTypeName v, typ := a1, val := v }
         match prev.reprF ctx info vtmp st1 with
         | (.ok (vs?, _), st2) =>
           allOfPairReprGo prev ctx info base a0 a1? rest (i + 1)
             (dictSetEntry acc k' (match vs? with | some s => .str s | Option.none => .none)) st2
         | (.error (.typeMismatch em), st2) =>
           (.error (.typeMismatch ("expected val at index " ++ toString i ++ " to be of type `"
             ++ typeName a1 ++ "`, but got `" ++ valTypeName v ++ "`: " ++ em)), st2)
         | (.error e, st2) => (.error e, st2)
       | Option.none => allOfPairReprGo prev ctx info base a0 a1? rest (i + 1) (dictSetEntry acc k' v) st1)
    | (.error (.typeMismatch em), st1) =>
      (.error (.typeMismatch ("expected key at index " ++ toString i ++ " to be of type `"
        ++ typeName a0 ++ "`, but got `" ++ valTypeName k ++ "`: " ++ em)), st1)
    | (.error e, st1) => (.error e, st1)

/-- `shift_all_of_pair_type_repr` (1652–1684). -/
def shift_all_of_pair_type_repr (prev : Engine) (ctx : Ctx) (info : InfoE) (fi : FieldInfo)
    (st : FRState) : Except Err (Option String × Val) × FRState :=
  match getArgs fi.typ with
  | [] => (.ok (some (pyRepr fi.val), fi.val), st)
  | a0 :: restArgs =>
    match fi.val with
    | .dict kvs =>
      (match allOfPairReprGo prev ctx info fi.name a0 restArgs.head? kvs 0 [] st with
       | (.ok newKvs, st') => (.ok (some (pyRepr (.dict newKvs)), fi.val), st')
       | (.error e, st') => (.error e, st'))
    | v => (.error (.typeMismatch ("expected value to be dict-like, got `" ++ pyStr v ++ "`")), st)

/-- `shift_callable_type_repr` (1686–1706). -/
def shift_callable_type_repr (fi : FieldInfo) (st : FRState) : Except Err (Option String × Val) × FRState :=
  match getArgs fi.typ with
  | [] => (.ok (some (pyRepr fi.val), fi.val), st)
  | _ => (.error (.typeMismatch ("expected callable, got `" ++ valTypeName fi.val ++ "`")), st)

/-- `shift_forward_ref_type_repr` (1708–1726). -/
def shift_forward_ref_type_repr (prev : Engine) (ctx : Ctx) (info : InfoE) (fi : FieldInfo)
    (st : FRState) : Except Err (Option String × Val) × FRState :=
  let name := frefArg fi.typ
  if frefHandlerCacheHit st.cache fi.typ then
    match alookup st.cache name with
    | some t => prev.reprF ctx info { fi with typ := t } st
    | Option.none => (.error .outOfFuel, st)
  else
    let st := { st with resolveCalls := st.resolveCalls + 1 }
    match resolveForwardRef ctx info name st with
    | (.error e, st') =>
      (.error (.typeMismatch ("could not resolve forward reference `" ++ typeRepr fi.typ
        ++ "`: " ++ errStr e)), st')
    | (.ok resolved, st') =>
      let st'' := registerForwardRef st' name resolved
      match prev.reprF ctx info { fi with typ := resolved } st'' with
      | (.ok r, st3) => (.ok r, st3)
      | (.error .outOfFuel, st3) => (.error .outOfFuel, st3)
      | (.error e, st3) =>
        (.error (.typeMismatch ("could not resolve forward reference `" ++ typeRepr resolved
          ++ "`: " ++ errStr e)), st3)

/-- `shift_shift_type_repr` (1728–1739): `repr(val)` of a nested model runs
the model's own `__repr__` pipeline (whose aliased mutations propagate
into the stored attribute); the `try` also wraps that call, so any
exception it raises — and the `TypeError` from `issubclass` on any
non-model, non-class value (a dict included) — becomes a
"could not inspect value" mismatch. -/
def shift_shift_type_repr (prev : Engine) (ctx : Ctx) (_info : InfoE) (fi : FieldInfo)
    (st : FRState) : Except Err (Option String × Val) × FRState :=
  match fi.val with
  | .model c attrs =>
    (match findClass ctx c with
     | some cls =>
       (match prev.reprModelF ctx cls attrs st with
        | (.ok (s, attrs'), st') => (.ok (some s, .model c attrs'), st')
        | (.error .outOfFuel, st') => (.error .outOfFuel, st')
        | (.error e, st') => (.error (.typeMismatch ("could not inspect value: " ++ errStr e)), st'))
     | Option.none => (.error (.pyTypeError ("class `" ++ c ++ "` not in embedding context")), st))
  | _ => (.error (.typeMismatch "could not inspect value: issubclass() arg 1 must be a class"), st)

/-- `shift_shift_field_type_repr` (1741–1757): `None` when deferred, the
custom repr hook when present, otherwise the declared type's repr. -/
def shift_shift_field_type_repr (prev : Engine) (ctx : Ctx) (info : InfoE) (fi : FieldInfo)
    (st : FRState) : Except Err (Option String × Val) × FRState :=
  match fi.default with
  | .v w => (.error (.typeMismatch ("expected ShiftField default, got `" ++ valTypeName w ++ "`")), st)
  | .sf sf =>
    if sf.defer || sf.defer_repr then (.ok (Option.none, fi.val), st)
    else
      match sf.repr_func with
      | some h => (.ok (some (h fi.val), fi.val), st)
      | Option.none =>
        let tmp : FieldInfo := { name := fi.name ++ "." ++ typeName sf.type, typ := sf.type, val := fi.val }
        prev.reprF ctx info tmp st

/-! ## Serialize handlers (source 1770–2015).  Each returns the serialized
value (or `None`) together with the post-state of `field_info.val`. -/

/-- `shift_missing_type_serializer` (1773–1781). -/
def shift_missing_type_serializer (fi : FieldInfo) (st : FRState) : Except Err (Option Val × Val) × FRState :=
  if fi.val.isMissing then (.error (.typeMismatch "expected a value, got `MISSING`"), st)
  else (.ok (some fi.val, fi.val), st)

/-- `shift_base_type_serializer` (1783–1791). -/
def shift_base_type_serializer (fi : FieldInfo) (st : FRState) : Except Err (Option Val × Val) × FRState :=
  if !isinstance fi.val fi.typ then
    (.error (.typeMismatch ("expected type `" ++ typeName fi.typ ++ "`, got `" ++ valTypeName fi.val ++ "`")), st)
  else (.ok (some fi.val, fi.val), st)

/-- `shift_none_type_serializer` (1793–1801): returns the value itself
(unlike the transformer, which normalizes to `None`). -/
def shift_none_type_serializer (fi : FieldInfo) (st : FRState) : Except Err (Option Val × Val) × FRState :=
  if !fi.val.isNone && !fi.val.isMissing then
    (.error (.typeMismatch ("expected type `None` or Missing, got `" ++ valTypeName fi.val ++ "`")), st)
  else (.ok (some fi.val, fi.val), st)

/-- `shift_any_type_serializer` (1803–1811). -/
def shift_any_type_serializer (fi : FieldInfo) (st : FRState) : Except Err (Option Val × Val) × FRState :=
  if fi.val.isMissing then (.error (.typeMismatch "expected a value, got `MISSING`"), st)
  else (.ok (some fi.val, fi.val), st)

/-- The member loop of `shift_one_of_type_serializer` (1823–1830). -/
def oneOfSerializeGo (prev : Engine) (ctx : Ctx) (info : InfoE) (fi : FieldInfo) :
    List TypeExpr → FRState → Except Err (Option Val × Val) × FRState
  | [], st =>
    (.error (.typeMismatch ("expected one of types `" ++ argsRepr (getArgs fi.typ)
      ++ "`, got `" ++ valTypeName fi.val ++ "`")), st)
  | a :: rest, st =>
    let tmp : FieldInfo := { name := fi.name ++ "." ++ typeName a, typ := a, val := fi.val }
    match prev.serializeF ctx info tmp st with
    | (.ok r, st') => (.ok r, st')
    | (.error (.typeMismatch _), st') => oneOfSerializeGo prev ctx info fi rest st'
    | (.error e, st') => (.error e, st')

/-- `shift_one_of_type_serializer` (1813–1830). -/
def shift_one_of_type_serializer (prev : Engine) (ctx : Ctx) (info : InfoE) (fi : FieldInfo)
    (st : FRState) : Except Err (Option Val × Val) × FRState :=
  match getArgs fi.typ with
  | [] => (.ok (some fi.val, fi.val), st)
  | args => oneOfSerializeGo prev ctx info fi args st

/-- `shift_one_of_val_type_serializer` (1832–1845). -/
def shift_one_of_val_type_serializer (fi : FieldInfo) (st : FRState) : Except Err (Option Val × Val) × FRState :=
  match getArgs fi.typ with
  | [] => (.ok (some fi.val, fi.val), st)
  | args =>
    if !literalMem fi.val args then
      (.error (.typeMismatch ("expected one of values `" ++ argsRepr args ++ "`, got `" ++ pyStr fi.val ++ "`")), st)
    else (.ok (some fi.val, fi.val), st)

/-- The element loop of `shift_all_of_single_type_serializer` (1865–1870):
each element's serialized form is written back into the working value at
its index — for a list value this mutates the instance's stored list in
place.  A `None` serializer result stores Python `None`. -/
def allOfSingleSerializeGo (prev : Engine) (ctx : Ctx) (info : InfoE) (a : TypeExpr) (base : String) :
    List Val → Nat → Val → FRState → Except Err Val × FRState
  | [], _, cur, st => (.ok cur, st)
  | v :: rest, i, cur, st =>
    let tmp : FieldInfo := { name := base ++ "." ++ typeName a ++ "[i]", typ := a, val := v }
    match prev.serializeF ctx info tmp st with
    | (.ok (x?, _), st') =>
      (match valSetIdx cur i (match x? with | some x => x | Option.none => .none) with
       | .ok cur' => allOfSingleSerializeGo prev ctx info a base rest (i + 1) cur' st'
       | .error pe => (.error pe, st'))
    | (.error (.typeMismatch _), st') =>
      (.error (.typeMismatch ("expected all values to be of type `" ++ typeName a
        ++ "`, but got `" ++ valTypeName v ++ "` at index " ++ toString i)), st')
    | (.error e, st') => (.error e, st')

/-- `shift_all_of_single_type_serializer` (1847–1871): no `_can_index`
conversion (unlike transform/set), so the element assignment hits the
original container object — `TypeError` on sets/strings. -/
def shift_all_of_single_type_serializer (prev : Engine) (ctx : Ctx) (info : InfoE) (fi : FieldInfo)
    (st : FRState) : Except Err (Option Val × Val) × FRState :=
  match getArgs fi.typ with
  | [] => (.ok (some fi.val, fi.val), st)
  | [a] =>
    if !isIterable fi.val then
      (.error (.typeMismatch ("expected value to be list-like, got `" ++ pyStr fi.val ++ "`")), st)
    else
      (match allOfSingleSerializeGo prev ctx info a fi.name (iterElems fi.val) 0 fi.val st with
       | (.ok cur', st') => (.ok (some cur', cur'), st')
       | (.error e, st') => (.error e, st'))
  | args => (.error (.typeMismatch ("expected one type arg, got `" ++ argsRepr args ++ "`")), st)

/-- The position loop of `shift_all_of_many_type_serializer` (1891–1896). -/
def allOfManySerializeGo (prev : Engine) (ctx : Ctx) (info : InfoE) (base : String) :
    List (Val × TypeExpr) → Nat → Val → FRState → Except Err Val × FRState
  | [], _, cur, st => (.ok cur, st)
  | (v, a) :: rest, i, cur, st =>
    let tmp : FieldInfo := { name := base ++ "." ++ typeName a, typ := a, val := v }
    match prev.serializeF ctx info tmp st with
    | (.ok (x?, _), st') =>
      (match valSetIdx cur i (match x? with | some x => x | Option.none => .none) with
       | .ok cur' => allOfManySerializeGo prev ctx info base rest (i + 1) cur' st'
       | .error pe => (.error pe, st'))
    | (.error (.typeMismatch em), st') =>
      (.error (.typeMismatch ("expected value at index " ++ toString i ++ " to be of type `"
        ++ typeName a ++ "`, but got `" ++ valTypeName v ++ "`: " ++ em)), st')
    | (.error e, st') => (.error e, st')

/-- `shift_all_of_many_type_serializer` (1873–1897): no `_can_index`
conversion, so a tuple value raises `TypeError` at the first element
assignment. -/
def shift_all_of_many_type_serializer (prev : Engine) (ctx : Ctx) (info : InfoE) (fi : FieldInfo)
    (st : FRState) : Except Err (Option Val × Val) × FRState :=
  match getArgs fi.typ with
  | [] => (.ok (some fi.val, fi.val), st)
  | args =>
    if !isIterable fi.val then
      (.error (.typeMismatch ("expected value to be list-like, got `" ++ pyStr fi.val ++ "`")), st)
    else if (iterElems fi.val).length ≠ args.length then
      (.error (.typeMismatch ("expected " ++ toString args.length ++ " values, got "
        ++ toString (iterElems fi.val).length)), st)
    else
      (match allOfManySerializeGo prev ctx info fi.name ((iterElems fi.val).zip args) 0 fi.val st with
       | (.ok cur', st') => (.ok (some cur', cur'), st')
       | (.error e, st') => (.error e, st'))

/-- The entry loop of `shift_all_of_pair_type_serializer` (1915–1929),
building a fresh `new_val` (the original dict is not mutated). -/
def allOfPairSerializeGo (prev : Engine) (ctx : Ctx) (info : InfoE) (base : String) (a0 : TypeExpr)
    (a1? : Option TypeExpr) : List (Val × Val) → Nat → List (Val × Val) → FRState →
    Except Err (List (Val × Val)) × FRState
  | [], _, acc, st => (.ok acc, st)
  | (k, v) :: rest, i, acc, st =>
    let ktmp : FieldInfo := { name := base ++ "." ++ valTypeName k, typ := a0, val := k }
    match prev.serializeF ctx info ktmp st with
    | (.ok (ks?, _), st1) =>
      let k' : Val := match ks? with | some x => x | Option.none => .none
      (match a1? with
       | some a1 =>
         let vtmp : FieldInfo := { name := base ++ "." ++ valTypeName v, typ := a1, val := v }
         match prev.serializeF ctx info vtmp st1 with
         | (.ok (vs?, _), st2) =>
           allOfPairSerializeGo prev ctx info base a0 a1? rest (i + 1)
             (dictSetEntry acc k' (match vs? with | some x => x | Option.none => .none)) st2
         | (.error (.typeMismatch em), st2) =>
           (.error (.typeMismatch ("expected val at index " ++ toString i ++ " to be of type `"
             ++ typeName a1 ++ "`, but got `" ++ valTypeName v ++ "`: " ++ em)), st2)
         | (.error e, st2) => (.error e, st2)
       | Option.none => allOfPairSerializeGo prev ctx info base a0 a1? rest (i + 1) (dictSetEntry acc k' v) st1)
    | (.error (.typeMismatch em), st1) =>
      (.error (.typeMismatch ("expected key at index " ++ toString i ++ " to be of type `"
        ++ typeName a0 ++ "`, but got `" ++ valTypeName k ++ "`: " ++ em)), st1)
    | (.error e, st1) => (.error e, st1)

/-- `shift_all_of_pair_type_serializer` (1899–1931). -/
def shift_all_of_pair_type_serializer (prev : Engine) (ctx : Ctx) (info : InfoE) (fi : FieldInfo)
    (st : FRState) : Except Err (Option Val × Val) × FRState :=
  match getArgs fi.typ with
  | [] => (.ok (some fi.val, fi.val), st)
  | a0 :: restArgs =>
    match fi.val with
    | .dict kvs =>
      (match allOfPairSerializeGo prev ctx info fi.name a0 restArgs.head? kvs 0 [] st with
       | (.ok newKvs, st') => (.ok (some (.dict newKvs), fi.val), st')
       | (.error e, st') => (.error e, st'))
    | v => (.error (.typeMismatch ("expected value to be dict-like, got `" ++ pyStr v ++ "`")), st)

/-- `shift_callable_type_serializer` (1933–1953). -/
def shift_callable_type_serializer (fi : FieldInfo) (st : FRState) : Except Err (Option Val × Val) × FRState :=
  match getArgs fi.typ with
  | [] => (.ok (some fi.val, fi.val), st)
  | _ => (.error (.typeMismatch ("expected callable, got `" ++ valTypeName fi.val ++ "`")), st)

/-- `shift_forward_ref_type_serializer` (1955–1973).  Note the (dead)
cache-hit branch of the source calls `shift_type_repr` instead of
`shift_type_serializer` — the embedding mirrors that slip; the branch is
unreachable (see `frefHandlerCacheHit`). -/
def shift_forward_ref_type_serializer (prev : Engine) (ctx : Ctx) (info : InfoE) (fi : FieldInfo)
    (st : FRState) : Except Err (Option Val × Val) × FRState :=
  let name := frefArg fi.typ
  if frefHandlerCacheHit st.cache fi.typ then
    match alookup st.cache name with
    | some t =>
      (match prev.reprF ctx info { fi with typ := t } st with
       | (.ok (s?, after), st') => (.ok (s?.map Val.str, after), st')
       | (.error e, st') => (.error e, st'))
    | Option.none => (.error .outOfFuel, st)
  else
    let st := { st with resolveCalls := st.resolveCalls + 1 }
    match resolveForwardRef ctx info name st with
    | (.error e, st') =>
      (.error (.typeMismatch ("could not resolve forward reference `" ++ typeRepr fi.typ
        ++ "`: " ++ errStr e)), st')
    | (.ok resolved, st') =>
      let st'' := registerForwardRef st' name resolved
      match prev.serializeF ctx info { fi with typ := resolved } st'' with
      | (.ok r, st3) => (.ok r, st3)
      | (.error .outOfFuel, st3) => (.error .outOfFuel, st3)
      | (.error e, st3) =>
        (.error (.typeMismatch ("could not resolve forward reference `" ++ typeRepr resolved
          ++ "`: " ++ errStr e)), st3)

/-- `shift_shift_type_serializer` (1975–1986): `serialize(val)` of a nested
model runs the model's own `serialize` pipeline; the `try` also wraps that
call, so any exception it raises — and the `TypeError` from `issubclass`
on any non-model, non-class value (a dict included) — becomes a
"could not inspect value" mismatch. -/
def shift_shift_type_serializer (prev : Engine) (ctx : Ctx) (_info : InfoE) (fi : FieldInfo)
    (st : FRState) : Except Err (Option Val × Val) × FRState :=
  match fi.val with
  | .model c attrs =>
    (match findClass ctx c with
     | some cls =>
       (match prev.serializeModelF ctx cls attrs st with
        | (.ok (d, attrs'), st') => (.ok (some d, .model c attrs'), st')
        | (.error .outOfFuel, st') => (.error .outOfFuel, st')
        | (.error e, st') => (.error (.typeMismatch ("could not inspect value: " ++ errStr e)), st'))
     | Option.none => (.error (.pyTypeError ("class `" ++ c ++ "` not in embedding context")), st))
  | _ => (.error (.typeMismatch "could not inspect value: issubclass() arg 1 must be a class"), st)

/-- `shift_shift_field_type_serializer` (1988–2004). -/
def shift_shift_field_type_serializer (prev : Engine) (ctx : Ctx) (info : InfoE) (fi : FieldInfo)
    (st : FRState) : Except Err (Option Val × Val) × FRState :=
  match fi.default with
  | .v w => (.error (.typeMismatch ("expected ShiftField default, got `" ++ valTypeName w ++ "`")), st)
  | .sf sf =>
    if sf.defer || sf.defer_serialize then (.ok (Option.none, fi.val), st)
    else
      match sf.serializer with
      | some h => (.ok (some (h fi.val), fi.val), st)
      | Option.none =>
        let tmp : FieldInfo := { name := fi.name ++ "." ++ typeName sf.type, typ := sf.type, val := fi.val }
        prev.serializeF ctx info tmp st

/-! ## Field resolution (source 2327–2460) and pipeline drivers (2027–2210) -/

/-- `_build_field_error` (2027–2033): wrap a `ShiftTypeMismatchError` or
`UnknownShiftTypeError` as a `ShiftFieldError` carrying the field name;
an already-wrapped `ShiftFieldError` (or anything else) passes through. -/
def buildFieldError (fieldName : String) : Err → Err
  | .fieldError f m => .fieldError f m
  | .typeMismatch m => .fieldError fieldName m
  | .unknownType m => .fieldError fieldName m
  | e => e

/-- The annotated-field loop of `get_fields` (source 2336–2372): skip magic
names; read the caller value; reject a caller-supplied private value
unless `allow_private_field_setting`; give private fields without a
default an implicit `None` default and an `Optional`-wrapped type; a
`ShiftField` default gets its `type` filled from the annotation and the
field typed as the `ShiftField` class (skipped entirely when `defer`). -/
def getFieldsGo (clsName : String) (cfg : ShiftConfig) (data : List (String × Val)) :
    List FieldDecl → Except Err (List FieldInfo)
  | [] => .ok []
  | d :: rest =>
    if pyStartsWith d.name "__" && pyEndsWith d.name "__" then getFieldsGo clsName cfg data rest
    else
      let val := match alookup data d.name with
        | some v => v
        | Option.none => Val.missing
      if pyStartsWith d.name "_" && !val.isMissing && !cfg.allow_private_field_setting then
        .error (.fieldError clsName (d.name ++ " has a set value in data, but allow_private_field_setting is False"))
      else
        match d.default with
        | .sf sf =>
          if sf.defer then getFieldsGo clsName cfg data rest
          else do
            let fs ← getFieldsGo clsName cfg data rest
            .ok ({ name := d.name, typ := .key .shiftFieldK, val := val,
                   default := .sf { sf with type := d.typ } } :: fs)
        | .v dv =>
          let (typ, dflt) :=
            if pyStartsWith d.name "_" && dv.isMissing
            then (TypeExpr.generic .unionK [d.typ, .key .noneK], Val.none)
            else (d.typ, dv)
          do
            let fs ← getFieldsGo clsName cfg data rest
            .ok ({ name := d.name, typ := typ, val := val, default := .v dflt } :: fs)

/-- `get_fields` (source 2327–2420) on the embedded class shape (every data
field annotated; see `ClassDef`). -/
def get_fields (cls : ClassDef) (data : List (String × Val)) : Except Err (List FieldInfo) :=
  getFieldsGo cls.name cls.cfg data cls.decls

/-- `get_updated_fields` (source 2422–2448): derive a fresh per-call field
list from the cached template — reject caller-supplied private values
unless allowed, take `new_val = data.get(name, field.default)`, and when
that is a `ShiftField` store it as the default with a `Missing` value. -/
def get_updated_fields (clsName : String) (cfg : ShiftConfig) (data : List (String × Val)) :
    List FieldInfo → Except Err (List FieldInfo)
  | [] => .ok []
  | f :: rest =>
    if pyStartsWith f.name "_" && ahas data f.name && !cfg.allow_private_field_setting then
      .error (.fieldError clsName (f.name ++ " has a set value in data, but allow_private_field_setting is False"))
    else
      let newVal : Dflt := match alookup data f.name with
        | some v => .v v
        | Option.none => f.default
      do
        let fs ← get_updated_fields clsName cfg data rest
        match newVal with
        | .sf sf => .ok ({ name := f.name, typ := f.typ, val := .missing, default := .sf sf } :: fs)
        | .v v => .ok ({ name := f.name, typ := f.typ, val := v, default := f.default } :: fs)

/-- `get_val_fields` (source 2450–2460): fresh field infos carrying the
instance's *current* attribute values; fields whose attribute is absent
are dropped.  (The embedded `getattr` reads instance attributes only; the
class-attribute fallback matters only for unprocessed or hook-set
instances, which no claim exercises.) -/
def getValFields (attrs : Attrs) (fields : List FieldInfo) : List FieldInfo :=
  fields.filterMap (fun f =>
    match alookup attrs f.name with
    | some v => some { f with val := v }
    | Option.none => Option.none)

/-- Write the (possibly element-mutated) field values back into the
attribute dict — the state the aliased in-place mutations leave behind
(each `FieldInfo.val` at this point *is* the live attribute object). -/
def updateAttrs (attrs : Attrs) : List FieldInfo → Attrs
  | [] => attrs
  | f :: rest => updateAttrs (aset attrs f.name f.val) rest

/-- `_transform_field` (source 2040–2056), returning the error (if any)
together with the field as mutated up to that point. -/
def transformFieldGo (tf : Ctx → InfoE → FieldInfo → FRState → Except Err Val × FRState)
    (ctx : Ctx) (info : InfoE) (f0 : FieldInfo) (st : FRState) :
    Option Err × FieldInfo × FRState :=
  let f1 := match alookup info.hooks.pre_transformers f0.name with
    | some h => { f0 with val := h f0.val }
    | Option.none => f0
  if (ahas info.hooks.pre_transformers f0.name) && info.hooks.pre_transformer_skips.contains f0.name then
    (Option.none, f1, st)
  else
    let f2 := if f1.val.isMissing then
        (match f1.default with
         | .sf _ => f1
         | .v d => { f1 with val := d })
      else f1
    match tf ctx info f2 st with
    | (.ok x, st') =>
      let f3 := { f2 with val := x }
      (match alookup info.hooks.transformers f3.name with
       | some h => (Option.none, { f3 with val := h f3.val }, st')
       | Option.none => (Option.none, f3, st'))
    | (.error e, st') => (some e, f2, st')

/-- `_transform` (source 2058–2067): iterate fields in declaration order;
wrap each field's `ShiftError` and either raise immediately (`fail_fast`)
or append to `transform_errors`; non-`ShiftError`s propagate. -/
def transformPhase (tf : Ctx → InfoE → FieldInfo → FRState → Except Err Val × FRState)
    (ctx : Ctx) (info : InfoE) :
    List FieldInfo → FRState → Except Err (List FieldInfo × List Err) × FRState
  | [], st => (.ok ([], []), st)
  | f :: rest, st =>
    match transformFieldGo tf ctx info f st with
    | (Option.none, f', st') =>
      (match transformPhase tf ctx info rest st' with
       | (.ok (fs, errs), st'') => (.ok (f' :: fs, errs), st'')
       | (.error e, st'') => (.error e, st''))
    | (some e, f', st') =>
      if !e.isShiftError then (.error e, st')
      else
        let e' := buildFieldError f.name e
        if info.cfg.fail_fast then (.error e', st')
        else
          match transformPhase tf ctx info rest st' with
          | (.ok (fs, errs), st'') => (.ok (f' :: fs, e' :: errs), st'')
          | (.error e2, st'') => (.error e2, st'')

/-- The core of `_validate_field` (source 2081–2089): type validation, then
the custom validator hook. -/
def validateFieldCore (vf : Ctx → InfoE → FieldInfo → FRState → Except Err Bool × FRState)
    (ctx : Ctx) (info : InfoE) (f : FieldInfo) (st : FRState) : Except Err Bool × FRState :=
  match vf ctx info f st with
  | (.ok true, st') =>
    (match alookup info.hooks.validators f.name with
     | some h => if !(h f.val) then (.ok false, st') else (.ok true, st')
     | Option.none => (.ok true, st'))
  | (.ok false, st') => (.ok false, st')
  | (.error e, st') => (.error e, st')

/-- `_validate_field` (source 2074–2089): pre-validator (its `False` is
final; a skip-marked field stops after it), then the core. -/
def validateFieldGo (vf : Ctx → InfoE → FieldInfo → FRState → Except Err Bool × FRState)
    (ctx : Ctx) (info : InfoE) (f : FieldInfo) (st : FRState) : Except Err Bool × FRState :=
  match alookup info.hooks.pre_validators f.name with
  | some h =>
    if !(h f.val) then (.ok false, st)
    else if info.hooks.pre_validator_skips.contains f.name then (.ok true, st)
    else validateFieldCore vf ctx info f st
  | Option.none => validateFieldCore vf ctx info f st

/-- `_validate` (source 2091–2104).  Returns `ok (all_valid, errors)` with
the accumulated `validation_errors`, or `error e` when `fail_fast`
propagates the first (wrapped) error.  The middle component instruments
which fields' validation was attempted, in declaration order (used to
state "the second field is never validated"); it does not influence
behaviour.  A `False` result raises `ShiftFieldError(name, 'failed
validation')`, caught and collected like any other field error. -/
def validatePhase (vf : Ctx → InfoE → FieldInfo → FRState → Except Err Bool × FRState)
    (ctx : Ctx) (info : InfoE) :
    List FieldInfo → FRState → Except Err (Bool × List Err) × List String × FRState
  | [], st => (.ok (true, []), [], st)
  | f :: rest, st =>
    let step : Option Err × FRState :=
      match validateFieldGo vf ctx info f st with
      | (.ok true, st') => (Option.none, st')
      | (.ok false, st') => (some (.fieldError f.name "failed validation"), st')
      | (.error e, st') => (some e, st')
    match step with
    | (Option.none, st') =>
      (match validatePhase vf ctx info rest st' with
       | (.ok r, visited, st'') => (.ok r, f.name :: visited, st'')
       | (.error e, visited, st'') => (.error e, f.name :: visited, st''))
    | (some e, st') =>
      if !e.isShiftError then (.error e, [f.name], st')
      else
        let e' := buildFieldError f.name e
        if info.cfg.fail_fast then (.error e', [f.name], st')
        else
          match validatePhase vf ctx info rest st' with
          | (.ok (_, errs), visited, st'') => (.ok (false, e' :: errs), f.name :: visited, st'')
          | (.error e2, visited, st'') => (.error e2, f.name :: visited, st'')

/-- `_set_field` (source 2111–2118): a custom setter hook replaces the
whole step (its result goes into `field.val`, *no* `setattr` happens);
otherwise `setattr(instance, name, shift_type_setter(...))`. -/
def setFieldGo (sf : Ctx → InfoE → FieldInfo → FRState → Except Err Val × FRState)
    (ctx : Ctx) (info : InfoE) (attrs : Attrs) (f : FieldInfo) (st : FRState) :
    Option Err × Attrs × FieldInfo × FRState :=
  match alookup info.hooks.setters f.name with
  | some h => (Option.none, attrs, { f with val := h f.val }, st)
  | Option.none =>
    match sf ctx info f st with
    | (.ok x, st') => (Option.none, aset attrs f.name x, f, st')
    | (.error e, st') => (some e, attrs, f, st')

/-- `_set` (source 2120–2128). -/
def setPhase (sf : Ctx → InfoE → FieldInfo → FRState → Except Err Val × FRState)
    (ctx : Ctx) (info : InfoE) :
    Attrs → List FieldInfo → FRState → Except Err (Attrs × List Err) × FRState
  | attrs, [], st => (.ok (attrs, []), st)
  | attrs, f :: rest, st =>
    match setFieldGo sf ctx info attrs f st with
    | (Option.none, attrs', _, st') =>
      (match setPhase sf ctx info attrs' rest st' with
       | (.ok r, st'') => (.ok r, st'')
       | (.error e, st'') => (.error e, st''))
    | (some e, attrs', _, st') =>
      if !e.isShiftError then (.error e, st')
      else
        let e' := buildFieldError f.name e
        if info.cfg.fail_fast then (.error e', st')
        else
          match setPhase sf ctx info attrs' rest st' with
          | (.ok (a, errs), st'') => (.ok (a, e' :: errs), st'')
          | (.error e2, st'') => (.error e2, st'')

/-- `_repr_field` (source 2135–2149): custom repr hook first (its result
passed through `str`), then the private-field and default-value omission
policies, then the type repr. -/
def reprFieldGo (rf : Ctx → InfoE → FieldInfo → FRState → Except Err (Option String × Val) × FRState)
    (ctx : Ctx) (info : InfoE) (f : FieldInfo) (st : FRState) :
    Except Err (Option String × Val) × FRState :=
  match alookup info.hooks.reprs f.name with
  | some h => (.ok (some (h f.val), f.val), st)
  | Option.none =>
    if pyStartsWith f.name "_" && !info.cfg.include_private_fields_in_serialization then
      (.ok (Option.none, f.val), st)
    else if pyValDfltEq f.val f.default && !info.cfg.include_default_fields_in_serialization then
      (.ok (Option.none, f.val), st)
    else rf ctx info f st

/-- The field loop of `_repr` (source 2155–2168): a `None` repr skips the
field; a `ShiftField` default may exclude or rename it (`repr_as` is a
truthiness test, so an empty string does not rename); otherwise the piece
is `name=res`.  Also returns the post-mutation fields. -/
def reprPhase (rf : Ctx → InfoE → FieldInfo → FRState → Except Err (Option String × Val) × FRState)
    (ctx : Ctx) (info : InfoE) :
    List FieldInfo → FRState → Except Err (List String × List FieldInfo) × FRState
  | [], st => (.ok ([], []), st)
  | f :: rest, st =>
    match reprFieldGo rf ctx info f st with
    | (.error e, st') => (.error e, st')
    | (.ok (res?, valAfter), st') =>
      let f' := { f with val := valAfter }
      let entry : Option String :=
        match res?, f.default with
        | some res, .sf sf =>
          if sf.repr_exclude then Option.none
          else some (match sf.repr_as with
            | some ra => if ra.isEmpty then res else ra ++ "=" ++ res
            | Option.none => res)
        | some res, .v _ => some (f.name ++ "=" ++ res)
        | Option.none, _ => Option.none
      match reprPhase rf ctx info rest st' with
      | (.ok (pieces, fs), st'') =>
        (.ok ((match entry with | some s => s :: pieces | Option.none => pieces), f' :: fs), st'')
      | (.error e, st'') => (.error e, st'')

/-- `ShiftConfig.__repr__` (source 156–170). -/
def cfgRepr (c : ShiftConfig) : String :=
  "ShiftConfig(" ++ String.intercalate ", "
    ((if !c.do_processing then ["do_processing=False"] else [])
      ++ (if c.fail_fast then ["fail_fast=True"] else [])
      ++ (if c.try_coerce_types then ["try_coerce_types=True"] else [])
      ++ (if c.allow_private_field_setting then ["allow_private_field_setting=True"] else [])
      ++ (if c.include_default_fields_in_serialization then ["include_default_fields_in_serialization=True"] else [])
      ++ (if c.include_private_fields_in_serialization then ["include_private_fields_in_serialization=True"] else []))
    ++ ")"

/-- `ShiftModel.__repr__` + `_repr` (source 2584–2593 and 2151–2169): build
the field list from the current attribute values, render
`Model(piece, …)` (with the `__shift_config__=` header in the
include-private configurations), and return the attribute dict as left by
the aliased element mutations. -/
def reprModelGo (rf : Ctx → InfoE → FieldInfo → FRState → Except Err (Option String × Val) × FRState)
    (ctx : Ctx) (cls : ClassDef) (attrs : Attrs) (st : FRState) :
    Except Err (String × Attrs) × FRState :=
  let info := cls.info
  match get_fields cls [] with
  | .error e => (.error e, st)
  | .ok fields0 =>
    let fields := getValFields attrs fields0
    let header : List String :=
      if info.cfg.include_private_fields_in_serialization
          && (!cfgEq info.cfg DEFAULT_SHIFT_CONFIG || info.cfg.include_default_fields_in_serialization)
      then ["__shift_config__=" ++ cfgRepr info.cfg] else []
    match reprPhase rf ctx info fields st with
    | (.ok (pieces, fs), st') =>
      (.ok (info.modelName ++ "(" ++ String.intercalate ", " (header ++ pieces) ++ ")",
            updateAttrs attrs fs), st')
    | (.error e, st') => (.error e, st')

/-- `_serialize_field` (source 2176–2190): custom serializer hook first,
then the private-field and default-value omission policies, then the type
serializer. -/
def serializeFieldGo (szf : Ctx → InfoE → FieldInfo → FRState → Except Err (Option Val × Val) × FRState)
    (ctx : Ctx) (info : InfoE) (f : FieldInfo) (st : FRState) :
    Except Err (Option Val × Val) × FRState :=
  match alookup info.hooks.serializers f.name with
  | some h => (.ok (some (h f.val), f.val), st)
  | Option.none =>
    if pyStartsWith f.name "_" && !info.cfg.include_private_fields_in_serialization then
      (.ok (Option.none, f.val), st)
    else if pyValDfltEq f.val f.default && !info.cfg.include_default_fields_in_serialization then
      (.ok (Option.none, f.val), st)
    else szf ctx info f st

/-- The field loop of `_serialize` (source 2196–2209), producing the stream
of `result.update(…)` entries: a non-`ShiftField` field contributes
`{name: res}`; a `ShiftField` field may be excluded, renamed via
`serialize_as` (truthiness test), or — without a (truthy) `serialize_as`
— pass its *raw* result to `result.update`, which `TypeError`s unless it
is a mapping.  Also returns the post-mutation fields. -/
def serializePhase (szf : Ctx → InfoE → FieldInfo → FRState → Except Err (Option Val × Val) × FRState)
    (ctx : Ctx) (info : InfoE) :
    List FieldInfo → FRState → Except Err (List (Val × Val) × List FieldInfo) × FRState
  | [], st => (.ok ([], []), st)
  | f :: rest, st =>
    match serializeFieldGo szf ctx info f st with
    | (.error e, st') => (.error e, st')
    | (.ok (res?, valAfter), st') =>
      let f' := { f with val := valAfter }
      let entriesE : Except Err (List (Val × Val)) :=
        match res?, f.default with
        | some res, .sf sf =>
          if sf.serializer_exclude then .ok []
          else (match sf.serialize_as with
            | some sa => if sa.isEmpty then updateEntries res else .ok [(.str sa, res)]
            | Option.none => updateEntries res)
        | some res, .v _ => .ok [(.str f.name, res)]
        | Option.none, _ => .ok []
      match entriesE with
      | .error e => (.error e, st')
      | .ok entries =>
        match serializePhase szf ctx info rest st' with
        | (.ok (stream, fs), st'') => (.ok (entries ++ stream, f' :: fs), st'')
        | (.error e, st'') => (.error e, st'')

/-- Fold the `result.update(…)` stream into the result dict. -/
def foldDict : List (Val × Val) → List (Val × Val) → List (Val × Val)
  | acc, [] => acc
  | acc, (k, v) :: rest => foldDict (dictSetEntry acc k v) rest

/-- `ShiftModel.serialize` + `_serialize` (source 2595–2604 and
2192–2210): build the field list from the current attribute values, fold
the per-field entries into the result dict (with the `__shift_config__`
header entry in the include-private configurations), and return the
attribute dict as left by the aliased element mutations. -/
def serializeModelGo (szf : Ctx → InfoE → FieldInfo → FRState → Except Err (Option Val × Val) × FRState)
    (ctx : Ctx) (cls : ClassDef) (attrs : Attrs) (st : FRState) :
    Except Err (Val × Attrs) × FRState :=
  let info := cls.info
  match get_fields cls [] with
  | .error e => (.error e, st)
  | .ok fields0 =>
    let fields := getValFields attrs fields0
    let header : List (Val × Val) :=
      if info.cfg.include_private_fields_in_serialization
          && (!cfgEq info.cfg DEFAULT_SHIFT_CONFIG || info.cfg.include_default_fields_in_serialization)
      then [((.str "__shift_config__" : Val), info.cfg.serializeCfg)] else []
    match serializePhase szf ctx info fields st with
    | (.ok (stream, fs), st') =>
      (.ok (.dict (foldDict [] (header ++ stream)), updateAttrs attrs fs), st')
    | (.error e, st') => (.error e, st')

/-- `ShiftModel.__init__` (source 2530–2546) on a fresh class:
`get_shift_info` builds the info through `get_fields` (the embedding
constructs every model through this uncached path; the cached path derives
an equivalent field list through `get_updated_fields`, embedded
separately), then — when `do_processing` — runs
`transform`/`validate`/`set` (source 2550–2582), each raising
`ShiftModelError(name, phase, errors)` when its phase accumulated errors
(a `fail_fast` error propagates bare).  `__pre_init__`/`__post_init__`
hooks are outside the embedded class universe. -/
def constructGo
    (tf : Ctx → InfoE → FieldInfo → FRState → Except Err Val × FRState)
    (vf : Ctx → InfoE → FieldInfo → FRState → Except Err Bool × FRState)
    (sf : Ctx → InfoE → FieldInfo → FRState → Except Err Val × FRState)
    (ctx : Ctx) (cls : ClassDef) (data : List (String × Val)) (st : FRState) :
    Except Err Attrs × FRState :=
  let info := cls.info
  match get_fields cls data with
  | .error e => (.error e, st)
  | .ok fields0 =>
    if !info.cfg.do_processing then (.ok [], st)
    else
      match transformPhase tf ctx info fields0 st with
      | (.error e, st') => (.error e, st')
      | (.ok (fields1, terrs), st') =>
        if !terrs.isEmpty then (.error (.modelError cls.name "transform" terrs), st')
        else
          match validatePhase vf ctx info fields1 st' with
          | (.error e, _, st'') => (.error e, st'')
          | (.ok (allValid, verrs), _, st'') =>
            if !allValid || !verrs.isEmpty then (.error (.modelError cls.name "validation" verrs), st'')
            else
              match setPhase sf ctx info [] fields1 st'' with
              | (.error e, st3) => (.error e, st3)
              | (.ok (attrs, serrs), st3) =>
                if !serrs.isEmpty then (.error (.modelError cls.name "set" serrs), st3)
                else (.ok attrs, st3)

/-- One step of the fuel-indexed engine: the five phase dispatchers
(`shift_type_transformer`/`…_validator`/`…_setter`/`…_repr`/`…_serializer`,
source 946–955, 1240–1249, 1512–1521, 1759–1768, 2006–2015: registry
lookup, `UnknownShiftTypeError` when unresolved, else the handler) and the
model-level entry points; every nested dispatch runs in the previous
engine level (one unit of fuel per dispatch depth). -/
def engineStep (prev : Engine) : Engine where
  transformF := fun ctx info fi st =>
    match get_shift_type fi.typ with
    | .error e => (.error e, st)
    | .ok Option.none => (.error (.unknownType ("has unknown type `" ++ typeRepr fi.typ ++ "`")), st)
    | .ok (some .missingH) => shift_missing_type_transformer fi st
    | .ok (some .baseH) => shift_base_type_transformer fi st
    | .ok (some .noneH) => shift_none_type_transformer fi st
    | .ok (some .anyH) => shift_any_type_transformer fi st
    | .ok (some .oneOfValH) => shift_one_of_val_type_transformer fi st
    | .ok (some .oneOfH) => shift_one_of_type_transformer prev ctx info fi st
    | .ok (some .allOfSingleH) => shift_all_of_single_type_transformer prev ctx info fi st
    | .ok (some .allOfManyH) => shift_all_of_many_type_transformer prev ctx info fi st
    | .ok (some .allOfPairH) => shift_all_of_pair_type_transformer prev ctx info fi st
    | .ok (some .callableH) => shift_callable_type_transformer fi st
    | .ok (some .forwardRefH) => shift_forward_ref_type_transformer prev ctx info fi st
    | .ok (some .shiftH) => shift_shift_type_transformer fi st
    | .ok (some .shiftFieldH) => shift_shift_field_type_transformer prev ctx info fi st
  validateF := fun ctx info fi st =>
    match get_shift_type fi.typ with
    | .error e => (.error e, st)
    | .ok Option.none => (.error (.unknownType ("has unknown type `" ++ typeRepr fi.typ ++ "`")), st)
    | .ok (some .missingH) => shift_missing_type_validator fi st
    | .ok (some .baseH) => shift_base_type_validator fi st
    | .ok (some .noneH) => shift_none_type_validator fi st
    | .ok (some .anyH) => shift_any_type_validator fi st
    | .ok (some .oneOfValH) => shift_one_of_val_type_validator fi st
    | .ok (some .oneOfH) => shift_one_of_type_validator prev ctx info fi st
    | .ok (some .allOfSingleH) => shift_all_of_single_type_validator prev ctx info fi st
    | .ok (some .allOfManyH) => shift_all_of_many_type_validator prev ctx info fi st
    | .ok (some .allOfPairH) => shift_all_of_pair_type_validator prev ctx info fi st
    | .ok (some .callableH) => shift_callable_type_validator fi st
    | .ok (some .forwardRefH) => shift_forward_ref_type_validator prev ctx info fi st
    | .ok (some .shiftH) => shift_shift_type_validator fi st
    | .ok (some .shiftFieldH) => shift_shift_field_type_validator fi st
  setF := fun ctx info fi st =>
    match get_shift_type fi.typ with
    | .error e => (.error e, st)
    | .ok Option.none => (.error (.unknownType ("has unknown type `" ++ typeRepr fi.typ ++ "`")), st)
    | .ok (some .missingH) => shift_missing_type_setter fi st
    | .ok (some .baseH) => shift_base_type_setter fi st
    | .ok (some .noneH) => shift_none_type_setter fi st
    | .ok (some .anyH) => shift_any_type_setter fi st
    | .ok (some .oneOfValH) => shift_one_of_val_type_setter fi st
    | .ok (some .oneOfH) => shift_one_of_type_setter prev ctx info fi st
    | .ok (some .allOfSingleH) => shift_all_of_single_type_setter prev ctx info fi st
    | .ok (some .allOfManyH) => shift_all_of_many_type_setter prev ctx info fi st
    | .ok (some .allOfPairH) => shift_all_of_pair_type_setter prev ctx info fi st
    | .ok (some .callableH) => shift_callable_type_setter fi st
    | .ok (some .forwardRefH) => shift_forward_ref_type_setter prev ctx info fi st
    | .ok (some .shiftH) => shift_shift_type_setter prev ctx info fi st
    | .ok (some .shiftFieldH) => shift_shift_field_type_setter prev ctx info fi st
  reprF := fun ctx info fi st =>
    match get_shift_type fi.typ with
    | .error e => (.error e, st)
    | .ok Option.none => (.error (.unknownType ("has unknown type `" ++ typeRepr fi.typ ++ "`")), st)
    | .ok (some .missingH) => shift_missing_type_repr fi st
    | .ok (some .baseH) => shift_base_type_repr fi st
    | .ok (some .noneH) => shift_none_type_repr fi st
    | .ok (some .anyH) => shift_any_type_repr fi st
    | .ok (some .oneOfValH) => shift_one_of_val_type_repr fi st
    | .ok (some .oneOfH) => shift_one_of_type_repr prev ctx info fi st
    | .ok (some .allOfSingleH) => shift_all_of_single_type_repr prev ctx info fi st
    | .ok (some .allOfManyH) => shift_all_of_many_type_repr prev ctx info fi st
    | .ok (some .allOfPairH) => shift_all_of_pair_type_repr prev ctx info fi st
    | .ok (some .callableH) => shift_callable_type_repr fi st
    | .ok (some .forwardRefH) => shift_forward_ref_type_repr prev ctx info fi st
    | .ok (some .shiftH) => shift_shift_type_repr prev ctx info fi st
    | .ok (some .shiftFieldH) => shift_shift_field_type_repr prev ctx info fi st
  serializeF := fun ctx info fi st =>
    match get_shift_type fi.typ with
    | .error e => (.error e, st)
    | .ok Option.none => (.error (.unknownType ("has unknown type `" ++ typeRepr fi.typ ++ "`")), st)
    | .ok (some .missingH) => shift_missing_type_serializer fi st
    | .ok (some .baseH) => shift_base_type_serializer fi st
    | .ok (some .noneH) => shift_none_type_serializer fi st
    | .ok (some .anyH) => shift_any_type_serializer fi st
    | .ok (some .oneOfValH) => shift_one_of_val_type_serializer fi st
    | .ok (some .oneOfH) => shift_one_of_type_serializer prev ctx info fi st
    | .ok (some .allOfSingleH) => shift_all_of_single_type_serializer prev ctx info fi st
    | .ok (some .allOfManyH) => shift_all_of_many_type_serializer prev ctx info fi st
    | .ok (some .allOfPairH) => shift_all_of_pair_type_serializer prev ctx info fi st
    | .ok (some .callableH) => shift_callable_type_serializer fi st
    | .ok (some .forwardRefH) => shift_forward_ref_type_serializer prev ctx info fi st
    | .ok (some .shiftH) => shift_shift_type_serializer prev ctx info fi st
    | .ok (some .shiftFieldH) => shift_shift_field_type_serializer prev ctx info fi st
  constructF := fun ctx cls data st =>
    constructGo prev.transformF prev.validateF prev.setF ctx cls data st
  serializeModelF := fun ctx cls attrs st =>
    serializeModelGo prev.serializeF ctx cls attrs st
  reprModelF := fun ctx cls attrs st =>
    reprModelGo prev.reprF ctx cls attrs st

/-- The fuel-indexed engine. -/
def engine : Nat → Engine
  | 0 => engineZero
  | n + 1 => engineStep (engine n)

/-- `shift_type_transformer` (source 946–955), at the given recursion
fuel. -/
def shift_type_transformer (fuel : Nat) : Ctx → InfoE → FieldInfo → FRState → Except Err Val × FRState :=
  (engine fuel).transformF

/-- `shift_type_validator` (source 1240–1249). -/
def shift_type_validator (fuel : Nat) : Ctx → InfoE → FieldInfo → FRState → Except Err Bool × FRState :=
  (engine fuel).validateF

/-- `shift_type_setter` (source 1512–1521). -/
def shift_type_setter (fuel : Nat) : Ctx → InfoE → FieldInfo → FRState → Except Err Val × FRState :=
  (engine fuel).setF

/-- `shift_type_repr` (source 1759–1768). -/
def shift_type_repr (fuel : Nat) : Ctx → InfoE → FieldInfo → FRState → Except Err (Option String × Val) × FRState :=
  (engine fuel).reprF

/-- `shift_type_serializer` (source 2006–2015). -/
def shift_type_serializer (fuel : Nat) : Ctx → InfoE → FieldInfo → FRState → Except Err (Option Val × Val) × FRState :=
  (engine fuel).serializeF

/-- `SomeModel(**data)` (construction through `ShiftModel.__init__`). -/
def constructModel (fuel : Nat) : Ctx → ClassDef → List (String × Val) → FRState → Except Err Attrs × FRState :=
  (engine fuel).constructF

/-- `instance.serialize()`. -/
def serializeModel (fuel : Nat) : Ctx → ClassDef → Attrs → FRState → Except Err (Val × Attrs) × FRState :=
  (engine fuel).serializeModelF

/-- `repr(instance)`. -/
def reprModel (fuel : Nat) : Ctx → ClassDef → Attrs → FRState → Except Err (String × Attrs) × FRState :=
  (engine fuel).reprModelF

/-- `ShiftModel.__eq__` (source 2608–2611): same-class check, then
comparison of the two freshly serialized dicts (an exception from either
`serialize()` propagates out of `==`). -/
def modelEq (fuel : Nat) (ctx : Ctx) (clsA : ClassDef) (attrsA : Attrs) (clsB : ClassDef)
    (attrsB : Attrs) (st : FRState) : Except Err Bool × FRState :=
  if clsA.name ≠ clsB.name then (.ok false, st)
  else
    match serializeModel fuel ctx clsA attrsA st with
    | (.error e, st') => (.error e, st')
    | (.ok (da, _), st') =>
      match serializeModel fuel ctx clsB attrsB st' with
      | (.error e, st'') => (.error e, st'')
      | (.ok (db, _), st'') => (.ok (pyValEq da db), st'')

/-- `Record(**x.serialize()) == x`: serialize `x` (whose aliased element
writes may mutate it), expand the resulting dict as keyword arguments to a
fresh construction, then compare with `__eq__` (which re-serializes both
sides, the right one in its post-mutation state). -/
def roundtrip (fuel : Nat) (ctx : Ctx) (cls : ClassDef) (attrs : Attrs) (st : FRState) :
    Except Err Bool × FRState :=
  match serializeModel fuel ctx cls attrs st with
  | (.error e, st') => (.error e, st')
  | (.ok (d, attrsAfter), st') =>
    match d with
    | .dict kvs =>
      (match dictKwargs kvs with
       | some data =>
         (match constructModel fuel ctx cls data st' with
          | (.error e, st'') => (.error e, st'')
          | (.ok attrsY, st'') => modelEq fuel ctx cls attrsY cls attrsAfter st'')
       | Option.none => (.error (.pyTypeError "keywords must be strings"), st'))
    | _ => (.error (.pyTypeError "serialize() did not return a mapping"), st')







/-- The error-raising tail of `ShiftModel.validate` (source 2567–2570):
`if not _validate(info) or len(info.validation_errors): raise
ShiftModelError(name, 'validation', errors)`; a `fail_fast` error raised
inside `_validate` propagates bare. -/
def validateRaise (modelName : String) : Except Err (Bool × List Err) → Except Err Bool
  | .error e => .error e
  | .ok (allValid, errs) =>
    if !allValid || !errs.isEmpty then .error (.modelError modelName "validation" errs)
    else .ok true

/-- `instance.validate(**data)` (source 2562–2570) on an already-cached
class: `get_shift_info` derives the per-call fields via
`get_updated_fields` from the cached template (the template's field list
is `get_fields` of the class declarations; its stale `val`s are ignored by
`get_updated_fields`), runs `_validate`, and raises
`ShiftModelError(name, 'validation', errors)` unless everything
validated.  Also returns `_validate`'s instrumentation (the names of the
fields whose validation was attempted, in order). -/
def modelValidate (fuel : Nat) (ctx : Ctx) (cls : ClassDef) (data : List (String × Val))
    (st : FRState) : Except Err Bool × List String × FRState :=
  let info := cls.info
  match get_fields cls [] with
  | .error e => (.error e, [], st)
  | .ok template =>
    match get_updated_fields cls.name cls.cfg data template with
    | .error e => (.error e, [], st)
    | .ok fields =>
      match validatePhase (shift_type_validator fuel) ctx info fields st with
      | (r, visited, st') => (validateRaise cls.name r, visited, st')


/-! ## The flat fragment (used to state what survives of the round-trip and
idempotence claims): scalar types, `Any`, the unparameterized containers,
and lists of scalars. -/

/-- Scalar declared types: their values serialize to themselves with no
nested dispatch. -/
def scalarTy : TypeExpr → Bool
  | .key .intK => true
  | .key .boolK => true
  | .key .strK => true
  | .key .noneK => true
  | _ => false

/-- Flat declared types: scalars, `Any`, unparameterized containers and
`list[scalar]`. -/
def flatTy : TypeExpr → Bool
  | .generic .listK [a] => scalarTy a
  | .key .anyK => true
  | .key .listK => true
  | .key .tupleK => true
  | .key .setK => true
  | .key .dictK => true
  | t => scalarTy t

/-- A stored attribute value fits a flat declared type (`bool` counts as
`int`; `Any` and the unparameterized containers accept any non-`Missing`
value; a parameterized list requires a list of fitting elements). -/
def fitsTy : TypeExpr → Val → Bool
  | .key .intK, .int _ => true
  | .key .intK, .bool _ => true
  | .key .boolK, .bool _ => true
  | .key .strK, .str _ => true
  | .key .noneK, .none => true
  | .key .anyK, v => !v.isMissing
  | .key .listK, v => !v.isMissing
  | .key .tupleK, v => !v.isMissing
  | .key .setK, v => !v.isMissing
  | .key .dictK, v => !v.isMissing
  | .generic .listK [a], .list xs => xs.all (fun x => fitsTy a x)
  | _, _ => false

/-- A flat field declaration: flat type, non-private name, plain default
that is absent or itself type-correct. -/
def flatDeclOk (d : FieldDecl) : Bool :=
  flatTy d.typ && !(pyStartsWith d.name "_")
    && (match d.default with
        | .v dv => dv.isMissing || fitsTy d.typ dv
        | .sf _ => false)

/-- Pairwise-distinct field names. -/
def namesDistinct : List String → Bool
  | [] => true
  | n :: rest => !(rest.contains n) && namesDistinct rest

/-- Every declared field present in the attribute dict with a type-correct
value. -/
def attrsFit (attrs : Attrs) : List FieldDecl → Bool
  | [] => true
  | d :: rest =>
    (match alookup attrs d.name with
     | some v => fitsTy d.typ v
     | Option.none => false) && attrsFit attrs rest

/-- The value a flat field carries after construction from `data`: the
caller value, or the declared default. -/
def flatNewVal (data : List (String × Val)) (d : FieldDecl) : Val :=
  match alookup data d.name with
  | some v => v
  | Option.none =>
    match d.default with
    | .v dv => dv
    | .sf _ => .missing

/-- The attribute dict a flat construction produces. -/
def flatAttrsOf (data : List (String × Val)) (decls : List FieldDecl) : Attrs :=
  decls.map (fun d => (d.name, flatNewVal data d))

/-- The serialized entries of a flat record (string keys paired at the
kwargs level): one entry per field, omitting fields whose value equals the
declared default unless `include_default_fields_in_serialization`. -/
def flatSerData (cfg : ShiftConfig) (attrs : Attrs) : List FieldDecl → List (String × Val)
  | [] => []
  | d :: rest =>
    match alookup attrs d.name with
    | some v =>
      if pyValDfltEq v d.default && !cfg.include_default_fields_in_serialization then
        flatSerData cfg attrs rest
      else (d.name, v) :: flatSerData cfg attrs rest
    | Option.none => flatSerData cfg attrs rest

/-- The single-field serialized entry (used to compare serializations of
two attribute states). -/
def flatSerEntry (cfg : ShiftConfig) (attrs : Attrs) (d : FieldDecl) : Option (String × Val) :=
  match alookup attrs d.name with
  | some v =>
    if pyValDfltEq v d.default && !cfg.include_default_fields_in_serialization then Option.none
    else some (d.name, v)
  | Option.none => Option.none

/-- The `result.update` stream a flat serialize emits (the same entries as
dict keys). -/
def flatSerStream (cfg : ShiftConfig) (attrs : Attrs) (decls : List FieldDecl) : List (Val × Val) :=
  (flatSerData cfg attrs decls).map (fun e => ((.str e.1 : Val), e.2))

/-- The per-field infos `get_fields` resolves for a flat class: the value
taken from `data` (the `Missing` sentinel when absent), type and default
straight from the declaration. -/
def flatFieldsOf (data : List (String × Val)) (decls : List FieldDecl) : List FieldInfo :=
  decls.map (fun d =>
    { name := d.name, typ := d.typ,
      val := (match alookup data d.name with | some v => v | Option.none => Val.missing),
      default := d.default })

/-- The effective value the transform phase gives a field: the caller
value, or the declared default when the value is `Missing`. -/
def effVal (f : FieldInfo) : Val :=
  if f.val.isMissing then
    (match f.default with | .v dv => dv | .sf _ => .missing)
  else f.val

/-- Per-field invariant of the flat phase lemmas: flat type, plain default,
type-correct effective value. -/
def flatFieldOk (f : FieldInfo) : Bool :=
  flatTy f.typ
    && (match f.default with | .v _ => true | .sf _ => false)
    && fitsTy f.typ (effVal f)

/-- The fields after the flat transform phase: each carries its effective
value. -/
def flatProcessedFields (data : List (String × Val)) (decls : List FieldDecl) : List FieldInfo :=
  decls.map (fun d =>
    { name := d.name, typ := d.typ, val := flatNewVal data d, default := d.default })

/-- The `result.update` stream in terms of the resolved fields. -/
def serStreamOfFields (cfg : ShiftConfig) : List FieldInfo → List (Val × Val)
  | [] => []
  | f :: rest =>
    if pyValDfltEq f.val f.default && !cfg.include_default_fields_in_serialization then
      serStreamOfFields cfg rest
    else ((.str f.name : Val), f.val) :: serStreamOfFields cfg rest

/-! # Helper lemmas -/

theorem engine_succ (n : Nat) : engine (n + 1) = engineStep (engine n) := rfl

theorem alookup_aset_self {A : Type} (xs : List (String × A)) (k : String) (v : A) :
    alookup (aset xs k v) k = some v := by
  induction xs with
  | nil => simp [aset, alookup]
  | cons p rest ih =>
    obtain ⟨k', v'⟩ := p
    by_cases h : k' = k
    · subst h; simp [aset, alookup]
    · simp [aset, alookup, h, ih]

theorem aset_aset_self {A : Type} (xs : List (String × A)) (k : String) (v w : A) :
    aset (aset xs k v) k w = aset xs k w := by
  induction xs with
  | nil => simp [aset]
  | cons p rest ih =>
    obtain ⟨k', v'⟩ := p
    by_cases h : k' = k
    · subst h; simp [aset]
    · simp [aset, h, ih]

theorem aset_of_alookup {A : Type} (xs : List (String × A)) (k : String) (v : A)
    (h : alookup xs k = some v) : aset xs k v = xs := by
  induction xs with
  | nil => simp [alookup] at h
  | cons p rest ih =>
    obtain ⟨k', v'⟩ := p
    by_cases hk : k' = k
    · subst hk
      simp [alookup] at h
      simp [aset, h]
    · simp [alookup, hk] at h
      simp [aset, hk, ih h]

theorem list_set_middle {A : Type} (pre : List A) (x y : A) (suf : List A) :
    (pre ++ x :: suf).set pre.length y = pre ++ y :: suf := by
  induction pre with
  | nil => rfl
  | cons a rest ih => simp [ih]

theorem memBy_of_mem (p : Val → Bool) (ys : List Val) (x : Val) (hx : x ∈ ys)
    (hp : p x = true) : memBy p ys = true := by
  induction ys with
  | nil => cases hx
  | cons y rest ih =>
    show (p y || memBy p rest) = true
    rcases List.mem_cons.mp hx with h | h
    · subst h; rw [hp]; rfl
    · rw [ih h]; simp

theorem entryMemBy_of_mem (p q : Val → Bool) (ys : List (Val × Val)) (k v : Val)
    (hx : (k, v) ∈ ys) (hpk : p k = true) (hqv : q v = true) : entryMemBy p q ys = true := by
  induction ys with
  | nil => cases hx
  | cons y rest ih =>
    obtain ⟨k', v'⟩ := y
    show ((p k' && q v') || entryMemBy p q rest) = true
    rcases List.mem_cons.mp hx with h | h
    · rw [show k' = k by simpa using congrArg Prod.fst h.symm,
          show v' = v by simpa using congrArg Prod.snd h.symm, hpk, hqv]
      rfl
    · rw [ih h]; simp

theorem pyValEqList_refl_of (xs : List Val) (h : ∀ x ∈ xs, pyValEq x x = true) :
    pyValEqList xs xs = true := by
  induction xs with
  | nil => rfl
  | cons x rest ih =>
    show (pyValEq x x && pyValEqList rest rest) = true
    rw [h x (by simp), ih (fun y hy => h y (by simp [hy]))]
    rfl

theorem pyValSubset_of (xs ys : List Val) (h : ∀ x ∈ xs, x ∈ ys ∧ pyValEq x x = true) :
    pyValSubset xs ys = true := by
  induction xs with
  | nil => rfl
  | cons x rest ih =>
    show (memBy (pyValEq x) ys && pyValSubset rest ys) = true
    obtain ⟨hmem, hrefl⟩ := h x (by simp)
    rw [memBy_of_mem _ _ _ hmem hrefl, ih (fun y hy => h y (by simp [hy]))]
    rfl

theorem pyEntriesSubset_of (xs ys : List (Val × Val))
    (h : ∀ e ∈ xs, e ∈ ys ∧ pyValEq e.1 e.1 = true ∧ pyValEq e.2 e.2 = true) :
    pyEntriesSubset xs ys = true := by
  induction xs with
  | nil => rfl
  | cons e rest ih =>
    obtain ⟨k, v⟩ := e
    show (entryMemBy (pyValEq k) (pyValEq v) ys && pyEntriesSubset rest ys) = true
    obtain ⟨hmem, hk, hv⟩ := h (k, v) (by simp)
    rw [entryMemBy_of_mem _ _ _ _ _ hmem hk hv, ih (fun e he => h e (by simp [he]))]
    rfl

theorem pyAttrsEq_refl_of (xs : List (String × Val)) (h : ∀ e ∈ xs, pyValEq e.2 e.2 = true) :
    pyAttrsEq xs xs = true := by
  induction xs with
  | nil => rfl
  | cons e rest ih =>
    obtain ⟨k, v⟩ := e
    show (k == k && pyValEq v v && pyAttrsEq rest rest) = true
    rw [h (k, v) (by simp), ih (fun e he => h e (by simp [he]))]
    simp

theorem pyValEq_refl_aux : ∀ (n : Nat) (v : Val), sizeOf v ≤ n → pyValEq v v = true := by
  intro n
  induction n with
  | zero => intro v hv; exact absurd hv (by cases v <;> simp)
  | succ n ih =>
    intro v hv
    have elemLe : ∀ (xs : List Val), sizeOf xs < sizeOf v → ∀ x ∈ xs, sizeOf x ≤ n := by
      intro xs hxs x hx
      have := List.sizeOf_lt_of_mem hx
      omega
    have entryLe : ∀ (xs : List (Val × Val)), sizeOf xs < sizeOf v →
        ∀ e ∈ xs, sizeOf e.1 ≤ n ∧ sizeOf e.2 ≤ n := by
      intro xs hxs e he
      have h1 := List.sizeOf_lt_of_mem he
      obtain ⟨a, b⟩ := e
      simp at h1 ⊢
      omega
    cases v with
    | none => rfl
    | bool b => simp [pyValEq]
    | int m => simp [pyValEq]
    | float l => simp [pyValEq]
    | str s => simp [pyValEq]
    | missing => rfl
    | list xs =>
      show pyValEqList xs xs = true
      exact pyValEqList_refl_of xs (fun x hx =>
        ih x (elemLe xs (by simp) x hx))
    | tuple xs =>
      show pyValEqList xs xs = true
      exact pyValEqList_refl_of xs (fun x hx =>
        ih x (elemLe xs (by simp) x hx))
    | set xs =>
      show (xs.length == xs.length && pyValSubset xs xs) = true
      rw [pyValSubset_of xs xs (fun x hx =>
        ⟨hx, ih x (elemLe xs (by simp) x hx)⟩)]
      simp
    | dict kvs =>
      show (kvs.length == kvs.length && pyEntriesSubset kvs kvs) = true
      rw [pyEntriesSubset_of kvs kvs (fun e he =>
        ⟨he, ih e.1 ((entryLe kvs (by simp) e he).1),
             ih e.2 ((entryLe kvs (by simp) e he).2)⟩)]
      simp
    | model c attrs =>
      show (c == c && pyAttrsEq attrs attrs) = true
      have : ∀ e ∈ attrs, pyValEq e.2 e.2 = true := by
        intro e he
        have h1 := List.sizeOf_lt_of_mem he
        obtain ⟨k, x⟩ := e
        refine ih x ?_
        simp at h1 hv ⊢
        omega
      rw [pyAttrsEq_refl_of attrs this]
      simp

theorem pyValEq_refl (v : Val) : pyValEq v v = true :=
  pyValEq_refl_aux (sizeOf v) v (Nat.le_refl _)

theorem hashOkL_mem : ∀ (xs : List Val), hashOkL xs = true → ∀ x ∈ xs, Val.hashOk x = true := by
  intro xs
  induction xs with
  | nil => intro _ x hx; cases hx
  | cons y rest ih =>
    intro h x hx
    have h2 : (Val.hashOk y && hashOkL rest) = true := h
    simp only [Bool.and_eq_true] at h2
    cases hx with
    | head => exact h2.1
    | tail _ hmem => exact ih h2.2 x hmem

theorem unhashNameL_of (xs : List Val) (h : ∀ x ∈ xs, Val.unhashName x = Option.none) :
    unhashNameL xs = Option.none := by
  induction xs with
  | nil => rfl
  | cons x rest ih =>
    show (match Val.unhashName x with
      | some n => some n
      | Option.none => unhashNameL rest) = Option.none
    rw [h x (by simp)]
    exact ih (fun y hy => h y (by simp [hy]))

theorem unhashName_of_hashOk_aux : ∀ (n : Nat) (v : Val), sizeOf v ≤ n →
    Val.hashOk v = true → Val.unhashName v = Option.none := by
  intro n
  induction n with
  | zero => intro v hv; exact absurd hv (by cases v <;> simp)
  | succ n ih =>
    intro v hv h
    cases v with
    | none => rfl
    | bool b => rfl
    | int m => rfl
    | float l => rfl
    | str s => rfl
    | missing => rfl
    | list xs => simp [Val.hashOk] at h
    | set xs => simp [Val.hashOk] at h
    | dict kvs => simp [Val.hashOk] at h
    | model c attrs => simp [Val.hashOk] at h
    | tuple xs =>
      have hx : hashOkL xs = true := h
      show unhashNameL xs = Option.none
      refine unhashNameL_of xs (fun x hxm => ?_)
      refine ih x ?_ (hashOkL_mem xs hx x hxm)
      have := List.sizeOf_lt_of_mem hxm
      simp at hv
      omega

theorem unhashName_of_hashOk (v : Val) (h : Val.hashOk v = true) :
    Val.unhashName v = Option.none :=
  unhashName_of_hashOk_aux (sizeOf v) v (Nat.le_refl _) h

/-! ## Lemmas about the union validator's member loop -/

theorem oneOfValidateGo_skip (prev : Engine) (ctx : Ctx) (info : InfoE) (fi : FieldInfo)
    (a : TypeExpr) (b : Bool) (mt : TypeExpr → String) :
    ∀ (pre : List TypeExpr) (post : List TypeExpr),
      (∀ t ∈ pre, ∀ st, prev.validateF ctx info
          { name := fi.name ++ "." ++ typeName t, typ := t, val := fi.val } st
        = (.error (.typeMismatch (mt t)), st)) →
      (∀ st, prev.validateF ctx info
          { name := fi.name ++ "." ++ typeName a, typ := a, val := fi.val } st
        = (.ok b, st)) →
      ∀ st, oneOfValidateGo prev ctx info fi (pre ++ a :: post) st = (.ok b, st) := by
  intro pre
  induction pre with
  | nil =>
    intro post _ ha st
    show (match prev.validateF ctx info
        { name := fi.name ++ "." ++ typeName a, typ := a, val := fi.val } st with
      | (.ok b, st') => (.ok b, st')
      | (.error (.typeMismatch _), st') => oneOfValidateGo prev ctx info fi post st'
      | (.error e, st') => (.error e, st')) = (.ok b, st)
    rw [ha st]
  | cons p pre ih =>
    intro post hpre ha st
    show (match prev.validateF ctx info
        { name := fi.name ++ "." ++ typeName p, typ := p, val := fi.val } st with
      | (.ok b, st') => (.ok b, st')
      | (.error (.typeMismatch _), st') => oneOfValidateGo prev ctx info fi (pre ++ a :: post) st'
      | (.error e, st') => (.error e, st')) = (.ok b, st)
    rw [hpre p (by simp) st]
    exact ih post (fun t ht => hpre t (by simp [ht])) ha st

theorem oneOfValidateGo_allfail (prev : Engine) (ctx : Ctx) (info : InfoE) (fi : FieldInfo)
    (mt : TypeExpr → String) :
    ∀ (args : List TypeExpr),
      (∀ t ∈ args, ∀ st, prev.validateF ctx info
          { name := fi.name ++ "." ++ typeName t, typ := t, val := fi.val } st
        = (.error (.typeMismatch (mt t)), st)) →
      ∀ st, oneOfValidateGo prev ctx info fi args st
        = (.error (.typeMismatch ("expected one of types `" ++ argsRepr (getArgs fi.typ)
            ++ "`, got `" ++ valTypeName fi.val ++ "`")), st) := by
  intro args
  induction args with
  | nil => intro _ st; rfl
  | cons p rest ih =>
    intro h st
    show (match prev.validateF ctx info
        { name := fi.name ++ "." ++ typeName p, typ := p, val := fi.val } st with
      | (.ok b, st') => ((.ok b, st') : Except Err Bool × FRState)
      | (.error (.typeMismatch _), st') => oneOfValidateGo prev ctx info fi rest st'
      | (.error e, st') => (.error e, st'))
      = (.error (.typeMismatch ("expected one of types `" ++ argsRepr (getArgs fi.typ)
          ++ "`, got `" ++ valTypeName fi.val ++ "`")), st)
    rw [h p (by simp) st]
    exact ih (fun t ht => h t (by simp [ht])) st

/-! # The claims -/

/-- C2 (corrected): on every hashable type expression the registry lookup
tries, in order: exact key match, generic-origin match, the `ForwardRef`
sentinel, the `ShiftModel`-subclass check, the runtime-type fallback, and
otherwise yields no handler, upon which the per-phase dispatcher raises
`UnknownShiftTypeError` — but on an unhashable raw expression (a `list`,
`set` or `dict` value, or a `tuple` containing one) the step-1 membership
test `typ in _shift_types` raises `TypeError` before any comparison, so
the cascade — in particular the runtime-type fallback the original claim
promises for every raw expression — is never reached.  The conjuncts:
(1) on every type expression whose hash succeeds, `get_shift_type` equals
the spec-modelled six-step first-match cascade `lookupSpec`; (2)–(3)
`list[int]` resolves to the single-arg container handler via step 2 (its
exact parameterized form is not a registry key); (4) a `ShiftModel`
subclass resolves to the nested-record handler, and the raw-object
fallback would yield nothing for it (the detection happens before the
fallback); (5) on a raw value whose hash is total and phase free
(scalars, `Missing`, tuples of such) the lookup is exactly the registry
at its runtime type; (6) when the lookup yields no handler,
`shift_type_validator` raises `UnknownShiftTypeError`; (7) on a raw value
of an unhashable class the lookup raises
`TypeError: unhashable type: '…'` instead of following the cascade. -/
theorem C2_registry_lookup_order :
    (∀ t : TypeExpr, hashErrName t = Option.none → get_shift_type t = .ok (lookupSpec t))
    ∧ get_shift_type (.generic .listK [.key .intK]) = .ok (some .allOfSingleH)
    ∧ lookupExact (.generic .listK [.key .intK]) = Option.none
    ∧ (∀ n : String, get_shift_type (.modelClass n) = .ok (some .shiftH)
        ∧ lookupRuntime (.modelClass n) = Option.none)
    ∧ (∀ v : Val, Val.hashOk v = true →
        get_shift_type (.value v) = .ok (shiftTypes (runtimeKey v)))
    ∧ (∀ (fuel : Nat) (ctx : Ctx) (info : InfoE) (fi : FieldInfo) (st : FRState),
        get_shift_type fi.typ = .ok Option.none →
        shift_type_validator (fuel + 1) ctx info fi st
          = (.error (.unknownType ("has unknown type `" ++ typeRepr fi.typ ++ "`")), st))
    ∧ (∀ (v : Val) (n : String), Val.unhashName v = some n →
        get_shift_type (.value v) = .error (.pyTypeError ("unhashable type: '" ++ n ++ "'"))) := by
  refine ⟨?_, rfl, rfl, fun n => ⟨rfl, rfl⟩, ?_, ?_, ?_⟩
  · intro t ht
    cases t with
    | key k =>
      cases h : shiftTypes k <;>
        simp [get_shift_type, hashErrName, lookupSpec, lookupExact, lookupOrigin,
          lookupForwardRef, lookupModelSub, lookupRuntime, getOrigin, h]
    | generic o args =>
      cases h : shiftTypes o <;>
        simp [get_shift_type, hashErrName, lookupSpec, lookupExact, lookupOrigin,
          lookupForwardRef, lookupModelSub, lookupRuntime, getOrigin, h]
    | fref n => rfl
    | modelClass n => rfl
    | value v =>
      have hv : Val.unhashName v = Option.none := ht
      cases h : shiftTypes (runtimeKey v) <;>
        simp [get_shift_type, hashErrName, hv, lookupSpec, lookupExact, lookupOrigin,
          lookupForwardRef, lookupModelSub, lookupRuntime, getOrigin, h]
  · intro v hv
    have hn : Val.unhashName v = Option.none := unhashName_of_hashOk v hv
    cases h : shiftTypes (runtimeKey v) <;>
      simp [get_shift_type, hashErrName, hn, lookupExact, lookupOrigin,
        lookupForwardRef, lookupModelSub, lookupRuntime, getOrigin, h]
  · intro fuel ctx info fi st h
    show (match get_shift_type fi.typ with
      | .error e => ((.error e, st) : Except Err Bool × FRState)
      | .ok Option.none => (.error (.unknownType ("has unknown type `" ++ typeRepr fi.typ
          ++ "`")), st)
      | .ok (some .missingH) => shift_missing_type_validator fi st
      | .ok (some .baseH) => shift_base_type_validator fi st
      | .ok (some .noneH) => shift_none_type_validator fi st
      | .ok (some .anyH) => shift_any_type_validator fi st
      | .ok (some .oneOfValH) => shift_one_of_val_type_validator fi st
      | .ok (some .oneOfH) => shift_one_of_type_validator (engine fuel) ctx info fi st
      | .ok (some .allOfSingleH) => shift_all_of_single_type_validator (engine fuel) ctx info fi st
      | .ok (some .allOfManyH) => shift_all_of_many_type_validator (engine fuel) ctx info fi st
      | .ok (some .allOfPairH) => shift_all_of_pair_type_validator (engine fuel) ctx info fi st
      | .ok (some .callableH) => shift_callable_type_validator fi st
      | .ok (some .forwardRefH) => shift_forward_ref_type_validator (engine fuel) ctx info fi st
      | .ok (some .shiftH) => shift_shift_type_validator fi st
      | .ok (some .shiftFieldH) => shift_shift_field_type_validator fi st) = _
    rw [h]
  · intro v n hn
    simp [get_shift_type, hashErrName, hn]

/-- Witness for C2: the dispatcher raises `UnknownShiftTypeError` on a
concrete unregistered class (`complex`). -/
theorem C2_registry_lookup_order_witness :
    shift_type_validator 1 {} { modelName := "M", cfg := {} }
        { name := "f", typ := .key (.otherK "complex"), val := .int 1 } {}
      = (.error (.unknownType ("has unknown type `"
          ++ typeRepr (.key (.otherK "complex")) ++ "`")), {}) :=
  C2_registry_lookup_order.2.2.2.2.2.1 0 {} { modelName := "M", cfg := {} }
    { name := "f", typ := .key (.otherK "complex"), val := .int 1 } {} rfl

/-- C2 counterexample: the raw list expression `[1, 2]` in type position.
The cascade the claim describes (`lookupSpec`, written from the spec's six
steps) reaches step 5 and returns the registered `list` container handler
for `type([1, 2]) = list`; the program instead raises
`TypeError: unhashable type: 'list'` inside the step-1 membership test
(`hash(typ)` fails, and the `hasattr(typ, "__hash__")` guard at source
line 518 is always true), so the runtime-type fallback is never
reached. -/
theorem C2_unhashable_counterexample :
    get_shift_type (.value (.list [.int 1, .int 2]))
        = .error (.pyTypeError "unhashable type: 'list'")
      ∧ lookupSpec (.value (.list [.int 1, .int 2])) = some .allOfSingleH :=
  ⟨rfl, rfl⟩

/-- C3 (confirmed): union validation tries each member type's validator in
declaration order; the first member whose nested validation returns
(rather than raising a mismatch) decides the result, and the members after
it are never consulted — the conclusion of conjunct (1) does not depend on
`post`.  Conjunct (2): when every member raises a mismatch, the aggregate
error names the whole member tuple.  Conjunct (3): the concrete
`Union[int, str]` triple — `10` validates via the `int` arm, `"s"` via the
`str` arm, and `3.14` fails with an error naming both member types. -/
theorem C3_union_first_success (fuel : Nat) (ctx : Ctx) (info : InfoE) (fi : FieldInfo) :
    (∀ (pre post : List TypeExpr) (a : TypeExpr) (b : Bool) (mt : TypeExpr → String),
      fi.typ = .generic .unionK (pre ++ a :: post) →
      (∀ t ∈ pre, ∀ st, shift_type_validator fuel ctx info
          { name := fi.name ++ "." ++ typeName t, typ := t, val := fi.val } st
        = (.error (.typeMismatch (mt t)), st)) →
      (∀ st, shift_type_validator fuel ctx info
          { name := fi.name ++ "." ++ typeName a, typ := a, val := fi.val } st
        = (.ok b, st)) →
      ∀ st, shift_type_validator (fuel + 1) ctx info fi st = (.ok b, st))
    ∧ (∀ (args : List TypeExpr) (mt : TypeExpr → String),
      fi.typ = .generic .unionK args → args ≠ [] →
      (∀ t ∈ args, ∀ st, shift_type_validator fuel ctx info
          { name := fi.name ++ "." ++ typeName t, typ := t, val := fi.val } st
        = (.error (.typeMismatch (mt t)), st)) →
      ∀ st, shift_type_validator (fuel + 1) ctx info fi st
        = (.error (.typeMismatch ("expected one of types `" ++ argsRepr args
            ++ "`, got `" ++ valTypeName fi.val ++ "`")), st))
    ∧ (∀ st : FRState,
      shift_type_validator 2 ctx info
        { name := "u", typ := .generic .unionK [.key .intK, .key .strK], val := .int 10 } st
        = (.ok true, st)
      ∧ shift_type_validator 2 ctx info
        { name := "u", typ := .generic .unionK [.key .intK, .key .strK], val := .str "s" } st
        = (.ok true, st)
      ∧ shift_type_validator 2 ctx info
        { name := "u", typ := .generic .unionK [.key .intK, .key .strK], val := .float "3.14" } st
        = (.error (.typeMismatch
            "expected one of types `(<class 'int'>, <class 'str'>)`, got `float`"), st)) := by
  obtain ⟨nm, typ, val, dflt⟩ := fi
  refine ⟨?_, ?_, fun st => ⟨rfl, rfl, rfl⟩⟩
  · intro pre post a b mt htyp hpre ha st
    cases htyp
    show shift_one_of_type_validator (engine fuel) ctx info
      { name := nm, typ := .generic .unionK (pre ++ a :: post), val := val, default := dflt } st
      = (.ok b, st)
    have hgo := oneOfValidateGo_skip (engine fuel) ctx info
      { name := nm, typ := .generic .unionK (pre ++ a :: post), val := val, default := dflt }
      a b mt pre post hpre ha st
    cases pre with
    | nil => exact hgo
    | cons p pre => exact hgo
  · intro args mt htyp hne hall st
    cases htyp
    show shift_one_of_type_validator (engine fuel) ctx info
      { name := nm, typ := .generic .unionK args, val := val, default := dflt } st = _
    have hgo := oneOfValidateGo_allfail (engine fuel) ctx info
      { name := nm, typ := .generic .unionK args, val := val, default := dflt } mt args hall st
    cases args with
    | nil => exact absurd rfl hne
    | cons p rest => exact hgo

/-- Witness for C3: the skip conjunct at `Union[int, str]` with value
`"s"` (the `int` arm fails, the `str` arm succeeds, and the conclusion is
the same whatever follows), and the all-fail conjunct at value `3.14`. -/
theorem C3_union_first_success_witness :
    shift_type_validator 2 {} { modelName := "M", cfg := {} }
        { name := "u", typ := .generic .unionK [.key .intK, .key .strK], val := .str "s" } {}
      = (.ok true, {})
    ∧ shift_type_validator 2 {} { modelName := "M", cfg := {} }
        { name := "u", typ := .generic .unionK [.key .intK, .key .strK], val := .float "3.14" } {}
      = (.error (.typeMismatch
          "expected one of types `(<class 'int'>, <class 'str'>)`, got `float`"), {}) :=
  ⟨(C3_union_first_success 1 {} { modelName := "M", cfg := {} }
      { name := "u", typ := .generic .unionK [.key .intK, .key .strK], val := .str "s" }).1
    [.key .intK] [] (.key .strK) true (fun _ => "expected type `int`, got `str`") rfl
    (fun t ht st => by
      have : t = .key .intK := by simpa using ht
      subst this; rfl)
    (fun st => rfl) {},
   (C3_union_first_success 1 {} { modelName := "M", cfg := {} }
      { name := "u", typ := .generic .unionK [.key .intK, .key .strK], val := .float "3.14" }).2.1
    [.key .intK, .key .strK] (fun t => "expected type `" ++ typeName t ++ "`, got `float`") rfl
    (by simp)
    (fun t ht st => by
      rcases List.mem_pair.mp ht with h | h <;> (subst h; rfl)) {}⟩

/-- C9 counterexample: the validate phase performs *no* declared-type
validation on a `ShiftField`-constrained field.  The field is declared
`int` (the `ShiftField`'s filled-in `type`), its value is the string
`"abc"` — which the `int` validator rejects, second conjunct — and its
only constraint (`eq="abc"`) is satisfied; the `ShiftField` validate-phase
handler nevertheless returns `True`, contradicting "first validates the
value against the field's declared type". -/
theorem C9_counterexample :
    shift_type_validator 1 {} { modelName := "M", cfg := {} }
        { name := "c", typ := .key .shiftFieldK, val := .str "abc",
          default := .sf { type := .key .intK, eq := some (.str "abc") } } {}
      = (.ok true, {})
    ∧ shift_type_validator 1 {} { modelName := "M", cfg := {} }
        { name := "c", typ := .key .intK, val := .str "abc" } {}
      = (.error (.typeMismatch "expected type `int`, got `str`"), {}) :=
  ⟨rfl, rfl⟩

/-- C9 (amended): for every `ShiftField`-constrained field that is not
deferred and does not have `default_skips`, the validate phase runs the
configured constraint checks only — it performs no validation against the
declared type, which conjunct (3) states as invariance of the constraint
run under the `ShiftField`'s `type` slot (the declared type is enforced by
the transform-phase handler instead) — and aggregates the messages of
*all* failing constraints into one error (conjuncts (4)/(5): a failing
lower bound and a failing custom check each contribute their message to
the run's output, independently of each other). -/
theorem C9_constraint_aggregation (fuel : Nat) (ctx : Ctx) (info : InfoE) (fi : FieldInfo)
    (sf : ShiftField) (st : FRState)
    (hd : fi.default = .sf sf) (hty : fi.typ = .key .shiftFieldK)
    (h1 : sf.defer = false) (h2 : sf.defer_validation = false)
    (h3 : sf.default_skips = false) :
    (sfValidate sf fi = [] →
      shift_type_validator (fuel + 1) ctx info fi st = (.ok true, st))
    ∧ (sfValidate sf fi ≠ [] →
      shift_type_validator (fuel + 1) ctx info fi st
        = (.error (.typeMismatch ("failed ShiftField validation: "
            ++ String.intercalate ", " (sfValidate sf fi))), st))
    ∧ (∀ t' : TypeExpr, sfValidate { sf with type := t' } fi = sfValidate sf fi)
    ∧ (∀ g : Val, sf.ge = some g → pyCompare fi.val g = some .lt →
        ("Must be >= " ++ pyStr g) ∈ sfValidate sf fi)
    ∧ (∀ c : Val → Bool, sf.check = some c → c fi.val = false →
        "val failed custom check" ∈ sfValidate sf fi) := by
  obtain ⟨nm, typ, val, dflt⟩ := fi
  simp only at hd hty
  subst hd hty
  have hdisp : shift_type_validator (fuel + 1) ctx info
      { name := nm, typ := .key .shiftFieldK, val := val, default := .sf sf } st
      = shift_shift_field_type_validator
        { name := nm, typ := .key .shiftFieldK, val := val, default := .sf sf } st := rfl
  refine ⟨?_, ?_, fun t' => rfl, ?_, ?_⟩
  · intro hsv
    rw [hdisp]
    simp only [shift_shift_field_type_validator, h1, h2, h3]
    rw [hsv]
    simp
  · intro hsv
    rw [hdisp]
    simp only [shift_shift_field_type_validator, h1, h2, h3]
    cases hv : sfValidate sf ⟨nm, .key .shiftFieldK, val, .sf sf⟩ with
    | nil => exact absurd hv hsv
    | cons m ms => simp
  · intro g hge hcmp
    simp only [sfValidate, hge, hcmp]
    simp
  · intro c hc hcv
    simp only [sfValidate, hc, hcv]
    simp

/-- Witness for C9's amended claim: a field whose value `5` fails three
constraints at once (`ge=10`, `ne=5`, a custom check) raises one error
joining all three messages. -/
theorem C9_constraint_aggregation_witness :
    shift_type_validator 1 {} { modelName := "M", cfg := {} }
        { name := "c", typ := .key .shiftFieldK, val := .int 5,
          default := .sf { type := .key .intK, ge := some (.int 10), ne := some (.int 5),
                           check := some (fun _ => false) } } {}
      = (.error (.typeMismatch ("failed ShiftField validation: "
          ++ String.intercalate ", "
              ["Must be >= 10", "Must be != 5", "val failed custom check"])), {}) :=
  (C9_constraint_aggregation 0 {} { modelName := "M", cfg := {} }
      { name := "c", typ := .key .shiftFieldK, val := .int 5,
        default := .sf { type := .key .intK, ge := some (.int 10), ne := some (.int 5),
                         check := some (fun _ => false) } }
      { type := .key .intK, ge := some (.int 10), ne := some (.int 5),
        check := some (fun _ => false) } {} rfl rfl rfl rfl rfl).2.1
    (List.cons_ne_nil _ _)

/-! ## Lemmas about the list-field repr loop -/

theorem pyStartsWith_double (s : String) (h : pyStartsWith s "_" = false) :
    pyStartsWith s "__" = false := by
  by_contra hc
  rw [Bool.not_eq_false] at hc
  have hone : pyStartsWith s "_" = true := by
    unfold pyStartsWith at hc ⊢
    have h2 : "__".data = ['_', '_'] := rfl
    have h1 : "_".data = ['_'] := rfl
    rw [h2] at hc
    rw [h1]
    cases hd : s.data with
    | nil => rw [hd] at hc; exact absurd hc (by decide)
    | cons c t =>
      rw [hd] at hc
      simp [List.isPrefixOf] at hc ⊢
      exact hc.1
  rw [h] at hone
  exact Bool.false_ne_true hone

theorem allOfSingleReprGo_ints (n : Nat) (ctx : Ctx) (info : InfoE) (base : String) :
    ∀ (ys : List Int) (pre : List Val) (st : FRState),
      allOfSingleReprGo (engine (n + 1)) ctx info (.key .intK) base
        (ys.map Val.int) pre.length (.list (pre ++ ys.map Val.int)) st
      = (.ok (.list (pre ++ ys.map (fun j => Val.str (toString j)))), st) := by
  intro ys
  induction ys with
  | nil => intro pre st; simp [allOfSingleReprGo]
  | cons y ys ih =>
    intro pre st
    simp only [List.map_cons]
    show (match (engine (n + 1)).reprF ctx info
        { name := base ++ "." ++ typeName (.key .intK) ++ "[i]",
          typ := .key .intK, val := .int y } st with
      | (.ok (s?, _), st') =>
        (match valSetIdx (.list (pre ++ Val.int y :: ys.map Val.int)) pre.length
            (match s? with | some s => Val.str s | Option.none => Val.none) with
         | .ok cur' =>
           allOfSingleReprGo (engine (n + 1)) ctx info (.key .intK) base
             (ys.map Val.int) (pre.length + 1) cur' st'
         | .error pe => (.error pe, st'))
      | (.error (.typeMismatch _), st') =>
        (.error (.typeMismatch ("expected all values to be of type `"
          ++ typeName (.key .intK) ++ "`, but got `" ++ valTypeName (.int y)
          ++ "` at index " ++ toString pre.length)), st')
      | (.error e, st') => (.error e, st'))
      = (.ok (.list (pre ++ Val.str (toString y) :: ys.map (fun j => Val.str (toString j)))), st)
    rw [show (engine (n + 1)).reprF ctx info
        { name := base ++ "." ++ typeName (.key .intK) ++ "[i]",
          typ := .key .intK, val := .int y } st
      = (.ok (some (toString y), .int y), st) from rfl]
    show (match valSetIdx (.list (pre ++ Val.int y :: ys.map Val.int)) pre.length
        (Val.str (toString y)) with
      | .ok cur' =>
        allOfSingleReprGo (engine (n + 1)) ctx info (.key .intK) base
          (ys.map Val.int) (pre.length + 1) cur' st
      | .error pe => ((.error pe, st) : Except Err Val × FRState))
      = (.ok (.list (pre ++ Val.str (toString y) :: ys.map (fun j => Val.str (toString j)))), st)
    rw [show valSetIdx (.list (pre ++ Val.int y :: ys.map Val.int)) pre.length
        (Val.str (toString y))
      = .ok (.list ((pre ++ Val.int y :: ys.map Val.int).set pre.length
          (Val.str (toString y)))) from rfl]
    rw [list_set_middle pre (Val.int y) (Val.str (toString y)) (ys.map Val.int)]
    have := ih (pre ++ [Val.str (toString y)]) st
    simpa [List.append_assoc] using this

/-- C10 (confirmed, implicit): `repr(instance)` is not read-only — for a
field declared with a parameterized list type (`list[int]`) whose list
value is included in the repr (non-private name, value differing from the
default), `__repr__` overwrites every element of the instance's stored
list in place with that element's repr string: the attribute dict after
the call holds `[str(e) for e in xs]` where it held the integer list
`xs`. -/
theorem C10_repr_mutates_list_field (n : Nat) (ctx : Ctx) (mn nm : String) (ints : List Int)
    (cfg : ShiftConfig) (st : FRState)
    (hpriv : pyStartsWith nm "_" = false)
    (hipf : cfg.include_private_fields_in_serialization = false) :
    reprModel (n + 3) ctx
      { name := mn, cfg := cfg,
        decls := [{ name := nm, typ := .generic .listK [.key .intK], default := .v .missing }] }
      [(nm, .list (ints.map Val.int))] st
    = (.ok (mn ++ "(" ++ (nm ++ "=" ++ pyRepr (.list (ints.map (fun j => Val.str (toString j))))) ++ ")",
        [(nm, .list (ints.map (fun j => Val.str (toString j))))]), st) := by
  have hmagic := pyStartsWith_double nm hpriv
  show reprModelGo (engine (n + 2)).reprF ctx _ _ st = _
  have hgf : get_fields
      { name := mn, cfg := cfg,
        decls := [{ name := nm, typ := .generic .listK [.key .intK], default := .v .missing }] }
      ([] : List (String × Val))
      = .ok [{ name := nm, typ := .generic .listK [.key .intK], val := .missing,
               default := .v .missing }] := by
    simp only [get_fields, getFieldsGo, hpriv, hmagic, alookup, Val.isMissing,
      Bool.false_and, Bool.and_false, if_neg (by simp : ¬ (false = true))]
    rfl
  simp only [reprModelGo, hgf]
  have hfields : getValFields [(nm, Val.list (ints.map Val.int))]
      [{ name := nm, typ := .generic .listK [.key .intK], val := .missing,
         default := .v .missing }]
      = [{ name := nm, typ := .generic .listK [.key .intK],
           val := .list (ints.map Val.int), default := .v .missing }] := by
    simp [getValFields, alookup]
  rw [hfields]
  have hheader :
      (ClassDef.info
        { name := mn, cfg := cfg,
          decls := [⟨nm, .generic .listK [.key .intK], .v .missing⟩] }).cfg.include_private_fields_in_serialization = false :=
    hipf
  simp only [ClassDef.info] at hheader ⊢
  rw [hheader]
  simp only [Bool.false_and, if_neg (by simp : ¬ (false = true))]
  have hrf : (engine (n + 2)).reprF ctx { modelName := mn, cfg := cfg, hooks := {} }
      { name := nm, typ := .generic .listK [.key .intK],
        val := .list (ints.map Val.int), default := .v .missing } st
      = (.ok (some (pyRepr (.list (ints.map (fun j => Val.str (toString j))))),
          .list (ints.map (fun j => Val.str (toString j)))), st) := by
    show shift_all_of_single_type_repr (engine (n + 1)) ctx
        { modelName := mn, cfg := cfg, hooks := {} }
        { name := nm, typ := .generic .listK [.key .intK],
          val := .list (ints.map Val.int), default := .v .missing } st = _
    simp only [shift_all_of_single_type_repr, getArgs, isIterable, Bool.not_true,
      if_neg (by simp : ¬ (false = true)), iterElems]
    have := allOfSingleReprGo_ints n ctx { modelName := mn, cfg := cfg, hooks := {} }
      nm ints [] st
    simp only [List.length_nil, List.nil_append] at this
    rw [this]
  simp only [reprPhase, reprFieldGo, alookup, hpriv, hipf]
  simp only [Bool.false_and, Bool.and_false]
  rw [show pyValDfltEq (Val.list (ints.map Val.int)) (.v .missing) = false from rfl]
  simp only [Bool.false_and]
  rw [hrf]
  simp [updateAttrs, aset, String.intercalate]
  rfl

/-- Witness for C10: repr of an instance holding `[1, 2]` in a `list[int]`
field returns `M(xs=['1', '2'])` and leaves the attribute holding
`['1', '2']` instead of `[1, 2]`. -/
theorem C10_repr_mutates_list_field_witness :
    reprModel 3 {}
      { name := "M", cfg := {},
        decls := [{ name := "xs", typ := .generic .listK [.key .intK], default := .v .missing }] }
      [("xs", .list [.int 1, .int 2])] {}
    = (.ok ("M" ++ "(" ++ ("xs" ++ "=" ++ pyRepr (.list [.str "1", .str "2"])) ++ ")",
        [("xs", .list [.str "1", .str "2"])]), {}) :=
  C10_repr_mutates_list_field 0 {} "M" "xs" [1, 2] {} {} rfl rfl

/-- C1 (confirmed): for a two-field record whose supplied values both fail
their declared-type validation (hypotheses `h1`/`h2`: each field's
dispatched validator raises a mismatch, leaving the resolution state
alone), the validate phase with `fail_fast=False` accumulates exactly the
two field errors in declaration order — and `ShiftModel.validate`'s tail
turns them into `ShiftModelError(model, "validation", [e1, e2])` — while
with `fail_fast=True` the first field's wrapped error is raised
immediately and the second field's validation is never attempted (the
visited-fields instrumentation is `[n1]` only). -/
theorem C1_fail_fast_vs_aggregate (fuel : Nat) (ctx : Ctx) (mn n1 n2 : String)
    (t1 t2 : TypeExpr) (v1 v2 : Val) (d1 d2 : Dflt) (cfg : ShiftConfig)
    (m1 m2 : String) (st : FRState)
    (h1 : ∀ s, shift_type_validator fuel ctx { modelName := mn, cfg := cfg }
        ⟨n1, t1, v1, d1⟩ s = (.error (.typeMismatch m1), s))
    (h2 : ∀ s, shift_type_validator fuel ctx { modelName := mn, cfg := cfg }
        ⟨n2, t2, v2, d2⟩ s = (.error (.typeMismatch m2), s)) :
    (cfg.fail_fast = false →
      validatePhase (shift_type_validator fuel) ctx { modelName := mn, cfg := cfg }
          [⟨n1, t1, v1, d1⟩, ⟨n2, t2, v2, d2⟩] st
        = (.ok (false, [.fieldError n1 m1, .fieldError n2 m2]), [n1, n2], st)
      ∧ validateRaise mn (.ok (false, [.fieldError n1 m1, .fieldError n2 m2]))
        = .error (.modelError mn "validation" [.fieldError n1 m1, .fieldError n2 m2]))
    ∧ (cfg.fail_fast = true →
      validatePhase (shift_type_validator fuel) ctx { modelName := mn, cfg := cfg }
          [⟨n1, t1, v1, d1⟩, ⟨n2, t2, v2, d2⟩] st
        = (.error (.fieldError n1 m1), [n1], st)) := by
  constructor
  · intro hff
    refine ⟨?_, by simp [validateRaise]⟩
    simp only [validatePhase, validateFieldGo, validateFieldCore, alookup]
    rw [h1 st]
    simp only [Err.isShiftError, Bool.not_true, buildFieldError, hff]
    rw [h2 st]
    simp [Err.isShiftError, buildFieldError, hff]
  · intro hff
    simp only [validatePhase, validateFieldGo, validateFieldCore, alookup]
    rw [h1 st]
    simp [Err.isShiftError, buildFieldError, hff]

/-- Witness for C1: the record `Two(a: int, b: str)` with data
`a="x", b=3`. -/
theorem C1_fail_fast_vs_aggregate_witness :
    (validatePhase (shift_type_validator 1) {} { modelName := "Two", cfg := { fail_fast := false } }
        [⟨"a", .key .intK, .str "x", .v .missing⟩, ⟨"b", .key .strK, .int 3, .v .missing⟩] {}
      = (.ok (false, [.fieldError "a" "expected type `int`, got `str`",
                      .fieldError "b" "expected type `str`, got `int`"]), ["a", "b"], {}))
    ∧ (validatePhase (shift_type_validator 1) {} { modelName := "Two", cfg := { fail_fast := true } }
        [⟨"a", .key .intK, .str "x", .v .missing⟩, ⟨"b", .key .strK, .int 3, .v .missing⟩] {}
      = (.error (.fieldError "a" "expected type `int`, got `str`"), ["a"], {})) :=
  ⟨((C1_fail_fast_vs_aggregate 1 {} "Two" "a" "b" (.key .intK) (.key .strK)
      (.str "x") (.int 3) (.v .missing) (.v .missing) { fail_fast := false }
      "expected type `int`, got `str`" "expected type `str`, got `int`" {}
      (fun _ => rfl) (fun _ => rfl)).1 rfl).1,
   (C1_fail_fast_vs_aggregate 1 {} "Two" "a" "b" (.key .intK) (.key .strK)
      (.str "x") (.int 3) (.v .missing) (.v .missing) { fail_fast := true }
      "expected type `int`, got `str`" "expected type `str`, got `int`" {}
      (fun _ => rfl) (fun _ => rfl)).2 rfl⟩

/-- C4 (code_bug): the spec (and `test_config.py::test_allow_defaults`)
expect `ShiftConfig(allow_defaults=False)` to make construction raise a
`ShiftConfigError` when a defaulted field gets no constructor argument.
The final source's `ShiftConfig` has no `allow_defaults` field at all (the
embedded `ShiftConfig` carries its six flags field-for-field, and `cfg` is
quantified over all of them here), and under *every* configuration that
processes fields, `Test(val: int = 0)` constructed with no arguments
succeeds silently with the default substituted. -/
theorem C4_no_allow_defaults (fuel : Nat) (ctx : Ctx) (cfg : ShiftConfig) (st : FRState)
    (hdp : cfg.do_processing = true) :
    constructModel (fuel + 2) ctx
      { name := "Test", cfg := cfg, decls := [⟨"val", .key .intK, .v (.int 0)⟩] } [] st
      = (.ok [("val", .int 0)], st) := by
  obtain ⟨dp, ff, tc, ap, idf, ipf⟩ := cfg
  replace hdp : dp = true := hdp
  subst hdp
  rfl

/-- Witness for C4: the default configuration. -/
theorem C4_no_allow_defaults_witness :
    constructModel 2 {}
      { name := "Test", cfg := {}, decls := [⟨"val", .key .intK, .v (.int 0)⟩] } [] {}
      = (.ok [("val", .int 0)], {}) :=
  C4_no_allow_defaults 0 {} {} {} rfl

/-- C5 (confirmed): for a record class with one private (underscore, not
dunder) field and a caller-supplied non-`Missing` value for it: (1) with
`allow_private_field_setting=False` both field-resolution paths
(`get_fields` on a fresh class, `get_updated_fields` on a cached one)
raise the `ShiftFieldError`; (2) with the flag set the resolved field
carries the supplied value; (3) under
`include_private_fields_in_serialization=False` the serialize-phase
per-field step skips a private field before any type serializer runs (the
serializer argument is arbitrary), contributing nothing; (4) whole-model
`serialize()` of such an instance returns the empty dict and leaves the
attribute intact. -/
theorem C5_private_field_policy (mn p : String) (t : TypeExpr) (dv v : Val)
    (cfg : ShiftConfig) (st : FRState)
    (hp : pyStartsWith p "_" = true) (hm : pyEndsWith p "__" = false)
    (hv : v.isMissing = false) :
    (cfg.allow_private_field_setting = false →
      get_fields { name := mn, cfg := cfg, decls := [⟨p, t, .v dv⟩] } [(p, v)]
        = .error (.fieldError mn
            (p ++ " has a set value in data, but allow_private_field_setting is False"))
      ∧ ∀ (v0 : Val) (d : Dflt) (fs : List FieldInfo),
          get_updated_fields mn cfg [(p, v)] (⟨p, t, v0, d⟩ :: fs)
            = .error (.fieldError mn
                (p ++ " has a set value in data, but allow_private_field_setting is False")))
    ∧ (cfg.allow_private_field_setting = true →
      ∃ t' d', get_fields { name := mn, cfg := cfg, decls := [⟨p, t, .v dv⟩] } [(p, v)]
        = .ok [⟨p, t', v, d'⟩])
    ∧ (∀ (szf : Ctx → InfoE → FieldInfo → FRState → Except Err (Option Val × Val) × FRState)
        (ctx : Ctx) (info : InfoE) (d : Dflt),
        info.hooks.serializers = [] →
        info.cfg.include_private_fields_in_serialization = false →
        serializeFieldGo szf ctx info ⟨p, t, v, d⟩ st = (.ok (Option.none, v), st))
    ∧ (cfg.allow_private_field_setting = true →
      cfg.include_private_fields_in_serialization = false →
      ∀ (fuel : Nat) (ctx : Ctx),
        serializeModel (fuel + 1) ctx
          { name := mn, cfg := cfg, decls := [⟨p, t, .v dv⟩] } [(p, v)] st
          = (.ok (.dict [], [(p, v)]), st)) := by
  have hmagic : (pyStartsWith p "__" && pyEndsWith p "__") = false := by
    rw [hm, Bool.and_false]
  refine ⟨fun hap => ⟨?_, ?_⟩, fun hap => ?_, ?_, fun hap hipf fuel ctx => ?_⟩
  · simp [get_fields, getFieldsGo, hmagic, alookup, hp, hv, hap]
  · intro v0 d fs
    simp [get_updated_fields, ahas, alookup, hp, hap]
  · cases hdm : dv.isMissing with
    | true =>
      have hdv : dv = .missing := by
        cases dv <;> first | rfl | exact absurd hdm (by simp [Val.isMissing])
      subst hdv
      refine ⟨.generic .unionK [t, .key .noneK], .v .none, ?_⟩
      simp [get_fields, getFieldsGo, hmagic, alookup, hp, hv, hap]
      try rfl
    | false =>
      refine ⟨t, .v dv, ?_⟩
      simp [get_fields, getFieldsGo, hmagic, alookup, hp, hv, hap, hdm]
      try rfl
  · intro szf ctx info d hser hipf
    simp [serializeFieldGo, hser, alookup, hp, hipf]
  · have main : ∀ (t' : TypeExpr) (dv' : Val),
        get_fields { name := mn, cfg := cfg, decls := [⟨p, t, .v dv⟩] }
            ([] : List (String × Val))
          = .ok [⟨p, t', .missing, .v dv'⟩] →
        serializeModel (fuel + 1) ctx
            { name := mn, cfg := cfg, decls := [⟨p, t, .v dv⟩] } [(p, v)] st
          = (.ok (.dict [], [(p, v)]), st) := by
      intro t' dv' hgf
      show serializeModelGo (engine fuel).serializeF ctx _ _ st = _
      simp only [serializeModelGo, hgf]
      have hfields : getValFields [(p, v)] [⟨p, t', .missing, .v dv'⟩]
          = [⟨p, t', v, .v dv'⟩] := by
        simp [getValFields, alookup]
      rw [hfields]
      simp only [ClassDef.info, hipf]
      simp only [serializePhase, serializeFieldGo, alookup, hp, hipf]
      simp [updateAttrs, aset, foldDict]
      try rfl
    cases hdm : dv.isMissing with
    | true =>
      have hdv : dv = .missing := by
        cases dv <;> first | rfl | exact absurd hdm (by simp [Val.isMissing])
      subst hdv
      refine main (.generic .unionK [t, .key .noneK]) .none ?_
      simp [get_fields, getFieldsGo, hmagic, alookup, hp]
      try rfl
    | false =>
      refine main t dv ?_
      simp [get_fields, getFieldsGo, hmagic, alookup, hp, hdm]
      try rfl

/-- Witness for C5: the class `M(_p: int)` with data `_p=1`. -/
theorem C5_private_field_policy_witness :
    get_fields { name := "M", cfg := {}, decls := [⟨"_p", .key .intK, .v .missing⟩] }
        [("_p", .int 1)]
      = .error (.fieldError "M"
          ("_p" ++ " has a set value in data, but allow_private_field_setting is False"))
    ∧ serializeModel 1 {}
        { name := "M", cfg := { allow_private_field_setting := true },
          decls := [⟨"_p", .key .intK, .v .missing⟩] } [("_p", .int 1)] {}
      = (.ok (.dict [], [("_p", .int 1)]), {}) :=
  ⟨((C5_private_field_policy "M" "_p" (.key .intK) .missing (.int 1) {} {}
      rfl rfl rfl).1 rfl).1,
   (C5_private_field_policy "M" "_p" (.key .intK) .missing (.int 1)
      { allow_private_field_setting := true } {} rfl rfl rfl).2.2.2 rfl rfl 0 {}⟩

/-- C6 (confirmed): forward-reference resolution is cached process-wide.
For a field typed with `ForwardRef(nm)` where `nm` is not yet cached, is
neither the current model nor a registered class, and resolves through the
surrounding scope (the external lookup, counted by `envLookups`):
validating it once performs exactly one external lookup and stores
`nm ↦ resolved` in the cache, then re-dispatches the resolved type
(hypothesis `hres` gives that dispatch's result); validating it a second
time from the resulting state short-circuits on the cache — the external
lookup count stays at its post-first-run value (`envLookups + 1` in
total), the cache is unchanged, and the same re-dispatch happens
(`resolveCalls` records that `resolve_forward_ref` itself is entered each
time; its internal string-keyed cache is what short-circuits). -/
theorem C6_forward_ref_cache (fuel : Nat) (ctx : Ctx) (info : InfoE) (nm0 : String)
    (val : Val) (dflt : Dflt) (nm : String) (resolved : TypeExpr) (b : Bool) (st : FRState)
    (hc : alookup st.cache nm = Option.none)
    (hmn : ¬ (nm = info.modelName))
    (hreg : findClass ctx nm = Option.none)
    (hsc : alookup ctx.scope nm = some resolved)
    (hres : ∀ s : FRState, shift_type_validator fuel ctx info ⟨nm0, resolved, val, dflt⟩ s
      = (.ok b, s)) :
    shift_type_validator (fuel + 1) ctx info ⟨nm0, .fref nm, val, dflt⟩ st
      = (.ok b, ⟨aset st.cache nm resolved, st.resolveCalls + 1, st.envLookups + 1⟩)
    ∧ shift_type_validator (fuel + 1) ctx info ⟨nm0, .fref nm, val, dflt⟩
        ⟨aset st.cache nm resolved, st.resolveCalls + 1, st.envLookups + 1⟩
      = (.ok b, ⟨aset st.cache nm resolved, st.resolveCalls + 2, st.envLookups + 1⟩) := by
  obtain ⟨cache, rc, el⟩ := st
  simp only at hc
  have hres' : ∀ s : FRState, (engine fuel).validateF ctx info ⟨nm0, resolved, val, dflt⟩ s
      = (.ok b, s) := hres
  constructor
  · show shift_forward_ref_type_validator (engine fuel) ctx info
      ⟨nm0, .fref nm, val, dflt⟩ ⟨cache, rc, el⟩ = _
    simp only [shift_forward_ref_type_validator, frefHandlerCacheHit, frefArg,
      resolveForwardRef, registerForwardRef, hc, if_neg hmn, hreg, hsc]
    simp [hres', aset_aset_self]
  · show shift_forward_ref_type_validator (engine fuel) ctx info
      ⟨nm0, .fref nm, val, dflt⟩ ⟨aset cache nm resolved, rc + 1, el + 1⟩ = _
    simp only [shift_forward_ref_type_validator, frefHandlerCacheHit, frefArg,
      resolveForwardRef, registerForwardRef, alookup_aset_self]
    simp [hres', aset_aset_self]

/-- Witness for C6: `f: "N"` resolving to `int` through the scope, value
`3`, starting from the empty cache. -/
theorem C6_forward_ref_cache_witness :
    shift_type_validator 2 { scope := [("N", .key .intK)] } { modelName := "M", cfg := {} }
        ⟨"f", .fref "N", .int 3, .v .missing⟩ {}
      = (.ok true, ⟨[("N", .key .intK)], 1, 1⟩)
    ∧ shift_type_validator 2 { scope := [("N", .key .intK)] } { modelName := "M", cfg := {} }
        ⟨"f", .fref "N", .int 3, .v .missing⟩ ⟨[("N", .key .intK)], 1, 1⟩
      = (.ok true, ⟨[("N", .key .intK)], 2, 1⟩) :=
  C6_forward_ref_cache 1 { scope := [("N", .key .intK)] } { modelName := "M", cfg := {} }
    "f" (.int 3) (.v .missing) "N" (.key .intK) true {} rfl (by decide) rfl rfl
    (fun s => rfl)

/-- C7 counterexample: the record `T(t: tuple[int, str])` constructs fine
from `t=(1, "a")` (first conjunct), but `T(**x.serialize()) == x` does not
yield `True` — it raises `TypeError`: the tuple serializer writes each
serialized element back with `field_info.val[i] = …` and (unlike
transform/set) performs no `_can_index` list conversion, so the in-place
assignment hits the stored tuple. -/
theorem C7_roundtrip_counterexample :
    constructModel 3 {}
      { name := "T", decls := [⟨"t", .generic .tupleK [.key .intK, .key .strK], .v .missing⟩] }
      [("t", .tuple [.int 1, .str "a"])] {}
      = (.ok [("t", .tuple [.int 1, .str "a"])], {})
    ∧ roundtrip 4 {}
      { name := "T", decls := [⟨"t", .generic .tupleK [.key .intK, .key .strK], .v .missing⟩] }
      [("t", .tuple [.int 1, .str "a"])] {}
      = (.error (.pyTypeError "'tuple' object does not support item assignment"), {}) :=
  ⟨rfl, rfl⟩

/-- C8 counterexample: serialization is not idempotent.  For
`Outer(items: list[Inner])` holding one `Inner(x=5)` instance (first
conjunct: that attribute dict is what construction builds), the first
`serialize()` returns `{'items': [{'x': 5}]}` but *overwrites the stored
list's element with the serialized dict* (the returned attribute state,
second conjunct); calling `serialize()` again on that state raises,
because the element is now a `dict`, not an `Inner` (third conjunct). -/
theorem C8_serialize_counterexample :
    constructModel 6 { classes := [{ name := "Inner", decls := [⟨"x", .key .intK, .v .missing⟩] }] }
      { name := "Outer", decls := [⟨"items", .generic .listK [.modelClass "Inner"], .v .missing⟩] }
      [("items", .list [.model "Inner" [("x", .int 5)]])] {}
      = (.ok [("items", .list [.model "Inner" [("x", .int 5)]])], {})
    ∧ serializeModel 6 { classes := [{ name := "Inner", decls := [⟨"x", .key .intK, .v .missing⟩] }] }
      { name := "Outer", decls := [⟨"items", .generic .listK [.modelClass "Inner"], .v .missing⟩] }
      [("items", .list [.model "Inner" [("x", .int 5)]])] {}
      = (.ok (.dict [(.str "items", .list [.dict [(.str "x", .int 5)]])],
          [("items", .list [.dict [(.str "x", .int 5)]])]), {})
    ∧ serializeModel 6 { classes := [{ name := "Inner", decls := [⟨"x", .key .intK, .v .missing⟩] }] }
      { name := "Outer", decls := [⟨"items", .generic .listK [.modelClass "Inner"], .v .missing⟩] }
      [("items", .list [.dict [(.str "x", .int 5)]])] {}
      = (.error (.typeMismatch
          "expected all values to be of type `Inner`, but got `dict` at index 0"), {}) :=
  ⟨rfl, rfl, rfl⟩

/-! ## The flat fragment: case analysis and per-field identity lemmas -/

theorem flatTy_cases (t : TypeExpr) (h : flatTy t = true) :
    (t = .key .anyK ∨ t = .key .listK ∨ t = .key .tupleK ∨ t = .key .setK ∨ t = .key .dictK)
    ∨ scalarTy t = true
    ∨ (∃ a, t = .generic .listK [a] ∧ scalarTy a = true) := by
  cases t with
  | key k => cases k <;> simp [flatTy, scalarTy] at h ⊢
  | generic o args =>
    cases o <;> try simp [flatTy, scalarTy] at h
    case listK =>
      cases args with
      | nil => simp [flatTy, scalarTy] at h
      | cons a rest =>
        cases rest with
        | nil =>
          refine Or.inr (Or.inr ⟨a, rfl, ?_⟩)
          simpa [flatTy] using h
        | cons b r2 => simp [flatTy, scalarTy] at h
  | fref n => simp [flatTy, scalarTy] at h
  | modelClass n => simp [flatTy, scalarTy] at h
  | value v => simp [flatTy, scalarTy] at h

theorem fitsTy_not_missing (t : TypeExpr) (x : Val) (h : fitsTy t x = true) :
    x.isMissing = false := by
  cases x <;> try rfl
  exfalso
  cases t with
  | key k => cases k <;> simp [fitsTy, Val.isMissing] at h
  | generic o args =>
    cases o <;> first
      | simp [fitsTy] at h
      | (cases args with
         | nil => simp [fitsTy] at h
         | cons a rest => cases rest <;> simp [fitsTy] at h)
  | fref n => simp [fitsTy] at h
  | modelClass n => simp [fitsTy] at h
  | value v => simp [fitsTy] at h

theorem pyValEq_missing_right (v : Val) (h : pyValEq v .missing = true) :
    v.isMissing = true := by
  cases v <;> simp [pyValEq] at h <;> rfl

theorem scalar_validate_ok (k : Nat) (ctx : Ctx) (info : InfoE) (f : FieldInfo) (st : FRState)
    (ha : scalarTy f.typ = true) (hx : fitsTy f.typ f.val = true) :
    (engine (k + 1)).validateF ctx info f st = (.ok true, st) := by
  obtain ⟨nm, t, x, d⟩ := f
  simp only at ha hx
  cases t with
  | key kk => cases kk <;> simp [scalarTy] at ha <;> cases x <;> simp [fitsTy] at hx <;> rfl
  | generic o args => simp [scalarTy] at ha
  | fref n => simp [scalarTy] at ha
  | modelClass n => simp [scalarTy] at ha
  | value v => simp [scalarTy] at ha

theorem scalar_transform_id (k : Nat) (ctx : Ctx) (info : InfoE) (f : FieldInfo) (st : FRState)
    (ha : scalarTy f.typ = true) (hx : fitsTy f.typ f.val = true) :
    (engine (k + 1)).transformF ctx info f st = (.ok f.val, st) := by
  obtain ⟨nm, t, x, d⟩ := f
  simp only at ha hx
  cases t with
  | key kk => cases kk <;> simp [scalarTy] at ha <;> cases x <;> simp [fitsTy] at hx <;> rfl
  | generic o args => simp [scalarTy] at ha
  | fref n => simp [scalarTy] at ha
  | modelClass n => simp [scalarTy] at ha
  | value v => simp [scalarTy] at ha

theorem scalar_set_id (k : Nat) (ctx : Ctx) (info : InfoE) (f : FieldInfo) (st : FRState)
    (ha : scalarTy f.typ = true) (hx : fitsTy f.typ f.val = true) :
    (engine (k + 1)).setF ctx info f st = (.ok f.val, st) := by
  obtain ⟨nm, t, x, d⟩ := f
  simp only at ha hx
  cases t with
  | key kk => cases kk <;> simp [scalarTy] at ha <;> cases x <;> simp [fitsTy] at hx <;> rfl
  | generic o args => simp [scalarTy] at ha
  | fref n => simp [scalarTy] at ha
  | modelClass n => simp [scalarTy] at ha
  | value v => simp [scalarTy] at ha

theorem scalar_serialize_id (k : Nat) (ctx : Ctx) (info : InfoE) (f : FieldInfo) (st : FRState)
    (ha : scalarTy f.typ = true) (hx : fitsTy f.typ f.val = true) :
    (engine (k + 1)).serializeF ctx info f st = (.ok (some f.val, f.val), st) := by
  obtain ⟨nm, t, x, d⟩ := f
  simp only at ha hx
  cases t with
  | key kk => cases kk <;> simp [scalarTy] at ha <;> cases x <;> simp [fitsTy] at hx <;> rfl
  | generic o args => simp [scalarTy] at ha
  | fref n => simp [scalarTy] at ha
  | modelClass n => simp [scalarTy] at ha
  | value v => simp [scalarTy] at ha

theorem allOfSingleValidateGo_flat (m : Nat) (ctx : Ctx) (info : InfoE) (a : TypeExpr)
    (base : String) (ha : scalarTy a = true) :
    ∀ (ys : List Val) (i : Nat) (st : FRState), (∀ y ∈ ys, fitsTy a y = true) →
      allOfSingleValidateGo (engine (m + 1)) ctx info a base ys i st = (.ok true, st) := by
  intro ys
  induction ys with
  | nil => intro i st _; rfl
  | cons y ys ih =>
    intro i st hall
    simp only [allOfSingleValidateGo]
    rw [scalar_validate_ok m ctx info
      ⟨base ++ "." ++ typeName a ++ "[i]", a, y, .v .missing⟩ st ha (hall y (by simp))]
    exact ih (i + 1) st (fun z hz => hall z (by simp [hz]))

theorem flat_validate_ok (m : Nat) (ctx : Ctx) (info : InfoE) (f : FieldInfo) (st : FRState)
    (hft : flatTy f.typ = true) (hx : fitsTy f.typ f.val = true) :
    (engine (m + 2)).validateF ctx info f st = (.ok true, st) := by
  obtain ⟨nm, t, x, d⟩ := f
  simp only at hft hx
  rcases flatTy_cases t hft with (rfl | rfl | rfl | rfl | rfl) | hsc | ⟨a, rfl, ha⟩
  · show shift_any_type_validator ⟨nm, .key .anyK, x, d⟩ st = _
    simp [shift_any_type_validator, fitsTy_not_missing _ _ hx]
  · rfl
  · rfl
  · rfl
  · rfl
  · exact scalar_validate_ok (m + 1) ctx info ⟨nm, t, x, d⟩ st hsc hx
  · cases x <;> simp [fitsTy] at hx
    rename_i xs
    show shift_all_of_single_type_validator (engine (m + 1)) ctx info
      ⟨nm, .generic .listK [a], .list xs, d⟩ st = _
    simp only [shift_all_of_single_type_validator, getArgs, isIterable, Bool.not_true,
      Bool.false_eq_true, if_false]
    exact allOfSingleValidateGo_flat m ctx info a nm ha xs 0 st hx

theorem allOfSingleTransformGo_flat (m : Nat) (ctx : Ctx) (info : InfoE) (a : TypeExpr)
    (base : String) (ha : scalarTy a = true) :
    ∀ (ys : List Val) (pre : List Val) (st : FRState), (∀ y ∈ ys, fitsTy a y = true) →
      allOfSingleTransformGo (engine (m + 1)) ctx info a base ys pre.length
          (.list (pre ++ ys)) st
      = (.ok (.list (pre ++ ys)), st) := by
  intro ys
  induction ys with
  | nil => intro pre st _; simp [allOfSingleTransformGo]
  | cons y ys ih =>
    intro pre st hall
    simp only [allOfSingleTransformGo]
    rw [scalar_transform_id m ctx info
      ⟨base ++ "." ++ typeName a ++ "[" ++ toString pre.length ++ "]", a, y, .v .missing⟩ st
      ha (hall y (by simp))]
    dsimp only
    rw [show valSetIdx (.list (pre ++ y :: ys)) pre.length y
      = .ok (.list ((pre ++ y :: ys).set pre.length y)) from rfl]
    rw [list_set_middle]
    dsimp only
    have h2 := ih (pre ++ [y]) st (fun z hz => hall z (by simp [hz]))
    simpa [List.append_assoc] using h2

theorem allOfSingleSetGo_flat (m : Nat) (ctx : Ctx) (info : InfoE) (a : TypeExpr)
    (base : String) (ha : scalarTy a = true) :
    ∀ (ys : List Val) (pre : List Val) (st : FRState), (∀ y ∈ ys, fitsTy a y = true) →
      allOfSingleSetGo (engine (m + 1)) ctx info a base ys pre.length
          (.list (pre ++ ys)) st
      = (.ok (.list (pre ++ ys)), st) := by
  intro ys
  induction ys with
  | nil => intro pre st _; simp [allOfSingleSetGo]
  | cons y ys ih =>
    intro pre st hall
    simp only [allOfSingleSetGo]
    rw [scalar_set_id m ctx info
      ⟨base ++ "." ++ typeName a ++ "[i]", a, y, .v .missing⟩ st ha (hall y (by simp))]
    dsimp only
    rw [show valSetIdx (.list (pre ++ y :: ys)) pre.length y
      = .ok (.list ((pre ++ y :: ys).set pre.length y)) from rfl]
    rw [list_set_middle]
    dsimp only
    have h2 := ih (pre ++ [y]) st (fun z hz => hall z (by simp [hz]))
    simpa [List.append_assoc] using h2

theorem allOfSingleSerializeGo_flat (m : Nat) (ctx : Ctx) (info : InfoE) (a : TypeExpr)
    (base : String) (ha : scalarTy a = true) :
    ∀ (ys : List Val) (pre : List Val) (st : FRState), (∀ y ∈ ys, fitsTy a y = true) →
      allOfSingleSerializeGo (engine (m + 1)) ctx info a base ys pre.length
          (.list (pre ++ ys)) st
      = (.ok (.list (pre ++ ys)), st) := by
  intro ys
  induction ys with
  | nil => intro pre st _; simp [allOfSingleSerializeGo]
  | cons y ys ih =>
    intro pre st hall
    simp only [allOfSingleSerializeGo]
    rw [scalar_serialize_id m ctx info
      ⟨base ++ "." ++ typeName a ++ "[i]", a, y, .v .missing⟩ st ha (hall y (by simp))]
    dsimp only
    rw [show valSetIdx (.list (pre ++ y :: ys)) pre.length y
      = .ok (.list ((pre ++ y :: ys).set pre.length y)) from rfl]
    rw [list_set_middle]
    dsimp only
    have h2 := ih (pre ++ [y]) st (fun z hz => hall z (by simp [hz]))
    simpa [List.append_assoc] using h2

theorem flat_transform_id (m : Nat) (ctx : Ctx) (info : InfoE) (f : FieldInfo) (st : FRState)
    (hft : flatTy f.typ = true) (hx : fitsTy f.typ f.val = true) :
    (engine (m + 2)).transformF ctx info f st = (.ok f.val, st) := by
  obtain ⟨nm, t, x, d⟩ := f
  simp only at hft hx
  rcases flatTy_cases t hft with (rfl | rfl | rfl | rfl | rfl) | hsc | ⟨a, rfl, ha⟩
  · show shift_any_type_transformer ⟨nm, .key .anyK, x, d⟩ st = _
    simp [shift_any_type_transformer, fitsTy_not_missing _ _ hx]
  · rfl
  · rfl
  · rfl
  · rfl
  · exact scalar_transform_id (m + 1) ctx info ⟨nm, t, x, d⟩ st hsc hx
  · cases x <;> simp [fitsTy] at hx
    rename_i xs
    show shift_all_of_single_type_transformer (engine (m + 1)) ctx info
      ⟨nm, .generic .listK [a], .list xs, d⟩ st = _
    cases xs with
    | nil => rfl
    | cons z zs =>
      simp only [shift_all_of_single_type_transformer, getArgs, isIterable, Bool.not_true,
        Bool.false_eq_true, if_false, canIndex, iterElems, if_true]
      have h2 := allOfSingleTransformGo_flat m ctx info a nm ha (z :: zs) [] st
        (fun y hy => hx y hy)
      simp only [List.length_nil, List.nil_append] at h2
      rw [h2]

theorem flat_set_id (m : Nat) (ctx : Ctx) (info : InfoE) (f : FieldInfo) (st : FRState)
    (hft : flatTy f.typ = true) (hx : fitsTy f.typ f.val = true) :
    (engine (m + 2)).setF ctx info f st = (.ok f.val, st) := by
  obtain ⟨nm, t, x, d⟩ := f
  simp only at hft hx
  rcases flatTy_cases t hft with (rfl | rfl | rfl | rfl | rfl) | hsc | ⟨a, rfl, ha⟩
  · show shift_any_type_setter ⟨nm, .key .anyK, x, d⟩ st = _
    simp [shift_any_type_setter, fitsTy_not_missing _ _ hx]
  · rfl
  · rfl
  · rfl
  · rfl
  · exact scalar_set_id (m + 1) ctx info ⟨nm, t, x, d⟩ st hsc hx
  · cases x <;> simp [fitsTy] at hx
    rename_i xs
    show shift_all_of_single_type_setter (engine (m + 1)) ctx info
      ⟨nm, .generic .listK [a], .list xs, d⟩ st = _
    cases xs with
    | nil => rfl
    | cons z zs =>
      simp only [shift_all_of_single_type_setter, getArgs, isIterable, Bool.not_true,
        Bool.false_eq_true, if_false, canIndex, iterElems, if_true]
      have h2 := allOfSingleSetGo_flat m ctx info a nm ha (z :: zs) [] st
        (fun y hy => hx y hy)
      simp only [List.length_nil, List.nil_append] at h2
      rw [h2]

theorem flat_serialize_id (m : Nat) (ctx : Ctx) (info : InfoE) (f : FieldInfo) (st : FRState)
    (hft : flatTy f.typ = true) (hx : fitsTy f.typ f.val = true) :
    (engine (m + 2)).serializeF ctx info f st = (.ok (some f.val, f.val), st) := by
  obtain ⟨nm, t, x, d⟩ := f
  simp only at hft hx
  rcases flatTy_cases t hft with (rfl | rfl | rfl | rfl | rfl) | hsc | ⟨a, rfl, ha⟩
  · show shift_any_type_serializer ⟨nm, .key .anyK, x, d⟩ st = _
    simp [shift_any_type_serializer, fitsTy_not_missing _ _ hx]
  · rfl
  · rfl
  · rfl
  · rfl
  · exact scalar_serialize_id (m + 1) ctx info ⟨nm, t, x, d⟩ st hsc hx
  · cases x <;> simp [fitsTy] at hx
    rename_i xs
    show shift_all_of_single_type_serializer (engine (m + 1)) ctx info
      ⟨nm, .generic .listK [a], .list xs, d⟩ st = _
    simp only [shift_all_of_single_type_serializer, getArgs, isIterable, Bool.not_true,
      Bool.false_eq_true, if_false, iterElems]
    have h2 := allOfSingleSerializeGo_flat m ctx info a nm ha xs [] st
      (fun y hy => hx y hy)
    simp only [List.length_nil, List.nil_append] at h2
    rw [h2]

/-! ## The flat fragment: phase drivers -/

theorem transformFieldGo_flat (m : Nat) (ctx : Ctx) (info : InfoE) (f : FieldInfo) (st : FRState)
    (hh : info.hooks = {}) (hft : flatTy f.typ = true)
    (hdf : (match f.default with | .v _ => true | .sf _ => false) = true)
    (hfit : fitsTy f.typ (effVal f) = true) :
    transformFieldGo (engine (m + 2)).transformF ctx info f st
      = (Option.none, { f with val := effVal f }, st) := by
  simp only [transformFieldGo, hh]
  try dsimp only
  simp only [alookup, ahas, Option.isSome, Bool.false_and, Bool.false_eq_true, if_false]
  cases hm : f.val.isMissing with
  | true =>
    cases hd : f.default with
    | sf sfv => rw [hd] at hdf; exact absurd hdf (by simp)
    | v dv =>
      have heff : effVal f = dv := by simp [effVal, hm, hd]
      simp only [hm, hd, if_true]
      rw [flat_transform_id m ctx info ⟨f.name, f.typ, dv, .v dv⟩ st hft
        (by rw [heff] at hfit; exact hfit)]
      try dsimp only
      simp only [alookup, heff]
  | false =>
    have heff : effVal f = f.val := by simp [effVal, hm]
    simp only [hm, Bool.false_eq_true, if_false]
    rw [flat_transform_id m ctx info f st hft (by rw [heff] at hfit; exact hfit)]
    try dsimp only
    simp only [alookup, heff]

theorem transformPhase_flat (m : Nat) (ctx : Ctx) (info : InfoE) (hh : info.hooks = {}) :
    ∀ (fields : List FieldInfo) (st : FRState),
      (∀ f ∈ fields, flatTy f.typ = true
        ∧ (match f.default with | .v _ => true | .sf _ => false) = true
        ∧ fitsTy f.typ (effVal f) = true) →
      transformPhase (engine (m + 2)).transformF ctx info fields st
        = (.ok (fields.map (fun f => { f with val := effVal f }), []), st) := by
  intro fields
  induction fields with
  | nil => intro st _; rfl
  | cons f fs ih =>
    intro st hall
    obtain ⟨h1, h2, h3⟩ := hall f (by simp)
    simp only [transformPhase, List.map_cons]
    rw [transformFieldGo_flat m ctx info f st hh h1 h2 h3]
    try dsimp only
    rw [ih st (fun g hg => hall g (by simp [hg]))]

theorem validatePhase_flat (m : Nat) (ctx : Ctx) (info : InfoE) (hh : info.hooks = {}) :
    ∀ (fields : List FieldInfo) (st : FRState),
      (∀ f ∈ fields, flatTy f.typ = true ∧ fitsTy f.typ f.val = true) →
      validatePhase (engine (m + 2)).validateF ctx info fields st
        = (.ok (true, []), fields.map (fun f => f.name), st) := by
  intro fields
  induction fields with
  | nil => intro st _; rfl
  | cons f fs ih =>
    intro st hall
    obtain ⟨h1, h2⟩ := hall f (by simp)
    simp only [validatePhase, validateFieldGo, validateFieldCore, hh, List.map_cons]
    try dsimp only
    simp only [alookup]
    rw [flat_validate_ok m ctx info f st h1 h2]
    try dsimp only
    rw [ih st (fun g hg => hall g (by simp [hg]))]

theorem setPhase_flat (m : Nat) (ctx : Ctx) (info : InfoE) (hh : info.hooks = {}) :
    ∀ (fields : List FieldInfo) (attrs0 : Attrs) (st : FRState),
      (∀ f ∈ fields, flatTy f.typ = true ∧ fitsTy f.typ f.val = true) →
      setPhase (engine (m + 2)).setF ctx info attrs0 fields st
        = (.ok (updateAttrs attrs0 fields, []), st) := by
  intro fields
  induction fields with
  | nil => intro attrs0 st _; rfl
  | cons f fs ih =>
    intro attrs0 st hall
    obtain ⟨h1, h2⟩ := hall f (by simp)
    simp only [setPhase, setFieldGo, hh, updateAttrs]
    try dsimp only
    simp only [alookup]
    rw [flat_set_id m ctx info f st h1 h2]
    try dsimp only
    rw [ih (aset attrs0 f.name f.val) st (fun g hg => hall g (by simp [hg]))]

theorem serializeFieldGo_flat (m : Nat) (ctx : Ctx) (info : InfoE) (f : FieldInfo) (st : FRState)
    (hh : info.hooks = {}) (hpr : pyStartsWith f.name "_" = false)
    (hft : flatTy f.typ = true) (hfv : fitsTy f.typ f.val = true) :
    serializeFieldGo (engine (m + 2)).serializeF ctx info f st
      = (.ok ((if pyValDfltEq f.val f.default
                  && !info.cfg.include_default_fields_in_serialization
               then Option.none else some f.val), f.val), st) := by
  simp only [serializeFieldGo, hh]
  try dsimp only
  simp only [alookup, hpr, Bool.false_and, Bool.false_eq_true, if_false]
  cases hdf : (pyValDfltEq f.val f.default
      && !info.cfg.include_default_fields_in_serialization) with
  | true => simp
  | false =>
    simp only [Bool.false_eq_true, if_false]
    exact flat_serialize_id m ctx info f st hft hfv

theorem serializePhase_flat (m : Nat) (ctx : Ctx) (info : InfoE) (hh : info.hooks = {}) :
    ∀ (fields : List FieldInfo) (st : FRState),
      (∀ f ∈ fields, pyStartsWith f.name "_" = false ∧ flatTy f.typ = true
        ∧ fitsTy f.typ f.val = true
        ∧ (match f.default with | .v _ => true | .sf _ => false) = true) →
      serializePhase (engine (m + 2)).serializeF ctx info fields st
        = (.ok (serStreamOfFields info.cfg fields, fields), st) := by
  intro fields
  induction fields with
  | nil => intro st _; rfl
  | cons f fs ih =>
    intro st hall
    obtain ⟨h1, h2, h3, h4⟩ := hall f (by simp)
    simp only [serializePhase, serStreamOfFields]
    rw [serializeFieldGo_flat m ctx info f st hh h1 h2 h3]
    try dsimp only
    cases hdf : (pyValDfltEq f.val f.default
        && !info.cfg.include_default_fields_in_serialization) with
    | true =>
      try dsimp only
      rw [ih st (fun g hg => hall g (by simp [hg]))]
      simp [serStreamOfFields]
    | false =>
      cases hd4 : f.default with
      | sf sfv => rw [hd4] at h4; exact absurd h4 (by simp)
      | v dv =>
        try dsimp only
        rw [ih st (fun g hg => hall g (by simp [hg]))]
        simp [serStreamOfFields]
        rw [← hd4]

/-! ## The flat fragment: attribute-dict and stream lemmas -/

theorem aset_append {A : Type} (acc : List (String × A)) (k : String) (v : A)
    (h : alookup acc k = Option.none) : aset acc k v = acc ++ [(k, v)] := by
  induction acc with
  | nil => rfl
  | cons p rest ih =>
    obtain ⟨k', v'⟩ := p
    by_cases hk : k' = k
    · simp [alookup, hk] at h
    · simp [alookup, hk] at h
      simp [aset, hk, ih h]

theorem alookup_append_none {A : Type} (acc : List (String × A)) (k n : String) (v : A)
    (h : alookup acc n = Option.none) (hne : ¬ (k = n)) :
    alookup (acc ++ [(k, v)]) n = Option.none := by
  induction acc with
  | nil => simp [alookup, hne]
  | cons p rest ih =>
    obtain ⟨k', v'⟩ := p
    by_cases hk : k' = n
    · simp [alookup, hk] at h
    · simp [alookup, hk] at h ⊢
      exact ih h

theorem updateAttrs_fresh : ∀ (fields : List FieldInfo) (acc : Attrs),
    (∀ f ∈ fields, alookup acc f.name = Option.none) →
    namesDistinct (fields.map (fun f => f.name)) = true →
    updateAttrs acc fields = acc ++ fields.map (fun f => (f.name, f.val)) := by
  intro fields
  induction fields with
  | nil => intro acc _ _; simp [updateAttrs]
  | cons f fs ih =>
    intro acc hacc hnd
    simp only [namesDistinct, List.map_cons, Bool.and_eq_true, Bool.not_eq_true'] at hnd
    obtain ⟨hc, hrest⟩ := hnd
    have hnm : f.name ∉ fs.map (fun g => g.name) := by
      simpa using hc
    simp only [updateAttrs, List.map_cons]
    rw [aset_append acc f.name f.val (hacc f (by simp))]
    rw [ih (acc ++ [(f.name, f.val)])
      (fun g hg => alookup_append_none _ _ _ _ (hacc g (by simp [hg]))
        (fun he => hnm (he ▸ List.mem_map_of_mem (fun x => x.name) hg)))
      hrest]
    simp

theorem updateAttrs_id : ∀ (fields : List FieldInfo) (attrs : Attrs),
    (∀ f ∈ fields, alookup attrs f.name = some f.val) →
    updateAttrs attrs fields = attrs := by
  intro fields
  induction fields with
  | nil => intro attrs _; rfl
  | cons f fs ih =>
    intro attrs hall
    simp only [updateAttrs]
    rw [aset_of_alookup attrs f.name f.val (hall f (by simp))]
    exact ih attrs (fun g hg => hall g (by simp [hg]))

theorem dictSetEntry_fresh (k v : Val) : ∀ (acc : List (Val × Val)),
    (∀ e ∈ acc, pyValEq e.1 k = false) → dictSetEntry acc k v = acc ++ [(k, v)] := by
  intro acc
  induction acc with
  | nil => intro _; rfl
  | cons e rest ih =>
    intro h
    obtain ⟨k', v'⟩ := e
    have hk := h (k', v') (by simp)
    simp only [dictSetEntry, hk, Bool.false_eq_true, if_false, List.cons_append]
    rw [ih (fun e he => h e (by simp [he]))]

theorem foldDict_fresh : ∀ (xs : List (String × Val)) (acc : List (Val × Val)),
    (∀ e ∈ acc, ∀ x ∈ xs, pyValEq e.1 (.str x.1) = false) →
    namesDistinct (xs.map Prod.fst) = true →
    foldDict acc (xs.map (fun e => ((.str e.1 : Val), e.2)))
      = acc ++ xs.map (fun e => ((.str e.1 : Val), e.2)) := by
  intro xs
  induction xs with
  | nil => intro acc _ _; simp [foldDict]
  | cons x rest ih =>
    intro acc hacc hnd
    obtain ⟨nm, v⟩ := x
    simp only [namesDistinct, List.map_cons, Bool.and_eq_true, Bool.not_eq_true'] at hnd
    obtain ⟨hc, hrest⟩ := hnd
    have hnm : nm ∉ rest.map Prod.fst := by
      simpa using hc
    simp only [List.map_cons, foldDict]
    rw [dictSetEntry_fresh (.str nm) v acc (fun e he => hacc e he (nm, v) (by simp))]
    rw [ih (acc ++ [((.str nm : Val), v)]) ?ha hrest]
    · simp
    case ha =>
      intro e he x hx
      rcases List.mem_append.mp he with he1 | he2
      · exact hacc e he1 x (by simp [hx])
      · have : e = ((.str nm : Val), v) := by simpa using he2
        subst this
        show pyValEq (.str nm) (.str x.1) = false
        have hxne : x.1 ≠ nm := by
          intro hxe
          exact hnm (hxe ▸ List.mem_map_of_mem Prod.fst hx)
        show (nm == x.1) = false
        exact beq_eq_false_iff_ne.mpr (fun he3 => hxne he3.symm)

theorem dictKwargs_strs : ∀ (xs : List (String × Val)),
    dictKwargs (xs.map (fun e => ((.str e.1 : Val), e.2))) = some xs := by
  intro xs
  induction xs with
  | nil => rfl
  | cons x rest ih =>
    obtain ⟨nm, v⟩ := x
    simp [List.map_cons, dictKwargs, ih]

theorem alookup_map_decl (g : FieldDecl → Val) : ∀ (decls : List FieldDecl) (d : FieldDecl),
    d ∈ decls → namesDistinct (decls.map (fun x => x.name)) = true →
    alookup (decls.map (fun x => (x.name, g x))) d.name = some (g d) := by
  intro decls
  induction decls with
  | nil => intro d hd _; cases hd
  | cons d0 ds ih =>
    intro d hd hnd
    simp only [namesDistinct, List.map_cons, Bool.and_eq_true, Bool.not_eq_true'] at hnd
    obtain ⟨hc, hrest⟩ := hnd
    rcases List.mem_cons.mp hd with h | h
    · subst h
      simp [alookup]
    · have hnm : d0.name ∉ ds.map (fun x => x.name) := by simpa using hc
      have hne : ¬ (d0.name = d.name) := by
        intro he
        exact hnm (he ▸ List.mem_map_of_mem (fun x => x.name) h)
      simp only [List.map_cons, alookup, hne, if_false]
      exact ih d h hrest

theorem attrsFit_mem (attrs : Attrs) : ∀ (decls : List FieldDecl),
    attrsFit attrs decls = true →
    ∀ d ∈ decls, ∃ v, alookup attrs d.name = some v ∧ fitsTy d.typ v = true := by
  intro decls
  induction decls with
  | nil => intro _ d hd; cases hd
  | cons d0 ds ih =>
    intro h d hd
    simp only [attrsFit, Bool.and_eq_true] at h
    obtain ⟨h0, hrest⟩ := h
    rcases List.mem_cons.mp hd with he | he
    · subst he
      cases hv : alookup attrs d.name with
      | none => rw [hv] at h0; exact absurd h0 (by simp)
      | some v => rw [hv] at h0; exact ⟨v, rfl, h0⟩
    · exact ih hrest d he

theorem flatDeclOk_parts (d : FieldDecl) (h : flatDeclOk d = true) :
    flatTy d.typ = true ∧ pyStartsWith d.name "_" = false
    ∧ ∃ dv, d.default = .v dv ∧ (dv.isMissing = true ∨ fitsTy d.typ dv = true) := by
  simp only [flatDeclOk, Bool.and_eq_true, Bool.not_eq_true'] at h
  obtain ⟨⟨h1, h2⟩, h3⟩ := h
  refine ⟨h1, h2, ?_⟩
  cases hd : d.default with
  | sf sfv => rw [hd] at h3; exact absurd h3 (by simp)
  | v dv =>
    rw [hd] at h3
    simp only [Bool.or_eq_true] at h3
    exact ⟨dv, rfl, h3⟩

theorem flatSerData_not_mem (cfg : ShiftConfig) (attrs : Attrs) :
    ∀ (decls : List FieldDecl) (n : String),
      n ∉ decls.map (fun d => d.name) →
      alookup (flatSerData cfg attrs decls) n = Option.none := by
  intro decls
  induction decls with
  | nil => intro n _; rfl
  | cons d ds ih =>
    intro n hn
    have hn0 : ¬ (d.name = n) := fun he => hn (by simp [he])
    have hn1 : n ∉ ds.map (fun x => x.name) := fun hm => hn (by simp [hm])
    simp only [flatSerData]
    cases hv : alookup attrs d.name with
    | none => exact ih n hn1
    | some v =>
      try dsimp only
      cases hif : (pyValDfltEq v d.default && !cfg.include_default_fields_in_serialization) with
      | true =>
        simp only [if_true]
        exact ih n hn1
      | false =>
        simp only [Bool.false_eq_true, if_false, alookup, hn0]
        exact ih n hn1

theorem flatSerData_mem_sub (cfg : ShiftConfig) (attrs : Attrs) :
    ∀ (decls : List FieldDecl) (n : String),
      n ∈ (flatSerData cfg attrs decls).map Prod.fst →
      n ∈ decls.map (fun d => d.name) := by
  intro decls
  induction decls with
  | nil => intro n hn; cases hn
  | cons d ds ih =>
    intro n hn
    simp only [flatSerData] at hn
    cases hv : alookup attrs d.name with
    | none =>
      rw [hv] at hn
      exact List.mem_cons_of_mem _ (ih n hn)
    | some v =>
      rw [hv] at hn
      dsimp only at hn
      cases hif : (pyValDfltEq v d.default && !cfg.include_default_fields_in_serialization) with
      | true =>
        rw [hif] at hn
        simp only [if_true] at hn
        exact List.mem_cons_of_mem _ (ih n hn)
      | false =>
        rw [hif] at hn
        simp only [Bool.false_eq_true, if_false, List.map_cons, List.mem_cons] at hn
        rcases hn with he | hm
        · simp [he]
        · exact List.mem_cons_of_mem _ (ih n hm)

theorem flatSerData_distinct (cfg : ShiftConfig) (attrs : Attrs) :
    ∀ (decls : List FieldDecl),
      namesDistinct (decls.map (fun d => d.name)) = true →
      namesDistinct ((flatSerData cfg attrs decls).map Prod.fst) = true := by
  intro decls
  induction decls with
  | nil => intro _; rfl
  | cons d ds ih =>
    intro hnd
    simp only [namesDistinct, List.map_cons, Bool.and_eq_true, Bool.not_eq_true'] at hnd
    obtain ⟨hc, hrest⟩ := hnd
    have h0nm : d.name ∉ ds.map (fun x => x.name) := by simpa using hc
    simp only [flatSerData]
    cases hv : alookup attrs d.name with
    | none => exact ih hrest
    | some v =>
      try dsimp only
      cases hif : (pyValDfltEq v d.default && !cfg.include_default_fields_in_serialization) with
      | true =>
        simp only [if_true]
        exact ih hrest
      | false =>
        simp only [Bool.false_eq_true, if_false, List.map_cons, namesDistinct,
          Bool.and_eq_true, Bool.not_eq_true']
        refine ⟨?_, ih hrest⟩
        have hno : d.name ∉ (flatSerData cfg attrs ds).map Prod.fst :=
          fun hm => h0nm (flatSerData_mem_sub cfg attrs ds d.name hm)
        simpa using hno

theorem alookup_flatSerData (cfg : ShiftConfig) (attrs : Attrs) :
    ∀ (decls : List FieldDecl) (d : FieldDecl) (v : Val),
      d ∈ decls → namesDistinct (decls.map (fun x => x.name)) = true →
      alookup attrs d.name = some v →
      alookup (flatSerData cfg attrs decls) d.name
        = (if pyValDfltEq v d.default && !cfg.include_default_fields_in_serialization
           then Option.none else some v) := by
  intro decls
  induction decls with
  | nil => intro d v hd _ _; cases hd
  | cons d0 ds ih =>
    intro d v hd hnd hv
    simp only [namesDistinct, List.map_cons, Bool.and_eq_true, Bool.not_eq_true'] at hnd
    obtain ⟨hc, hrest⟩ := hnd
    have h0nm : d0.name ∉ ds.map (fun x => x.name) := by simpa using hc
    rcases List.mem_cons.mp hd with he | he
    · subst he
      simp only [flatSerData, hv]
      try dsimp only
      cases hif : (pyValDfltEq v d.default && !cfg.include_default_fields_in_serialization) with
      | true =>
        simp only [if_true]
        exact flatSerData_not_mem cfg attrs ds d.name h0nm
      | false =>
        simp only [Bool.false_eq_true, if_false, alookup]
        simp
    · have hne : ¬ (d0.name = d.name) :=
        fun heq => h0nm (heq ▸ List.mem_map_of_mem (fun x => x.name) he)
      simp only [flatSerData]
      cases hv0 : alookup attrs d0.name with
      | none => exact ih d v he hrest hv
      | some v0 =>
        try dsimp only
        cases hif : (pyValDfltEq v0 d0.default && !cfg.include_default_fields_in_serialization) with
        | true =>
          simp only [if_true]
          exact ih d v he hrest hv
        | false =>
          simp only [Bool.false_eq_true, if_false, alookup, hne]
          exact ih d v he hrest hv

theorem getFieldsGo_flat (mn : String) (cfg : ShiftConfig) (data : List (String × Val)) :
    ∀ (decls : List FieldDecl), (∀ d ∈ decls, flatDeclOk d = true) →
      getFieldsGo mn cfg data decls = .ok (flatFieldsOf data decls) := by
  intro decls
  induction decls with
  | nil => intro _; rfl
  | cons d ds ih =>
    intro hall
    obtain ⟨hft, hpr, dv, hdv, _⟩ := flatDeclOk_parts d (hall d (by simp))
    have hmagic : pyStartsWith d.name "__" = false := pyStartsWith_double d.name hpr
    simp only [getFieldsGo, hmagic, hpr, Bool.false_and, Bool.false_eq_true, if_false,
      flatFieldsOf, List.map_cons, hdv]
    rw [show getFieldsGo mn cfg data ds = .ok (flatFieldsOf data ds) from
      ih (fun g hg => hall g (by simp [hg]))]
    simp only [flatFieldsOf]
    rfl

theorem getValFields_flat (attrs : Attrs) :
    ∀ (decls : List FieldDecl),
      (∀ d ∈ decls, (alookup attrs d.name).isSome = true) →
      getValFields attrs (flatFieldsOf [] decls) = flatFieldsOf attrs decls := by
  intro decls
  induction decls with
  | nil => intro _; rfl
  | cons d ds ih =>
    intro hall
    have h0 := hall d (by simp)
    cases hv : alookup attrs d.name with
    | none => rw [hv] at h0; exact absurd h0 (by simp)
    | some v =>
      have ih2 := ih (fun g hg => hall g (by simp [hg]))
      simp only [flatFieldsOf, List.map_cons, getValFields, List.filterMap_cons,
        List.filterMap_map, alookup, hv] at ih2 ⊢
      try simp only [Function.comp] at ih2 ⊢
      simp [alookup, ih2]

theorem serStream_eq_flatSerStream (cfg : ShiftConfig) (attrs : Attrs) :
    ∀ (decls : List FieldDecl),
      (∀ d ∈ decls, (alookup attrs d.name).isSome = true) →
      serStreamOfFields cfg (flatFieldsOf attrs decls) = flatSerStream cfg attrs decls := by
  intro decls
  induction decls with
  | nil => intro _; rfl
  | cons d ds ih =>
    intro hall
    have h0 := hall d (by simp)
    cases hv : alookup attrs d.name with
    | none => rw [hv] at h0; exact absurd h0 (by simp)
    | some v =>
      have ih2 := ih (fun g hg => hall g (by simp [hg]))
      simp only [serStreamOfFields, flatFieldsOf, flatSerStream, flatSerData,
        List.map_cons, hv] at ih2 ⊢
      try dsimp only
      cases hif : (pyValDfltEq v d.default && !cfg.include_default_fields_in_serialization) with
      | true => simpa [hif] using ih2
      | false => simpa [hif] using ih2

theorem effVal_flatFieldsOf (data : List (String × Val)) (d : FieldDecl) (dv : Val)
    (hdv : d.default = .v dv) (hfit : fitsTy d.typ (flatNewVal data d) = true) :
    effVal { name := d.name, typ := d.typ,
             val := (match alookup data d.name with | some v => v | Option.none => Val.missing),
             default := d.default } = flatNewVal data d := by
  cases hv : alookup data d.name with
  | none => simp [effVal, flatNewVal, hv, hdv, Val.isMissing]
  | some v =>
    rw [show flatNewVal data d = v from by simp [flatNewVal, hv]] at hfit
    simp [effVal, flatNewVal, hv, fitsTy_not_missing _ _ hfit]

theorem constructModel_flat (m : Nat) (ctx : Ctx) (mn : String) (cfg : ShiftConfig)
    (decls : List FieldDecl) (data : List (String × Val)) (st : FRState)
    (hdecls : ∀ d ∈ decls, flatDeclOk d = true)
    (hnames : namesDistinct (decls.map (fun d => d.name)) = true)
    (hdp : cfg.do_processing = true)
    (hfits : ∀ d ∈ decls, fitsTy d.typ (flatNewVal data d) = true) :
    constructModel (m + 3) ctx { name := mn, cfg := cfg, decls := decls } data st
      = (.ok (flatAttrsOf data decls), st) := by
  have hmap : (flatFieldsOf data decls).map (fun f => { f with val := effVal f })
      = flatProcessedFields data decls := by
    simp only [flatFieldsOf, flatProcessedFields, List.map_map]
    refine List.map_congr_left ?_
    intro d hd
    obtain ⟨hft, hpr, dv, hdv, _⟩ := flatDeclOk_parts d (hdecls d hd)
    simp only [Function.comp]
    rw [effVal_flatFieldsOf data d dv hdv (hfits d hd)]
  have hF : ∀ f ∈ flatFieldsOf data decls,
      flatTy f.typ = true
      ∧ (match f.default with | .v _ => true | .sf _ => false) = true
      ∧ fitsTy f.typ (effVal f) = true := by
    intro f hf
    simp only [flatFieldsOf, List.mem_map] at hf
    obtain ⟨d, hd, rfl⟩ := hf
    obtain ⟨hft, hpr, dv, hdv, _⟩ := flatDeclOk_parts d (hdecls d hd)
    refine ⟨hft, by simp [hdv], ?_⟩
    rw [effVal_flatFieldsOf data d dv hdv (hfits d hd)]
    exact hfits d hd
  have hG : ∀ f ∈ flatProcessedFields data decls,
      flatTy f.typ = true ∧ fitsTy f.typ f.val = true := by
    intro f hf
    simp only [flatProcessedFields, List.mem_map] at hf
    obtain ⟨d, hd, rfl⟩ := hf
    exact ⟨(flatDeclOk_parts d (hdecls d hd)).1, hfits d hd⟩
  show constructGo (engine (m + 2)).transformF (engine (m + 2)).validateF (engine (m + 2)).setF
    ctx { name := mn, cfg := cfg, decls := decls } data st = _
  simp only [constructGo, get_fields, ClassDef.info]
  try dsimp only
  rw [getFieldsGo_flat mn cfg data decls hdecls]
  try dsimp only
  simp only [hdp, Bool.not_true, Bool.false_eq_true, if_false]
  rw [transformPhase_flat m ctx { modelName := mn, cfg := cfg, hooks := {} } rfl
    (flatFieldsOf data decls) st hF]
  try dsimp only
  rw [hmap]
  simp only [List.isEmpty_nil, Bool.not_false, Bool.false_eq_true, if_false]
  rw [validatePhase_flat m ctx { modelName := mn, cfg := cfg, hooks := {} } rfl
    (flatProcessedFields data decls) st hG]
  try dsimp only
  simp only [List.isEmpty_nil, Bool.not_false, Bool.not_true, Bool.or_self,
    Bool.false_eq_true, if_false]
  rw [setPhase_flat m ctx { modelName := mn, cfg := cfg, hooks := {} } rfl
    (flatProcessedFields data decls) [] st hG]
  try dsimp only
  rw [updateAttrs_fresh (flatProcessedFields data decls) [] (fun _ _ => rfl)
    (by simpa [flatProcessedFields, List.map_map, Function.comp] using hnames)]
  simp only [List.isEmpty_nil, Bool.not_false, Bool.false_eq_true, if_false, List.nil_append]
  simp [flatProcessedFields, flatAttrsOf, List.map_map, Function.comp]

theorem serializeModel_flat (m : Nat) (ctx : Ctx) (mn : String) (cfg : ShiftConfig)
    (decls : List FieldDecl) (attrs : Attrs) (st : FRState)
    (hdecls : ∀ d ∈ decls, flatDeclOk d = true)
    (hnames : namesDistinct (decls.map (fun d => d.name)) = true)
    (hipf : cfg.include_private_fields_in_serialization = false)
    (hattrs : ∀ d ∈ decls, ∃ v, alookup attrs d.name = some v ∧ fitsTy d.typ v = true) :
    serializeModel (m + 3) ctx { name := mn, cfg := cfg, decls := decls } attrs st
      = (.ok (.dict (flatSerStream cfg attrs decls), attrs), st) := by
  have hpres : ∀ d ∈ decls, (alookup attrs d.name).isSome = true := by
    intro d hd
    obtain ⟨v, hv, _⟩ := hattrs d hd
    simp [hv]
  have hS : ∀ f ∈ flatFieldsOf attrs decls,
      pyStartsWith f.name "_" = false ∧ flatTy f.typ = true
      ∧ fitsTy f.typ f.val = true
      ∧ (match f.default with | .v _ => true | .sf _ => false) = true := by
    intro f hf
    simp only [flatFieldsOf, List.mem_map] at hf
    obtain ⟨d, hd, rfl⟩ := hf
    obtain ⟨hft, hpr, dv, hdv, _⟩ := flatDeclOk_parts d (hdecls d hd)
    obtain ⟨v, hv, hfit⟩ := hattrs d hd
    refine ⟨hpr, hft, ?_, by simp [hdv]⟩
    simp only [hv]
    exact hfit
  have hlook : ∀ f ∈ flatFieldsOf attrs decls, alookup attrs f.name = some f.val := by
    intro f hf
    simp only [flatFieldsOf, List.mem_map] at hf
    obtain ⟨d, hd, rfl⟩ := hf
    obtain ⟨v, hv, _⟩ := hattrs d hd
    simp [hv]
  show serializeModelGo (engine (m + 2)).serializeF ctx
    { name := mn, cfg := cfg, decls := decls } attrs st = _
  simp only [serializeModelGo, get_fields, ClassDef.info]
  try dsimp only
  rw [getFieldsGo_flat mn cfg [] decls hdecls]
  try dsimp only
  rw [getValFields_flat attrs decls hpres]
  simp only [hipf, Bool.false_and, Bool.false_eq_true, if_false]
  rw [serializePhase_flat m ctx { modelName := mn, cfg := cfg, hooks := {} } rfl
    (flatFieldsOf attrs decls) st hS]
  try dsimp only
  rw [serStream_eq_flatSerStream cfg attrs decls hpres]
  rw [show flatSerStream cfg attrs decls
      = (flatSerData cfg attrs decls).map (fun e => ((.str e.1 : Val), e.2)) from rfl]
  rw [show ([] : List (Val × Val)) ++ (flatSerData cfg attrs decls).map
      (fun e => ((.str e.1 : Val), e.2))
    = (flatSerData cfg attrs decls).map (fun e => ((.str e.1 : Val), e.2)) from by simp]
  rw [foldDict_fresh (flatSerData cfg attrs decls) [] (fun e he => by cases he)
    (flatSerData_distinct cfg attrs decls hnames)]
  rw [updateAttrs_id (flatFieldsOf attrs decls) attrs hlook]
  simp [flatSerStream]

theorem flatSerData_cons (cfg : ShiftConfig) (attrs : Attrs) (d : FieldDecl)
    (ds : List FieldDecl) :
    flatSerData cfg attrs (d :: ds)
      = (match flatSerEntry cfg attrs d with
         | some e => e :: flatSerData cfg attrs ds
         | Option.none => flatSerData cfg attrs ds) := by
  simp only [flatSerData, flatSerEntry]
  cases hv : alookup attrs d.name with
  | none => rfl
  | some v =>
    try dsimp only
    cases hif : (pyValDfltEq v d.default && !cfg.include_default_fields_in_serialization) with
    | true => simp
    | false => simp

theorem flatSerData_congr (cfg : ShiftConfig) (attrs1 attrs2 : Attrs) :
    ∀ (decls : List FieldDecl),
      (∀ d ∈ decls, flatSerEntry cfg attrs1 d = flatSerEntry cfg attrs2 d) →
      flatSerData cfg attrs1 decls = flatSerData cfg attrs2 decls := by
  intro decls
  induction decls with
  | nil => intro _; rfl
  | cons d ds ih =>
    intro hall
    rw [flatSerData_cons, flatSerData_cons, ← hall d (by simp)]
    cases flatSerEntry cfg attrs1 d with
    | none => exact ih (fun g hg => hall g (by simp [hg]))
    | some e => rw [ih (fun g hg => hall g (by simp [hg]))]

/-- C8 (amended): for a flat record class — every field of a scalar type,
`Any`, an unparameterized container, or `list[scalar]`, with plain
type-correct (or absent) defaults and distinct non-private names — and a
type-correct attribute state, `serialize()` leaves the attribute dict (and
the resolution state) untouched, so an immediately repeated `serialize()`
returns the identical output.  (The counterexample shows this fails
outside the flat fragment: a `list[Model]` field's serializer overwrites
the stored list's elements.) -/
theorem C8_flat_serialize_idempotent (m : Nat) (ctx : Ctx) (mn : String) (cfg : ShiftConfig)
    (decls : List FieldDecl) (attrs : Attrs) (st : FRState)
    (hdecls : decls.all flatDeclOk = true)
    (hnames : namesDistinct (decls.map (fun d => d.name)) = true)
    (hipf : cfg.include_private_fields_in_serialization = false)
    (hattrs : attrsFit attrs decls = true) :
    ∃ d : Val,
      serializeModel (m + 3) ctx { name := mn, cfg := cfg, decls := decls } attrs st
        = (.ok (d, attrs), st)
      ∧ ∀ (attrs1 : Attrs) (st1 : FRState),
          serializeModel (m + 3) ctx { name := mn, cfg := cfg, decls := decls } attrs st
            = (.ok (d, attrs1), st1) →
          serializeModel (m + 3) ctx { name := mn, cfg := cfg, decls := decls } attrs1 st1
            = (.ok (d, attrs1), st1) := by
  have hdecls' : ∀ d ∈ decls, flatDeclOk d = true := by
    intro d hd
    exact List.all_eq_true.mp hdecls d hd
  have hmem := attrsFit_mem attrs decls hattrs
  have h1 := serializeModel_flat m ctx mn cfg decls attrs st hdecls' hnames hipf hmem
  refine ⟨.dict (flatSerStream cfg attrs decls), h1, ?_⟩
  intro attrs1 st1 h2
  rw [h1] at h2
  injection h2 with hA hst
  injection hA with hP
  injection hP with hd2 hat
  subst hat
  subst hst
  exact h1

/-- C7 (amended): for a flat record class (see `C8_flat_serialize_idempotent`
for the fragment) under a processing, private-excluding configuration, and
a type-correct attribute state, the round trip holds:
`Record(**x.serialize()) == x` evaluates to `True`, leaving the resolution
state untouched.  (The counterexample shows the general claim fails: a
`tuple[…]` field makes the serializer's in-place element write raise
`TypeError`.) -/
theorem C7_flat_roundtrip (m : Nat) (ctx : Ctx) (mn : String) (cfg : ShiftConfig)
    (decls : List FieldDecl) (attrs : Attrs) (st : FRState)
    (hdecls : decls.all flatDeclOk = true)
    (hnames : namesDistinct (decls.map (fun d => d.name)) = true)
    (hdp : cfg.do_processing = true)
    (hipf : cfg.include_private_fields_in_serialization = false)
    (hattrs : attrsFit attrs decls = true) :
    roundtrip (m + 3) ctx { name := mn, cfg := cfg, decls := decls } attrs st
      = (.ok true, st) := by
  have hdecls' : ∀ d ∈ decls, flatDeclOk d = true := by
    intro d hd
    exact List.all_eq_true.mp hdecls d hd
  have hmem := attrsFit_mem attrs decls hattrs
  have hser := serializeModel_flat m ctx mn cfg decls attrs st hdecls' hnames hipf hmem
  have hfits : ∀ d ∈ decls, fitsTy d.typ (flatNewVal (flatSerData cfg attrs decls) d) = true := by
    intro d hd
    obtain ⟨v, hv, hfit⟩ := hmem d hd
    obtain ⟨hft, hpr, dv, hdv, hdvfit⟩ := flatDeclOk_parts d (hdecls' d hd)
    have hl := alookup_flatSerData cfg attrs decls d v hd hnames hv
    cases hif : (pyValDfltEq v d.default && !cfg.include_default_fields_in_serialization) with
    | false =>
      rw [hif] at hl
      simp only [Bool.false_eq_true, if_false] at hl
      simp [flatNewVal, hl, hfit]
    | true =>
      rw [hif] at hl
      simp only [if_true] at hl
      rw [show flatNewVal (flatSerData cfg attrs decls) d = dv from by
        simp [flatNewVal, hl, hdv]]
      rcases hdvfit with hmiss | hfitdv
      · exfalso
        have hdv_m : dv = .missing := by
          cases dv <;> simp [Val.isMissing] at hmiss <;> rfl
        subst hdv_m
        have hc1 : pyValDfltEq v d.default = true := by
          have h3 := hif
          simp only [Bool.and_eq_true] at h3
          exact h3.1
        rw [hdv] at hc1
        have hm2 := pyValEq_missing_right v hc1
        rw [fitsTy_not_missing _ _ hfit] at hm2
        exact absurd hm2 (by simp)
      · exact hfitdv
  have hcon := constructModel_flat m ctx mn cfg decls (flatSerData cfg attrs decls) st
    hdecls' hnames hdp hfits
  have hymem : ∀ d ∈ decls,
      ∃ w, alookup (flatAttrsOf (flatSerData cfg attrs decls) decls) d.name = some w
        ∧ fitsTy d.typ w = true := by
    intro d hd
    exact ⟨flatNewVal (flatSerData cfg attrs decls) d,
      alookup_map_decl (flatNewVal (flatSerData cfg attrs decls)) decls d hd hnames,
      hfits d hd⟩
  have hsery := serializeModel_flat m ctx mn cfg decls
    (flatAttrsOf (flatSerData cfg attrs decls) decls) st hdecls' hnames hipf hymem
  have hE : flatSerData cfg (flatAttrsOf (flatSerData cfg attrs decls) decls) decls
      = flatSerData cfg attrs decls := by
    refine flatSerData_congr cfg _ attrs decls ?_
    intro d hd
    obtain ⟨v, hv, hfit⟩ := hmem d hd
    obtain ⟨hft, hpr, dv, hdv, hdvfit⟩ := flatDeclOk_parts d (hdecls' d hd)
    have hwl : alookup (flatAttrsOf (flatSerData cfg attrs decls) decls) d.name
        = some (flatNewVal (flatSerData cfg attrs decls) d) :=
      alookup_map_decl (flatNewVal (flatSerData cfg attrs decls)) decls d hd hnames
    have hl := alookup_flatSerData cfg attrs decls d v hd hnames hv
    cases hif : (pyValDfltEq v d.default && !cfg.include_default_fields_in_serialization) with
    | false =>
      rw [hif] at hl
      simp only [Bool.false_eq_true, if_false] at hl
      have hw : flatNewVal (flatSerData cfg attrs decls) d = v := by
        simp [flatNewVal, hl]
      simp only [flatSerEntry, hwl, hw, hv]
    | true =>
      rw [hif] at hl
      simp only [if_true] at hl
      have hw : flatNewVal (flatSerData cfg attrs decls) d = dv := by
        simp [flatNewVal, hl, hdv]
      have hc2 : (!cfg.include_default_fields_in_serialization) = true := by
        have h3 := hif
        simp only [Bool.and_eq_true] at h3
        exact h3.2
      have hc1 : pyValDfltEq v d.default = true := by
        have h3 := hif
        simp only [Bool.and_eq_true] at h3
        exact h3.1
      rw [hdv] at hc1
      simp only [pyValDfltEq] at hc1
      simp only [flatSerEntry, hwl, hw, hv, hif, hdv, if_true]
      simp [pyValDfltEq, pyValEq_refl, hc2, hc1]
  simp only [roundtrip]
  rw [hser]
  try dsimp only
  rw [show flatSerStream cfg attrs decls
      = (flatSerData cfg attrs decls).map (fun e => ((.str e.1 : Val), e.2)) from rfl]
  rw [dictKwargs_strs (flatSerData cfg attrs decls)]
  try dsimp only
  rw [hcon]
  try dsimp only
  simp only [modelEq]
  rw [if_neg (by simp : ¬ ((({ name := mn, cfg := cfg, decls := decls } : ClassDef).name
    ≠ ({ name := mn, cfg := cfg, decls := decls } : ClassDef).name)))]
  rw [hsery]
  try dsimp only
  rw [hser]
  try dsimp only
  rw [show flatSerStream cfg (flatAttrsOf (flatSerData cfg attrs decls) decls) decls
      = flatSerStream cfg attrs decls from by simp [flatSerStream, hE]]
  rw [pyValEq_refl (.dict (flatSerStream cfg attrs decls))]

/-- Closed instance of `C7_flat_roundtrip`: a concrete three-field flat
class (`a : int`, `b : str = "d"`, `c : list[int]`) round-trips under the
default configuration. -/
theorem C7_flat_roundtrip_witness :
    roundtrip 3 {}
      { name := "T", cfg := {},
        decls := [⟨"a", .key .intK, .v .missing⟩, ⟨"b", .key .strK, .v (.str "d")⟩,
          ⟨"c", .generic .listK [.key .intK], .v .missing⟩] }
      [("a", .int 1), ("b", .str "x"), ("c", .list [.int 1, .int 2])] {}
      = (.ok true, {}) :=
  C7_flat_roundtrip 0 {} "T" {}
    [⟨"a", .key .intK, .v .missing⟩, ⟨"b", .key .strK, .v (.str "d")⟩,
      ⟨"c", .generic .listK [.key .intK], .v .missing⟩]
    [("a", .int 1), ("b", .str "x"), ("c", .list [.int 1, .int 2])] {}
    rfl rfl rfl rfl rfl

/-- Closed instance of `C8_flat_serialize_idempotent` at the same concrete
flat class: serialize leaves the attribute dict unchanged and a repeated
call returns the identical output. -/
theorem C8_flat_serialize_idempotent_witness :
    ∃ d : Val,
      serializeModel 3 {}
          { name := "T", cfg := {},
            decls := [⟨"a", .key .intK, .v .missing⟩, ⟨"b", .key .strK, .v (.str "d")⟩,
              ⟨"c", .generic .listK [.key .intK], .v .missing⟩] }
          [("a", .int 1), ("b", .str "x"), ("c", .list [.int 1, .int 2])] {}
        = (.ok (d, [("a", .int 1), ("b", .str "x"), ("c", .list [.int 1, .int 2])]), {})
      ∧ ∀ (attrs1 : Attrs) (st1 : FRState),
          serializeModel 3 {}
              { name := "T", cfg := {},
                decls := [⟨"a", .key .intK, .v .missing⟩, ⟨"b", .key .strK, .v (.str "d")⟩,
                  ⟨"c", .generic .listK [.key .intK], .v .missing⟩] }
              [("a", .int 1), ("b", .str "x"), ("c", .list [.int 1, .int 2])] {}
            = (.ok (d, attrs1), st1) →
          serializeModel 3 {}
              { name := "T", cfg := {},
                decls := [⟨"a", .key .intK, .v .missing⟩, ⟨"b", .key .strK, .v (.str "d")⟩,
                  ⟨"c", .generic .listK [.key .intK], .v .missing⟩] }
              attrs1 st1
            = (.ok (d, attrs1), st1) :=
  C8_flat_serialize_idempotent 0 {} "T" {}
    [⟨"a", .key .intK, .v .missing⟩, ⟨"b", .key .strK, .v (.str "d")⟩,
      ⟨"c", .generic .listK [.key .intK], .v .missing⟩]
    [("a", .int 1), ("b", .str "x"), ("c", .list [.int 1, .int 2])] {}
    rfl rfl rfl rfl

end StarShift
